import Mathlib

/-! Morphe model → PostgreSQL table compiler

A shallow embedding of `pkg/compile/compile_models.go` and `pkg/psqldef/table.go`.

* Go maps are association lists whose list order is the order in which a `range`
  over the map yields the entries (Go leaves that order unspecified); keys are
  distinct, which the theorems that need it assume as `GoMap.WF`.
* Functions returning `(value, error)` return `Except Err value`.
* Slices are lists of values. `quoteReservedColumnNames`, the one function that
  writes into a slice it was given, is also embedded over a store of backing arrays
  (`quoteReservedColumnNamesInPlace`), where slices may share elements.
* Functions and tables that the compiler imports (naming helpers, type maps,
  `yamlops` predicates, `strcase`, model validation) are the fields of `Deps`;
  the registry is the record `Registry` of its read-only lookups.
-/

namespace Morphe

/-! ## Strings and Go maps -/

/-- Lexicographic comparison of code-point lists: Go compares strings bytewise,
which on UTF-8 text is the order of the code points. -/
def leCodes : List Nat → List Nat → Bool
  | [], _ => true
  | _ :: _, [] => false
  | a :: as, b :: bs => decide (a < b) || (decide (a = b) && leCodes as bs)

/-- The code points of a string. -/
def codes (s : String) : List Nat := s.data.map Char.toNat

/-- Go string order `s <= t`. -/
def strLE (s t : String) : Prop := leCodes (codes s) (codes t) = true

instance strLE.decidable : DecidableRel strLE := fun s t =>
  inferInstanceAs (Decidable (leCodes (codes s) (codes t) = true))

/-- A Go `map[string]V`: the entries in the order a `range` yields them. -/
abbrev GoMap (V : Type) := List (String × V)

/-- The key list of a map, in iteration order. -/
def GoMap.keys {V : Type} (m : GoMap V) : List String := m.map Prod.fst

/-- Well-formed Go map: no key occurs twice. -/
def GoMap.WF {V : Type} (m : GoMap V) : Prop := m.keys.Nodup

instance GoMap.WF.decidable {V : Type} (m : GoMap V) : Decidable m.WF :=
  inferInstanceAs (Decidable (List.Nodup (m.map Prod.fst)))

/-- Two-valued lookup `v, ok := m[k]`. -/
def GoMap.get? {V : Type} : GoMap V → String → Option V
  | [], _ => none
  | (k, v) :: rest, key => if k = key then some v else GoMap.get? rest key

/-- One-valued lookup `m[k]`, which yields the zero value on a miss. -/
def GoMap.index {V : Type} (m : GoMap V) (key : String) (zero : V) : V :=
  (m.get? key).getD zero

/-- The helper `core.MapKeysSorted`: the keys of the map in ascending order. -/
def MapKeysSorted {V : Type} (m : GoMap V) : List String :=
  m.keys.insertionSort strLE

/-- The helper `slices.Index`: first position of `v` in `s`, or `-1`. -/
def slicesIndexFrom (v : String) : List String → Int → Int
  | [], _ => -1
  | x :: xs, i => if x = v then i else slicesIndexFrom v xs (i + 1)

/-- The call `slices.Index(s, v)`. -/
def slicesIndex (s : List String) (v : String) : Int := slicesIndexFrom v s 0

/-- The helper `strings.Join`. -/
def stringsJoin : List String → String → String
  | [], _ => ""
  | [a], _ => a
  | a :: b :: rest, sep => a ++ sep ++ stringsJoin (b :: rest) sep

/-! ## Errors -/

/-- Error values. `errorf` is `fmt.Errorf` with the formatted text; `external`
stands for an error made outside this package (registry, validation, hooks);
`indexOutOfRange` is the run-time panic of an out-of-range slice index. -/
inductive Err where
  | errorf (text : String)
  | ErrNoModelTables
  | ErrNoSchema
  | ErrNoModelSchema
  | external (text : String)
  | indexOutOfRange
  deriving DecidableEq, Repr

deriving instance DecidableEq for Except

/-! ## Input data model (package `yaml` of morphe-go) -/

/-- A model field: its declared type. -/
structure ModelField where
  Type_ : String
  deriving DecidableEq, Repr

/-- A model identifier: an ordered list of field names. -/
structure ModelIdentifier where
  Fields : List String
  deriving DecidableEq, Repr

/-- A relation to another model: its relation type. -/
structure ModelRelation where
  Type_ : String
  deriving DecidableEq, Repr

/-- A model: name, fields, identifiers and relations (keyed by related model name). -/
structure Model where
  Name : String
  Fields : GoMap ModelField
  Identifiers : GoMap ModelIdentifier
  Related : GoMap ModelRelation
  deriving DecidableEq, Repr

/-- An enum of the registry; only its name is read here. -/
structure Enum where
  Name : String
  deriving DecidableEq, Repr

/-! ## Output data model (package `psqldef`) -/

/-- A storage type, `type PSQLType string`. -/
abbrev PSQLType := String

/-- Modelled from the spec: the storage-type constants of `psqldef` are not among
the sources; this is the integer type of enum-backed and junction columns. -/
def PSQLTypeInteger : PSQLType := "INTEGER"

/-- Modelled from the spec: the storage-type constants of `psqldef` are not among
the sources; this is the auto-incrementing type of a junction table's `id`. -/
def PSQLTypeSerial : PSQLType := "SERIAL"

/-- A table column. -/
structure Column where
  Name : String
  Type_ : PSQLType
  NotNull : Bool
  PrimaryKey : Bool
  Default : String
  deriving DecidableEq, Repr

/-- A foreign key. -/
structure ForeignKey where
  Schema : String
  Name : String
  TableName : String
  ColumnNames : List String
  RefTableName : String
  RefColumnNames : List String
  OnDelete : String
  OnUpdate : String
  deriving DecidableEq, Repr

/-- An index. -/
structure Index where
  Name : String
  TableName : String
  Columns : List String
  IsUnique : Bool
  deriving DecidableEq, Repr

/-- A unique constraint. -/
structure UniqueConstraint where
  Name : String
  TableName : String
  ColumnNames : List String
  deriving DecidableEq, Repr

/-- Modelled from the spec: the declaration of `InsertStatement` is not among the
sources and the spec does not describe seed rows; a seed row is kept as its table,
its columns and its rendered values. The model compiler never builds one. -/
structure InsertStatement where
  TableName : String
  Columns : List String
  Values : List (List String)
  deriving DecidableEq, Repr

/-- A table. `SeedData` is never written by the model compiler, so it has its zero
value unless a hook sets it. -/
structure Table where
  Schema : String
  Name : String
  Columns : List Column
  Indices : List Index
  ForeignKeys : List ForeignKey
  UniqueConstraints : List UniqueConstraint
  SeedData : List InsertStatement := []
  deriving DecidableEq, Repr

/-- The helper `clone.DeepCloneSlice`: a copy of the slice whose elements are copies;
on values a copy is equal to what it copies. -/
def DeepCloneSlice {α : Type} (s : List α) : List α := s

/-- The method `Table.DeepClone`. -/
def Table.DeepClone (t : Table) : Table :=
  { Schema := t.Schema
    Name := t.Name
    Columns := DeepCloneSlice t.Columns
    Indices := DeepCloneSlice t.Indices
    ForeignKeys := DeepCloneSlice t.ForeignKeys
    UniqueConstraints := DeepCloneSlice t.UniqueConstraints
    SeedData := DeepCloneSlice t.SeedData }

/-- The helper `clone.DeepCloneSlicePointers`: a new slice of pointers to deep clones
of the elements. -/
def DeepCloneSlicePointers (tables : List Table) : List Table :=
  tables.map Table.DeepClone

/-- The names a table carries: its own name, then the names of its columns, of its
foreign keys, of its indices and of its unique constraints, then the column list of
each unique constraint joined by commas. -/
def Table.names (t : Table) : List (List String) :=
  [ [t.Name],
    t.Columns.map (fun c => c.Name),
    t.ForeignKeys.map (fun k => k.Name),
    t.Indices.map (fun i => i.Name),
    t.UniqueConstraints.map (fun u => u.Name),
    t.UniqueConstraints.map (fun u => stringsJoin u.ColumnNames ",") ]

/-! ## Configuration, registry and imported helpers -/

/-- The model section of the configuration. -/
structure MorpheModelsConfig where
  Schema : String
  UseBigSerial : Bool
  deriving DecidableEq, Repr

/-- The configuration `cfg.MorpheConfig`. -/
structure MorpheConfig where
  MorpheModelsConfig : MorpheModelsConfig
  deriving DecidableEq, Repr

/-- Modelled from the spec: `cfg.MorpheConfig.Validate` is not among the sources
(only its error values are); validation fails with a distinct error exactly when
the schema name is empty. -/
def MorpheConfig.Validate (config : MorpheConfig) : Option Err :=
  if config.MorpheModelsConfig.Schema = "" then some Err.ErrNoModelSchema else none

/-- The read-only registry interface. -/
structure Registry where
  GetModel : String → Except Err Model
  GetEnum : String → Except Err Enum
  GetAllModels : GoMap Model
  GetAllEnums : GoMap Enum

/-- Functions and tables the compiler calls but does not define in
`compile_models.go`: the naming helpers of this package, `Pluralize`,
`strcase.ToSnakeCaseLower`, the `yamlops` relation predicates, the four type maps
of `typemap`, and `yaml.Model.Validate`. -/
structure Deps where
  GetTableNameFromModel : String → String
  GetColumnNameFromField : String → String
  GetForeignKeyColumnName : String → String → String
  GetForeignKeyConstraintName : String → String → String
  GetIndexName : String → String → String
  GetJunctionTableName : String → String → String
  GetJunctionTableForeignKeyConstraintName : String → String → String → String
  GetJunctionTableUniqueConstraintName :
    String → String → String → String → String → String
  Pluralize : String → String
  ToSnakeCaseLower : String → String
  IsRelationFor : String → Bool
  IsRelationOne : String → Bool
  IsRelationMany : String → Bool
  MorpheModelFieldToPSQLField : GoMap PSQLType
  MorpheModelFieldToPSQLFieldBigSerial : GoMap PSQLType
  MorpheModelFieldToPSQLFieldForeign : GoMap PSQLType
  MorpheModelFieldToPSQLFieldBigSerialForeign : GoMap PSQLType
  ValidateModel : Model → GoMap Enum → Option Err

/-- A `for _, key := range keys` loop whose body may return an error: the body
`step` maps the loop state to a new state or to the error returned. -/
def rangeKeys {σ : Type} (step : String → σ → Except Err σ) :
    List String → σ → Except Err σ
  | [], s => Except.ok s
  | key :: rest, s =>
    match step key s with
    | Except.error e => Except.error e
    | Except.ok s1 => rangeKeys step rest s1

/-! ## `compile_models.go` -/

/-- Body of the loop of `getColumnsForModelFields`; the state is the pair
`(columns, enumForeignKeys)`. -/
def fieldStep (D : Deps) (config : MorpheConfig) (r : Registry) (typeMap : GoMap PSQLType)
    (tableName : String) (primaryID : ModelIdentifier) (modelFields : GoMap ModelField)
    (fieldName : String) (acc : List Column × List ForeignKey) :
    Except Err (List Column × List ForeignKey) :=
  let field := modelFields.index fieldName { Type_ := "" }
  let columnName := D.GetColumnNameFromField fieldName
  match typeMap.get? field.Type_ with
  | some columnType =>
    let column : Column :=
      { Name := columnName
        Type_ := columnType
        NotNull := false
        PrimaryKey := slicesIndex primaryID.Fields fieldName != -1
        Default := "" }
    Except.ok (acc.1 ++ [column], acc.2)
  | none =>
    match r.GetEnum field.Type_ with
    | Except.error _ =>
      Except.error (Err.errorf
        ("morphe model field '" ++ fieldName ++ "' has unsupported type '" ++ field.Type_ ++ "'"))
    | Except.ok enumType =>
      let columnName := columnName ++ "_id"
      let enumTableName := D.Pluralize (D.ToSnakeCaseLower enumType.Name)
      let foreignKey : ForeignKey :=
        { Schema := config.MorpheModelsConfig.Schema
          Name := D.GetForeignKeyConstraintName tableName columnName
          TableName := tableName
          ColumnNames := [columnName]
          RefTableName := enumTableName
          RefColumnNames := ["id"]
          OnDelete := "CASCADE"
          OnUpdate := "" }
      let column : Column :=
        { Name := columnName
          Type_ := PSQLTypeInteger
          NotNull := true
          PrimaryKey := slicesIndex primaryID.Fields fieldName != -1
          Default := "" }
      Except.ok (acc.1 ++ [column], acc.2 ++ [foreignKey])

/-- The function `getColumnsForModelFields`. -/
def getColumnsForModelFields (D : Deps) (config : MorpheConfig) (r : Registry)
    (typeMap : GoMap PSQLType) (tableName : String) (primaryID : ModelIdentifier)
    (modelFields : GoMap ModelField) : Except Err (List Column × List ForeignKey) :=
  rangeKeys (fieldStep D config r typeMap tableName primaryID modelFields)
    (MapKeysSorted modelFields) ([], [])

/-- Body of the loop of `getColumnsForModelRelations`; the state is `columns`. -/
def relationColumnStep (D : Deps) (r : Registry) (typeMap : GoMap PSQLType)
    (relatedModels : GoMap ModelRelation) (relatedModelName : String)
    (columns : List Column) : Except Err (List Column) :=
  let modelRelation := relatedModels.index relatedModelName { Type_ := "" }
  let relationType := modelRelation.Type_
  match r.GetModel relatedModelName with
  | Except.error modelErr => Except.error modelErr
  | Except.ok relatedModel =>
    match relatedModel.Identifiers.get? "primary" with
    | none =>
      Except.error (Err.errorf
        ("related model " ++ relatedModelName ++ " has no primary identifier"))
    | some primaryID =>
      match primaryID.Fields with
      | [targetPrimaryIdName] =>
        match relatedModel.Fields.get? targetPrimaryIdName with
        | none =>
          Except.error (Err.errorf
            ("related entity " ++ relatedModelName ++ " primary identifier field "
              ++ targetPrimaryIdName ++ " not found"))
        | some targetPrimaryIdField =>
          if D.IsRelationFor relationType && D.IsRelationOne relationType then
            let columnName := D.GetForeignKeyColumnName relatedModelName targetPrimaryIdName
            match typeMap.get? targetPrimaryIdField.Type_ with
            | none =>
              Except.error (Err.errorf
                ("morphe related model field '" ++ targetPrimaryIdName
                  ++ "' has unsupported type '" ++ targetPrimaryIdField.Type_ ++ "'"))
            | some columnType =>
              let column : Column :=
                { Name := columnName
                  Type_ := columnType
                  NotNull := true
                  PrimaryKey := false
                  Default := "" }
              Except.ok (columns ++ [column])
          else Except.ok columns
      | _ =>
        Except.error (Err.errorf
          ("related entity " ++ relatedModelName
            ++ " primary identifier must have exactly one field"))

/-- The function `getColumnsForModelRelations`. -/
def getColumnsForModelRelations (D : Deps) (r : Registry) (typeMap : GoMap PSQLType)
    (relatedModels : GoMap ModelRelation) : Except Err (List Column) :=
  rangeKeys (relationColumnStep D r typeMap relatedModels) (MapKeysSorted relatedModels) []

/-- Body of the loop of `getForeignKeysForModelRelations`; the state is `foreignKeys`. -/
def relationForeignKeyStep (D : Deps) (schema tableName : String) (r : Registry)
    (relatedModels : GoMap ModelRelation) (relatedModelName : String)
    (foreignKeys : List ForeignKey) : Except Err (List ForeignKey) :=
  let modelRelation := relatedModels.index relatedModelName { Type_ := "" }
  let relationType := modelRelation.Type_
  match r.GetModel relatedModelName with
  | Except.error modelErr => Except.error modelErr
  | Except.ok relatedModel =>
    match relatedModel.Identifiers.get? "primary" with
    | none =>
      Except.error (Err.errorf
        ("related model " ++ relatedModelName ++ " has no primary identifier"))
    | some primaryID =>
      match primaryID.Fields with
      | [targetPrimaryIdName] =>
        match relatedModel.Fields.get? targetPrimaryIdName with
        | none =>
          Except.error (Err.errorf
            ("related entity " ++ relatedModelName ++ " primary identifier field "
              ++ targetPrimaryIdName ++ " not found"))
        | some _ =>
          if D.IsRelationFor relationType && D.IsRelationOne relationType then
            let columnName := D.GetForeignKeyColumnName relatedModelName targetPrimaryIdName
            let refTableName := D.GetTableNameFromModel relatedModelName
            let refColumnName := D.GetColumnNameFromField targetPrimaryIdName
            let foreignKey : ForeignKey :=
              { Schema := schema
                Name := D.GetForeignKeyConstraintName tableName columnName
                TableName := tableName
                ColumnNames := [columnName]
                RefTableName := refTableName
                RefColumnNames := [refColumnName]
                OnDelete := "CASCADE"
                OnUpdate := "" }
            Except.ok (foreignKeys ++ [foreignKey])
          else Except.ok foreignKeys
      | _ =>
        Except.error (Err.errorf
          ("related entity " ++ relatedModelName
            ++ " primary identifier must have exactly one field"))

/-- The function `getForeignKeysForModelRelations`. -/
def getForeignKeysForModelRelations (D : Deps) (schema tableName : String) (r : Registry)
    (relatedModels : GoMap ModelRelation) : Except Err (List ForeignKey) :=
  rangeKeys (relationForeignKeyStep D schema tableName r relatedModels)
    (MapKeysSorted relatedModels) []

/-- The index made for one owning column of a foreign key. -/
def foreignKeyIndex (D : Deps) (tableName columnName : String) : Index :=
  { Name := D.GetIndexName tableName columnName
    TableName := tableName
    Columns := [columnName]
    IsUnique := false }

/-- The function `getIndicesForForeignKeys`: one index per owning column of each
foreign key, in order. -/
def getIndicesForForeignKeys (D : Deps) (tableName : String) :
    List ForeignKey → List Index
  | [] => []
  | fk :: rest =>
    fk.ColumnNames.map (foreignKeyIndex D tableName)
      ++ getIndicesForForeignKeys D tableName rest

/-- The junction table that the loop body of `getJunctionTablesForForManyRelations`
builds (table name, column names, columns, foreign keys, unique constraint, indices)
once the owning model `modelName` with primary field `primaryIdName` and the related
model `relatedModelName` with primary field `relatedPrimaryIdName` are known. -/
def junctionTableFor (D : Deps) (schema modelName primaryIdName relatedModelName
    relatedPrimaryIdName : String) : Table :=
  let tableName := D.GetTableNameFromModel modelName
  let junctionTableName := D.GetJunctionTableName modelName relatedModelName
  let sourceColumnName := D.GetForeignKeyColumnName modelName primaryIdName
  let targetColumnName := D.GetForeignKeyColumnName relatedModelName relatedPrimaryIdName
  let columns : List Column :=
    [ { Name := "id", Type_ := PSQLTypeSerial, NotNull := false,
        PrimaryKey := true, Default := "" },
      { Name := sourceColumnName, Type_ := PSQLTypeInteger, NotNull := false,
        PrimaryKey := false, Default := "" },
      { Name := targetColumnName, Type_ := PSQLTypeInteger, NotNull := false,
        PrimaryKey := false, Default := "" } ]
  let foreignKeys : List ForeignKey :=
    [ { Schema := schema
        Name := D.GetJunctionTableForeignKeyConstraintName junctionTableName
          modelName primaryIdName
        TableName := junctionTableName
        ColumnNames := [sourceColumnName]
        RefTableName := tableName
        RefColumnNames := [D.GetColumnNameFromField primaryIdName]
        OnDelete := "CASCADE"
        OnUpdate := "" },
      { Schema := schema
        Name := D.GetJunctionTableForeignKeyConstraintName junctionTableName
          relatedModelName relatedPrimaryIdName
        TableName := junctionTableName
        ColumnNames := [targetColumnName]
        RefTableName := D.GetTableNameFromModel relatedModelName
        RefColumnNames := [D.GetColumnNameFromField relatedPrimaryIdName]
        OnDelete := "CASCADE"
        OnUpdate := "" } ]
  let uniqueConstraints : List UniqueConstraint :=
    [ { Name := D.GetJunctionTableUniqueConstraintName junctionTableName
          modelName primaryIdName relatedModelName relatedPrimaryIdName
        TableName := junctionTableName
        ColumnNames := [sourceColumnName, targetColumnName] } ]
  let indices := getIndicesForForeignKeys D junctionTableName foreignKeys
  { Schema := schema
    Name := junctionTableName
    Columns := columns
    ForeignKeys := foreignKeys
    Indices := indices
    UniqueConstraints := uniqueConstraints }

/-- Body of the loop of `getJunctionTablesForForManyRelations`; the state is
`junctionTables`. -/
def junctionStep (D : Deps) (schema : String) (r : Registry) (model : Model)
    (primaryIdName : String) (relatedModelName : String)
    (junctionTables : List Table) : Except Err (List Table) :=
  let modelName := model.Name
  let modelRelation := model.Related.index relatedModelName { Type_ := "" }
  let relationType := modelRelation.Type_
  if D.IsRelationFor relationType && D.IsRelationMany relationType then
    match r.GetModel relatedModelName with
    | Except.error modelErr => Except.error modelErr
    | Except.ok relatedModel =>
      match relatedModel.Identifiers.get? "primary" with
      | none =>
        Except.error (Err.errorf
          ("related model " ++ relatedModelName ++ " has no primary identifier"))
      | some relatedPrimaryID =>
        match relatedPrimaryID.Fields with
        | [relatedPrimaryIdName] =>
          let junctionTable :=
            junctionTableFor D schema modelName primaryIdName relatedModelName
              relatedPrimaryIdName
          Except.ok (junctionTables ++ [junctionTable])
        | _ =>
          Except.error (Err.errorf
            ("related model " ++ relatedModelName
              ++ " primary identifier must have exactly one field"))
  else Except.ok junctionTables

/-- The function `getJunctionTablesForForManyRelations`. -/
def getJunctionTablesForForManyRelations (D : Deps) (schema : String) (r : Registry)
    (model : Model) : Except Err (List Table) :=
  let modelName := model.Name
  match model.Identifiers.get? "primary" with
  | none => Except.error (Err.errorf ("model " ++ modelName ++ " has no primary identifier"))
  | some primaryID =>
    match primaryID.Fields with
    | [primaryIdName] =>
      rangeKeys (junctionStep D schema r model primaryIdName) (MapKeysSorted model.Related) []
    | _ =>
      Except.error (Err.errorf
        ("model " ++ modelName ++ " primary identifier must have exactly one field"))

/-- The unique index that `addUniqueIndicesFromIdentifiers` makes for one
identifier. -/
def identifierIndex (D : Deps) (tableName : String) (identifier : ModelIdentifier) : Index :=
  let columnNames := identifier.Fields.map D.GetColumnNameFromField
  let indexName :=
    match columnNames with
    | [only] => "idx_" ++ tableName ++ "_" ++ only
    | _ => "idx_" ++ tableName ++ "_" ++ stringsJoin columnNames "_"
  { Name := indexName
    TableName := tableName
    Columns := columnNames
    IsUnique := true }

/-- The function `addUniqueIndicesFromIdentifiers`. The loop ranges over the map
itself, so the entries are visited in the iteration order of the map. -/
def addUniqueIndicesFromIdentifiers (D : Deps) (table : Table) :
    GoMap ModelIdentifier → Table
  | [] => table
  | (idName, identifier) :: rest =>
    if idName = "primary" then addUniqueIndicesFromIdentifiers D table rest
    else
      addUniqueIndicesFromIdentifiers D
        { table with Indices := table.Indices ++ [identifierIndex D table.Name identifier] }
        rest

/-- The map literal `reservedWords` of `quoteReservedColumnNames`. -/
def reservedWords : GoMap Bool :=
  [ ("name", true), ("type", true), ("user", true), ("case", true), ("when", true),
    ("then", true), ("else", true), ("end", true), ("null", true), ("true", true),
    ("false", true), ("select", true), ("insert", true), ("update", true),
    ("delete", true), ("from", true), ("where", true), ("group", true), ("order", true),
    ("limit", true), ("offset", true), ("join", true), ("on", true), ("using", true),
    ("and", true), ("or", true), ("not", true), ("between", true), ("alter", true),
    ("table", true), ("index", true), ("unique", true), ("primary", true),
    ("foreign", true), ("key", true) ]

/-- What the inner loop of `quoteReservedColumnNames` leaves in one slot of an
index column list. -/
def quoteColumn (colName : String) : String :=
  if reservedWords.index colName false then "\"" ++ colName ++ "\"" else colName

/-- The function `quoteReservedColumnNames` on a table whose index column slices are
its own, as `morpheModelToPSQLTables` builds them (`[]string{columnName}` in
`getIndicesForForeignKeys`, `make` in `addUniqueIndicesFromIdentifiers` and in the
junction tables): every write `idx.Columns[colIdx] = ...` then changes that index
alone, and the call is a map over the index columns. The same function with its writes
going through backing arrays that other slices may share is
`quoteReservedColumnNamesInPlace` below. -/
def quoteReservedColumnNames (table : Table) : Table :=
  { table with
    Indices := table.Indices.map (fun idx => { idx with Columns := idx.Columns.map quoteColumn }) }

/-! ### `quoteReservedColumnNames` on slices that may share a backing array -/

/-- The string elements of the backing arrays: `store a p` is element `p` of
backing array `a`. -/
abbrev Store := Nat → Nat → String

/-- The assignment of `value` to element `p` of backing array `a`. -/
def Store.write (store : Store) (a p : Nat) (value : String) : Store :=
  fun a1 p1 => if a1 = a ∧ p1 = p then value else store a1 p1

/-- A value of type `[]string`: the backing array the slice points into, the
position of its element 0 in that array, and its length. The capacity plays no part,
nothing here appends. -/
structure StringSlice where
  Backing : Nat
  Offset : Nat
  Len : Nat
  deriving DecidableEq, Repr

/-- The elements of a slice, read from the store. -/
def StringSlice.read (s : StringSlice) (store : Store) : List String :=
  (List.range s.Len).map (fun i => store s.Backing (s.Offset + i))

/-- Element `p` of backing array `a` is an element of the slice. -/
def StringSlice.covers (s : StringSlice) (a p : Nat) : Prop :=
  a = s.Backing ∧ s.Offset ≤ p ∧ p < s.Offset + s.Len

/-- Two slices have an element of a backing array in common (both are non-empty
stretches of the same array, and each starts before the other ends). -/
def StringSlice.shares (s1 s2 : StringSlice) : Bool :=
  decide (s1.Backing = s2.Backing ∧ 0 < s1.Len ∧ 0 < s2.Len ∧
    s1.Offset < s2.Offset + s2.Len ∧ s2.Offset < s1.Offset + s1.Len)

/-- An `Index` whose `Columns` is a slice header. -/
structure IndexInStore where
  Name : String
  TableName : String
  Columns : StringSlice
  IsUnique : Bool
  deriving DecidableEq, Repr

/-- A `ForeignKey` whose `ColumnNames` and `RefColumnNames` are slice headers. -/
structure ForeignKeyInStore where
  Schema : String
  Name : String
  TableName : String
  ColumnNames : StringSlice
  RefTableName : String
  RefColumnNames : StringSlice
  OnDelete : String
  OnUpdate : String
  deriving DecidableEq, Repr

/-- A `UniqueConstraint` whose `ColumnNames` is a slice header. -/
structure UniqueConstraintInStore where
  Name : String
  TableName : String
  ColumnNames : StringSlice
  deriving DecidableEq, Repr

/-- A `Table` whose string slices are slice headers into the store. The columns hold
no slice; the seed rows, which `quoteReservedColumnNames` does not range over, are
kept as values. -/
structure TableInStore where
  Schema : String
  Name : String
  Columns : List Column
  Indices : List IndexInStore
  ForeignKeys : List ForeignKeyInStore
  UniqueConstraints : List UniqueConstraintInStore
  SeedData : List InsertStatement := []
  deriving DecidableEq, Repr

/-- The index that a reader of the store sees. -/
def IndexInStore.value (idx : IndexInStore) (store : Store) : Index :=
  { Name := idx.Name
    TableName := idx.TableName
    Columns := idx.Columns.read store
    IsUnique := idx.IsUnique }

/-- The foreign key that a reader of the store sees. -/
def ForeignKeyInStore.value (fk : ForeignKeyInStore) (store : Store) : ForeignKey :=
  { Schema := fk.Schema
    Name := fk.Name
    TableName := fk.TableName
    ColumnNames := fk.ColumnNames.read store
    RefTableName := fk.RefTableName
    RefColumnNames := fk.RefColumnNames.read store
    OnDelete := fk.OnDelete
    OnUpdate := fk.OnUpdate }

/-- The unique constraint that a reader of the store sees. -/
def UniqueConstraintInStore.value (uc : UniqueConstraintInStore) (store : Store) :
    UniqueConstraint :=
  { Name := uc.Name
    TableName := uc.TableName
    ColumnNames := uc.ColumnNames.read store }

/-- The table that a reader of the store sees. -/
def TableInStore.value (table : TableInStore) (store : Store) : Table :=
  { Schema := table.Schema
    Name := table.Name
    Columns := table.Columns
    Indices := table.Indices.map (fun idx => idx.value store)
    ForeignKeys := table.ForeignKeys.map (fun fk => fk.value store)
    UniqueConstraints := table.UniqueConstraints.map (fun uc => uc.value store)
    SeedData := table.SeedData }

/-- The inner loop of `quoteReservedColumnNames`,
`for colIdx, colName := range idx.Columns`: `colName` is the element at `colIdx` when
its turn comes, and `idx.Columns[colIdx] = fmt.Sprintf("\"%s\"", colName)` writes into
the backing array of `idx.Columns`. -/
def quoteColumnsInPlace (columns : StringSlice) (store : Store) : Store :=
  (List.range columns.Len).foldl
    (fun store colIdx =>
      let colName := store columns.Backing (columns.Offset + colIdx)
      if reservedWords.index colName false then
        Store.write store columns.Backing (columns.Offset + colIdx) ("\"" ++ colName ++ "\"")
      else store)
    store

/-- The outer loop of `quoteReservedColumnNames`,
`for idxIdx, idx := range table.Indices`; the assignment `table.Indices[idxIdx] = idx`
puts back the header `idx` that was read from that position. -/
def quoteIndicesInPlace : List IndexInStore → Store → List IndexInStore × Store
  | [], store => ([], store)
  | idx :: rest, store =>
    let result := quoteIndicesInPlace rest (quoteColumnsInPlace idx.Columns store)
    (idx :: result.1, result.2)

/-- The function `quoteReservedColumnNames`, writing in place: the table and the
store after the call. -/
def quoteReservedColumnNamesInPlace (table : TableInStore) (store : Store) :
    TableInStore × Store :=
  let result := quoteIndicesInPlace table.Indices store
  ({ table with Indices := result.1 }, result.2)

/-- The table that a reader sees after the call `quoteReservedColumnNames(table)`. -/
def TableInStore.valueAfterQuoting (table : TableInStore) (store : Store) : Table :=
  let result := quoteReservedColumnNamesInPlace table store
  result.1.value result.2

/-- Body of the loop of `ensureNamedForeignKeyConstraints`; `none` is the panic of
`fk.ColumnNames[0]` on an empty slice. -/
def ensureNamedForeignKey (D : Deps) (tableName : String) (fk : ForeignKey) :
    Option ForeignKey :=
  let named : Option ForeignKey :=
    if fk.Name = "" then
      match fk.ColumnNames with
      | [] => none
      | first :: _ => some { fk with Name := D.GetForeignKeyConstraintName tableName first }
    else some fk
  match named with
  | none => none
  | some fk1 => if fk1.OnDelete = "" then some { fk1 with OnDelete := "CASCADE" } else some fk1

/-- The loop of `ensureNamedForeignKeyConstraints` over the foreign keys. -/
def ensureNamedForeignKeys (D : Deps) (tableName : String) :
    List ForeignKey → Option (List ForeignKey)
  | [] => some []
  | fk :: rest =>
    match ensureNamedForeignKey D tableName fk with
    | none => none
    | some fk1 =>
      match ensureNamedForeignKeys D tableName rest with
      | none => none
      | some rest1 => some (fk1 :: rest1)

/-- The function `ensureNamedForeignKeyConstraints`; `none` when it panics. -/
def ensureNamedForeignKeyConstraints (D : Deps) (table : Table) : Option Table :=
  match ensureNamedForeignKeys D table.Name table.ForeignKeys with
  | none => none
  | some fks => some { table with ForeignKeys := fks }

/-- The post-processing loop of `morpheModelToPSQLTables` over the junction tables. -/
def processJunctionTables (D : Deps) : List Table → Option (List Table)
  | [] => some []
  | t :: rest =>
    match ensureNamedForeignKeyConstraints D (quoteReservedColumnNames t) with
    | none => none
    | some t1 =>
      match processJunctionTables D rest with
      | none => none
      | some rest1 => some (t1 :: rest1)

/-- The function `morpheModelToPSQLTables`. -/
def morpheModelToPSQLTables (D : Deps) (config : MorpheConfig) (r : Registry) (model : Model) :
    Except Err (List Table) :=
  match config.Validate with
  | some validateConfigErr => Except.error validateConfigErr
  | none =>
  match D.ValidateModel model r.GetAllEnums with
  | some validateMorpheErr => Except.error validateMorpheErr
  | none =>
  let schema := config.MorpheModelsConfig.Schema
  let modelName := model.Name
  let tableName := D.GetTableNameFromModel modelName
  let typeMap :=
    if config.MorpheModelsConfig.UseBigSerial then D.MorpheModelFieldToPSQLFieldBigSerial
    else D.MorpheModelFieldToPSQLField
  let relatedTypeMap :=
    if config.MorpheModelsConfig.UseBigSerial then D.MorpheModelFieldToPSQLFieldBigSerialForeign
    else D.MorpheModelFieldToPSQLFieldForeign
  match model.Identifiers.get? "primary" with
  | none =>
    Except.error (Err.errorf ("no primary identifier set for model '" ++ model.Name ++ "'"))
  | some primaryID =>
  match getColumnsForModelFields D config r typeMap tableName primaryID model.Fields with
  | Except.error fieldColumnsErr => Except.error fieldColumnsErr
  | Except.ok (fieldColumns, enumForeignKeys) =>
  match getColumnsForModelRelations D r relatedTypeMap model.Related with
  | Except.error relatedColumnsErr => Except.error relatedColumnsErr
  | Except.ok relatedColumns =>
  let modelTable : Table :=
    { Schema := schema
      Name := tableName
      Columns := fieldColumns ++ relatedColumns
      ForeignKeys := enumForeignKeys
      Indices := []
      UniqueConstraints := [] }
  match getForeignKeysForModelRelations D schema tableName r model.Related with
  | Except.error foreignKeysErr => Except.error foreignKeysErr
  | Except.ok relationForeignKeys =>
  let modelTable := { modelTable with ForeignKeys := modelTable.ForeignKeys ++ relationForeignKeys }
  let indices := getIndicesForForeignKeys D tableName modelTable.ForeignKeys
  let modelTable := { modelTable with Indices := indices }
  let modelTable := addUniqueIndicesFromIdentifiers D modelTable model.Identifiers
  let modelTable := quoteReservedColumnNames modelTable
  match ensureNamedForeignKeyConstraints D modelTable with
  | none => Except.error Err.indexOutOfRange
  | some modelTable =>
  match getJunctionTablesForForManyRelations D schema r model with
  | Except.error junctionTablesErr => Except.error junctionTablesErr
  | Except.ok junctionTables =>
  match processJunctionTables D junctionTables with
  | none => Except.error Err.indexOutOfRange
  | some junctionTables => Except.ok (modelTable :: junctionTables)

/-! ## A concrete instance of the imported helpers, and sample models -/

/-- Lower-snake-case of a character list: an underscore goes before an upper-case
letter that follows a lower-case letter or a digit, and every letter is lowered. -/
def snakeChars : List Char → Bool → List Char
  | [], _ => []
  | c :: rest, afterLower =>
    if c.isUpper then
      (if afterLower then ['_', c.toLower] else [c.toLower]) ++ snakeChars rest false
    else c :: snakeChars rest (c.isLower || c.isDigit)

/-- Modelled from the spec: `strcase.ToSnakeCaseLower` is not among the sources; the
lower-snake-case form of a name. -/
def specToSnakeCaseLower (s : String) : String := String.mk (snakeChars s.data false)

/-- Modelled from the spec: `Pluralize` is not among the sources; the end-to-end
scenario of the spec pluralizes person, nationality and company as people,
nationalities and companies, and any other word takes an `s` here. -/
def specPluralize (s : String) : String :=
  if s = "person" then "people"
  else
    match s.data.reverse with
    | 'y' :: rest => String.mk (rest.reverse ++ ['i', 'e', 's'])
    | _ => s ++ "s"

/-- Modelled from the spec: the naming helpers, the `yamlops` predicates, the type
maps and the model validation are not among the sources. Names follow section 4.1
of the spec: table name = pluralized lower-snake-case model name; column name =
lower-snake-case field name; relation column = related model name plus referenced
field name; junction table name = the two model names combined in an order that does
not depend on the side; constraint and index names = table and column names behind a
prefix per kind of artifact. Relation types are the four combinations of for/has
and one/many. The type maps give the standard and the wide auto-increment strategy. -/
def specDeps : Deps :=
  { GetTableNameFromModel := fun modelName => specPluralize (specToSnakeCaseLower modelName)
    GetColumnNameFromField := fun fieldName => specToSnakeCaseLower fieldName
    GetForeignKeyColumnName := fun modelName fieldName =>
      specToSnakeCaseLower modelName ++ "_" ++ specToSnakeCaseLower fieldName
    GetForeignKeyConstraintName := fun tableName columnName =>
      "fk_" ++ tableName ++ "_" ++ columnName
    GetIndexName := fun tableName columnName => "idx_" ++ tableName ++ "_" ++ columnName
    GetJunctionTableName := fun a b =>
      if strLE (specToSnakeCaseLower a) (specToSnakeCaseLower b) then
        specToSnakeCaseLower a ++ "_" ++ specPluralize (specToSnakeCaseLower b)
      else specToSnakeCaseLower b ++ "_" ++ specPluralize (specToSnakeCaseLower a)
    GetJunctionTableForeignKeyConstraintName := fun junctionTableName modelName fieldName =>
      "fk_" ++ junctionTableName ++ "_" ++ specToSnakeCaseLower modelName ++ "_"
        ++ specToSnakeCaseLower fieldName
    GetJunctionTableUniqueConstraintName := fun junctionTableName m1 f1 m2 f2 =>
      "uk_" ++ junctionTableName ++ "_" ++ specToSnakeCaseLower m1 ++ "_"
        ++ specToSnakeCaseLower f1 ++ "_" ++ specToSnakeCaseLower m2 ++ "_"
        ++ specToSnakeCaseLower f2
    Pluralize := specPluralize
    ToSnakeCaseLower := specToSnakeCaseLower
    IsRelationFor := fun t => t = "ForOne" || t = "ForMany"
    IsRelationOne := fun t => t = "ForOne" || t = "HasOne"
    IsRelationMany := fun t => t = "ForMany" || t = "HasMany"
    MorpheModelFieldToPSQLField :=
      [("AutoIncrement", "SERIAL"), ("String", "TEXT"), ("Integer", "INTEGER"),
        ("Boolean", "BOOLEAN")]
    MorpheModelFieldToPSQLFieldBigSerial :=
      [("AutoIncrement", "BIGSERIAL"), ("String", "TEXT"), ("Integer", "INTEGER"),
        ("Boolean", "BOOLEAN")]
    MorpheModelFieldToPSQLFieldForeign :=
      [("AutoIncrement", "INTEGER"), ("String", "TEXT"), ("Integer", "INTEGER"),
        ("Boolean", "BOOLEAN")]
    MorpheModelFieldToPSQLFieldBigSerialForeign :=
      [("AutoIncrement", "BIGINT"), ("String", "TEXT"), ("Integer", "INTEGER"),
        ("Boolean", "BOOLEAN")]
    ValidateModel := fun model _ =>
      if model.Name = "" then some (Err.external "model has no name") else none }

/-- Sample model: the `Person` of the end-to-end scenario. -/
def examplePerson : Model :=
  { Name := "Person"
    Fields :=
      [("LastName", { Type_ := "String" }), ("ID", { Type_ := "AutoIncrement" }),
        ("Nationality", { Type_ := "Nationality" }), ("Email", { Type_ := "String" })]
    Identifiers := [("primary", { Fields := ["ID"] })]
    Related := [("Company", { Type_ := "ForOne" })] }

/-- Sample model: the `Company` that `Person` belongs to. -/
def exampleCompany : Model :=
  { Name := "Company"
    Fields := [("Name", { Type_ := "String" }), ("ID", { Type_ := "AutoIncrement" })]
    Identifiers := [("primary", { Fields := ["ID"] }), ("name", { Fields := ["Name"] })]
    Related := [("Person", { Type_ := "HasMany" })] }

/-- Sample model: a student enrolled in many courses. -/
def exampleStudent : Model :=
  { Name := "Student"
    Fields := [("ID", { Type_ := "AutoIncrement" }), ("Email", { Type_ := "String" }),
      ("Name", { Type_ := "String" })]
    Identifiers :=
      [("primary", { Fields := ["ID"] }), ("email", { Fields := ["Email"] }),
        ("name", { Fields := ["Name"] })]
    Related := [("Course", { Type_ := "ForMany" })] }

/-- Sample model: a course with many students, declaring the same relation from
its own side. -/
def exampleCourse : Model :=
  { Name := "Course"
    Fields := [("ID", { Type_ := "AutoIncrement" }), ("Title", { Type_ := "String" })]
    Identifiers := [("primary", { Fields := ["ID"] })]
    Related := [("Student", { Type_ := "ForMany" })] }

/-- Sample model: a category whose related categories are categories again. -/
def exampleCategory : Model :=
  { Name := "Category"
    Fields := [("ID", { Type_ := "AutoIncrement" }), ("Label", { Type_ := "String" })]
    Identifiers := [("primary", { Fields := ["ID"] })]
    Related := [("Category", { Type_ := "ForMany" })] }

/-- Sample registry holding the sample models and the enum `Nationality`. -/
def exampleRegistry : Registry :=
  let models : GoMap Model :=
    [("Person", examplePerson), ("Company", exampleCompany), ("Student", exampleStudent),
      ("Course", exampleCourse), ("Category", exampleCategory)]
  let enums : GoMap Enum := [("Nationality", { Name := "Nationality" })]
  { GetModel := fun name =>
      match models.get? name with
      | some model => Except.ok model
      | none => Except.error (Err.external ("model not found: " ++ name))
    GetEnum := fun name =>
      match enums.get? name with
      | some e => Except.ok e
      | none => Except.error (Err.external ("enum not found: " ++ name))
    GetAllModels := models
    GetAllEnums := enums }

/-- Sample configuration: schema `public`, standard auto-increment. -/
def exampleConfig : MorpheConfig :=
  { MorpheModelsConfig := { Schema := "public", UseBigSerial := false } }

/-- The sample `Student` when a `range` over its identifier map yields the entries
in the opposite order; as a Go value it is the same model. -/
def exampleStudentReordered : Model :=
  { exampleStudent with Identifiers := exampleStudent.Identifiers.reverse }

/-- Sample table whose first foreign key has neither a name nor a delete action
and whose second has both. -/
def exampleUnnamedTable : Table :=
  { Schema := "public"
    Name := "people"
    Columns := []
    Indices := []
    ForeignKeys :=
      [ { Schema := "public", Name := "", TableName := "people",
          ColumnNames := ["company_id"], RefTableName := "companies",
          RefColumnNames := ["id"], OnDelete := "", OnUpdate := "" },
        { Schema := "public", Name := "people_employer", TableName := "people",
          ColumnNames := ["employer_id"], RefTableName := "companies",
          RefColumnNames := ["id"], OnDelete := "SET NULL", OnUpdate := "" } ]
    UniqueConstraints := [] }

/-! ## Compile lifecycle: hooks and entry points -/

/-- The method `yaml.Model.DeepClone` of morphe-go: a copy of the model. -/
def Model.DeepClone (m : Model) : Model :=
  { Name := m.Name, Fields := m.Fields, Identifiers := m.Identifiers, Related := m.Related }

/-- The hook record `hook.CompileMorpheModel`: three optional functions, `none` being
the nil function. A hook returns its Go result tuple; `none` in an error position is
the nil error, `none` in a table-list position is the nil slice. -/
structure CompileMorpheModel where
  OnCompileMorpheModelStart :
    Option (MorpheConfig → Model → MorpheConfig × Model × Option Err)
  OnCompileMorpheModelSuccess :
    Option (List Table → Option (List Table) × Option Err)
  OnCompileMorpheModelFailure :
    Option (MorpheConfig → Model → Err → Option Err)

/-- The configuration `MorpheCompileConfig`, reduced to the two members that the
model compiler reads: the embedded `cfg.MorpheConfig` and `ModelHooks`. -/
structure MorpheCompileConfig where
  MorpheConfig : MorpheConfig
  ModelHooks : CompileMorpheModel

/-- The zero value `cfg.MorpheConfig{}`. -/
def zeroMorpheConfig : MorpheConfig :=
  { MorpheModelsConfig := { Schema := "", UseBigSerial := false } }

/-- The zero value `yaml.Model{}`. -/
def zeroModel : Model :=
  { Name := "", Fields := [], Identifiers := [], Related := [] }

/-- The function `triggerCompileMorpheModelStart`. -/
def triggerCompileMorpheModelStart (modelHooks : CompileMorpheModel) (config : MorpheConfig)
    (model : Model) : MorpheConfig × Model × Option Err :=
  match modelHooks.OnCompileMorpheModelStart with
  | none => (config, model, none)
  | some onStart =>
    match onStart config model with
    | (_, _, some startErr) => (zeroMorpheConfig, zeroModel, some startErr)
    | (updatedConfig, updatedModel, none) => (updatedConfig, updatedModel, none)

/-- The function `triggerCompileMorpheModelSuccess`; `allModelTables = none` is the
nil slice. -/
def triggerCompileMorpheModelSuccess (hooks : CompileMorpheModel)
    (allModelTables : Option (List Table)) : Option (List Table) × Option Err :=
  match hooks.OnCompileMorpheModelSuccess with
  | none => (allModelTables, none)
  | some onSuccess =>
    match allModelTables with
    | none => (none, some Err.ErrNoModelTables)
    | some tables =>
      let allModelTablesClone := DeepCloneSlicePointers tables
      match onSuccess allModelTablesClone with
      | (_, some successErr) => (none, some successErr)
      | (allModelTables, none) => (allModelTables, none)

/-- The function `triggerCompileMorpheModelFailure`. -/
def triggerCompileMorpheModelFailure (hooks : CompileMorpheModel) (morpheConfig : MorpheConfig)
    (model : Model) (failureErr : Err) : Option Err :=
  match hooks.OnCompileMorpheModelFailure with
  | none => some failureErr
  | some onFailure => onFailure morpheConfig model.DeepClone failureErr

/-- The function `MorpheModelToPSQLTables`. The result is the Go pair: the table
list (`none` = nil) and the error (`none` = nil). The first statement assigns the
results of the start phase to `morpheConfig` and to the parameter `model`, so every
later use of `model` reads what the start phase returned. A successful
`morpheModelToPSQLTables` returns a non-nil slice, hence `some`. -/
def MorpheModelToPSQLTables (D : Deps) (config : MorpheCompileConfig) (r : Registry)
    (model : Model) : Option (List Table) × Option Err :=
  match triggerCompileMorpheModelStart config.ModelHooks config.MorpheConfig model with
  | (morpheConfig, model, some compileStartErr) =>
    (none, triggerCompileMorpheModelFailure config.ModelHooks morpheConfig model compileStartErr)
  | (morpheConfig, model, none) =>
    match morpheModelToPSQLTables D morpheConfig r model with
    | Except.error tablesErr =>
      (none, triggerCompileMorpheModelFailure config.ModelHooks morpheConfig model tablesErr)
    | Except.ok allModelTables =>
      match triggerCompileMorpheModelSuccess config.ModelHooks (some allModelTables) with
      | (_, some compileSuccessErr) =>
        (none,
          triggerCompileMorpheModelFailure config.ModelHooks morpheConfig model
            compileSuccessErr)
      | (allModelTables, none) => (allModelTables, none)

/-- The assignment `m[key] = value`. -/
def GoMap.set {V : Type} : GoMap V → String → V → GoMap V
  | [], key, value => [(key, value)]
  | (k, v) :: rest, key, value =>
    if k = key then (k, value) :: rest else (k, v) :: GoMap.set rest key value

/-- The loop of `AllMorpheModelsToPSQLTables` over the entries of the model map, in
their iteration order; the state is `allModelTableDefs`. -/
def allMorpheModelsLoop (D : Deps) (config : MorpheCompileConfig) (r : Registry) :
    GoMap Model → GoMap (Option (List Table)) →
      Option (GoMap (Option (List Table))) × Option Err
  | [], allModelTableDefs => (some allModelTableDefs, none)
  | (modelName, model) :: rest, allModelTableDefs =>
    match MorpheModelToPSQLTables D config r model with
    | (_, some modelErr) => (none, some modelErr)
    | (modelTables, none) =>
      allMorpheModelsLoop D config r rest (allModelTableDefs.set modelName modelTables)

/-- The function `AllMorpheModelsToPSQLTables`; the result is the Go pair of the
mapping (`none` = nil) and the error. -/
def AllMorpheModelsToPSQLTables (D : Deps) (config : MorpheCompileConfig) (r : Registry) :
    Option (GoMap (Option (List Table))) × Option Err :=
  allMorpheModelsLoop D config r r.GetAllModels []

/-- The field type map that `morpheModelToPSQLTables` selects by `UseBigSerial`. -/
def selectedTypeMap (D : Deps) (config : MorpheConfig) : GoMap PSQLType :=
  if config.MorpheModelsConfig.UseBigSerial then D.MorpheModelFieldToPSQLFieldBigSerial
  else D.MorpheModelFieldToPSQLField

/-- The related-field type map that `morpheModelToPSQLTables` selects by
`UseBigSerial`. -/
def selectedRelatedTypeMap (D : Deps) (config : MorpheConfig) : GoMap PSQLType :=
  if config.MorpheModelsConfig.UseBigSerial then D.MorpheModelFieldToPSQLFieldBigSerialForeign
  else D.MorpheModelFieldToPSQLFieldForeign

/-! ## Failure conditions in the words of the spec -/

/-- The condition under which a relation makes `getColumnsForModelRelations` fail,
as the spec words it: the target model is not found in the registry, or has no
`primary` identifier, or its primary identifier does not have exactly one field, or
that field is absent from the target's fields, or the relation is for + to-one and
the type of that field is not a key of the type map. -/
def relationTargetInvalid (D : Deps) (r : Registry) (typeMap : GoMap PSQLType)
    (relatedModels : GoMap ModelRelation) (relatedModelName : String) : Bool :=
  match r.GetModel relatedModelName with
  | Except.error _ => true
  | Except.ok target =>
    match target.Identifiers.get? "primary" with
    | none => true
    | some primaryID =>
      if primaryID.Fields.length ≠ 1 then true
      else
        match target.Fields.get? (primaryID.Fields.headD "") with
        | none => true
        | some field =>
          let relationType := (relatedModels.index relatedModelName { Type_ := "" }).Type_
          D.IsRelationFor relationType && D.IsRelationOne relationType
            && (typeMap.get? field.Type_).isNone

/-- The condition under which a field makes `getColumnsForModelFields` fail, as the
spec words it: its declared type is neither a key of the type map nor the name of an
enum of the registry. -/
def fieldTypeUnsupported (r : Registry) (typeMap : GoMap PSQLType)
    (modelFields : GoMap ModelField) (fieldName : String) : Bool :=
  let declared := (modelFields.index fieldName { Type_ := "" }).Type_
  (typeMap.get? declared).isNone &&
    (match r.GetEnum declared with
      | Except.error _ => true
      | Except.ok _ => false)

/-- The condition under which a relation makes the loop of
`getJunctionTablesForForManyRelations` fail, in the words of the claim: the relation
is for + to-many and its target is not in the registry, or lacks a `primary`
identifier, or has a primary identifier without exactly one field. -/
def junctionTargetInvalid (D : Deps) (r : Registry) (relatedModels : GoMap ModelRelation)
    (relatedModelName : String) : Bool :=
  let relationType := (relatedModels.index relatedModelName { Type_ := "" }).Type_
  D.IsRelationFor relationType && D.IsRelationMany relationType &&
    (match r.GetModel relatedModelName with
      | Except.error _ => true
      | Except.ok target =>
        match target.Identifiers.get? "primary" with
        | none => true
        | some primaryID => decide (primaryID.Fields.length ≠ 1))

/-- Sample hooks: none registered. -/
def noHooks : CompileMorpheModel :=
  { OnCompileMorpheModelStart := none
    OnCompileMorpheModelSuccess := none
    OnCompileMorpheModelFailure := none }

/-- Sample failure hook: reports the model name and the schema it was handed. -/
def reportingFailureHook (config : MorpheConfig) (model : Model) (_failureErr : Err) :
    Option Err :=
  some (Err.external
    ("failure hook got model '" ++ model.Name ++ "' and schema '"
      ++ config.MorpheModelsConfig.Schema ++ "'"))

/-- Sample hooks: a start hook that fails, and the reporting failure hook. -/
def failingStartHooks : CompileMorpheModel :=
  { OnCompileMorpheModelStart :=
      some (fun config model => (config, model, some (Err.external "start hook failed")))
    OnCompileMorpheModelSuccess := none
    OnCompileMorpheModelFailure := some reportingFailureHook }

/-- Sample hooks: a start hook that renames the model and drops its identifiers, so
that the core compilation fails, and the reporting failure hook. -/
def rewritingStartHooks : CompileMorpheModel :=
  { OnCompileMorpheModelStart :=
      some (fun config model =>
        (config, { model with Name := "Rewritten", Identifiers := [] }, none))
    OnCompileMorpheModelSuccess := none
    OnCompileMorpheModelFailure := some reportingFailureHook }

/-- Sample hooks: a success hook that keeps only the first table, and a failure hook
that wraps the error it is given. -/
def exampleHooks : CompileMorpheModel :=
  { OnCompileMorpheModelStart := none
    OnCompileMorpheModelSuccess := some (fun tables => (some (tables.take 1), none))
    OnCompileMorpheModelFailure :=
      some (fun _ _ failureErr =>
        match failureErr with
        | Err.errorf text => some (Err.external ("wrapped: " ++ text))
        | other => some other) }

/-- The sample `Person` without any identifier. -/
def examplePersonNoPrimary : Model :=
  { examplePerson with Identifiers := [] }

/-- Sample relation map with two entries. -/
def exampleRelations : GoMap ModelRelation :=
  [("Company", { Type_ := "ForOne" }), ("Course", { Type_ := "ForMany" })]

/-- The sample relation map `exampleRelations`, ranged over in the other order. -/
def exampleRelationsSwapped : GoMap ModelRelation :=
  [("Course", { Type_ := "ForMany" }), ("Company", { Type_ := "ForOne" })]

/-- The tables the sample `Person` compiles to. -/
def examplePersonTables : List Table :=
  [ { Schema := "public"
      Name := "people"
      Columns :=
        [ { Name := "email", Type_ := "TEXT", NotNull := false, PrimaryKey := false,
            Default := "" },
          { Name := "id", Type_ := "SERIAL", NotNull := false, PrimaryKey := true,
            Default := "" },
          { Name := "last_name", Type_ := "TEXT", NotNull := false, PrimaryKey := false,
            Default := "" },
          { Name := "nationality_id", Type_ := "INTEGER", NotNull := true,
            PrimaryKey := false, Default := "" },
          { Name := "company_id", Type_ := "INTEGER", NotNull := true, PrimaryKey := false,
            Default := "" } ]
      Indices :=
        [ { Name := "idx_people_nationality_id", TableName := "people",
            Columns := ["nationality_id"], IsUnique := false },
          { Name := "idx_people_company_id", TableName := "people",
            Columns := ["company_id"], IsUnique := false } ]
      ForeignKeys :=
        [ { Schema := "public", Name := "fk_people_nationality_id", TableName := "people",
            ColumnNames := ["nationality_id"], RefTableName := "nationalities",
            RefColumnNames := ["id"], OnDelete := "CASCADE", OnUpdate := "" },
          { Schema := "public", Name := "fk_people_company_id", TableName := "people",
            ColumnNames := ["company_id"], RefTableName := "companies",
            RefColumnNames := ["id"], OnDelete := "CASCADE", OnUpdate := "" } ]
      UniqueConstraints := [] } ]

/-- Sample relation map: a valid for + to-one relation to `Company`, and a
for + to-one relation to `Ghost`, which the sample registry does not hold. -/
def exampleGhostRelations : GoMap ModelRelation :=
  [("Company", { Type_ := "ForOne" }), ("Ghost", { Type_ := "ForOne" })]

/-- The sample `Student` with a second for + to-many relation, to `Zombie`, which the
sample registry does not hold. -/
def exampleStudentZombie : Model :=
  { exampleStudent with
    Related := [("Course", { Type_ := "ForMany" }), ("Zombie", { Type_ := "ForMany" })] }

/-- Sample field map: the enum-typed field `Nationality`, and the field `Zed` whose
type `Blob` is neither in the type maps nor an enum of the sample registry. -/
def exampleBlobFields : GoMap ModelField :=
  [("Nationality", { Type_ := "Nationality" }), ("Zed", { Type_ := "Blob" })]

/-- Sample store with two backing arrays: array 0 holds `order`, `customer_order`
and array 1 holds `order`, `id`. -/
def exampleStore : Store :=
  fun a p =>
    (([["order", "customer_order"], ["order", "id"]] : List (List String)).getD a []).getD p ""

/-- Sample table whose index and whose foreign key were given the same slice
`cols := []string{"order"}` as their column list. -/
def exampleSharingTable : TableInStore :=
  { Schema := "public"
    Name := "items"
    Columns := []
    Indices :=
      [ { Name := "idx_items_order", TableName := "items",
          Columns := { Backing := 0, Offset := 0, Len := 1 }, IsUnique := false } ]
    ForeignKeys :=
      [ { Schema := "public", Name := "fk_items_order", TableName := "items",
          ColumnNames := { Backing := 0, Offset := 0, Len := 1 }, RefTableName := "orders",
          RefColumnNames := { Backing := 1, Offset := 1, Len := 1 }, OnDelete := "CASCADE",
          OnUpdate := "" } ]
    UniqueConstraints := [] }

/-- Sample table whose index column slice (all of array 0) shares nothing with the
slices of its foreign key and of its unique constraint (in array 1). -/
def exampleFreshTable : TableInStore :=
  { Schema := "public"
    Name := "items"
    Columns := []
    Indices :=
      [ { Name := "idx_items_order", TableName := "items",
          Columns := { Backing := 0, Offset := 0, Len := 2 }, IsUnique := false } ]
    ForeignKeys :=
      [ { Schema := "public", Name := "fk_items_order", TableName := "items",
          ColumnNames := { Backing := 1, Offset := 0, Len := 1 }, RefTableName := "orders",
          RefColumnNames := { Backing := 1, Offset := 1, Len := 1 }, OnDelete := "CASCADE",
          OnUpdate := "" } ]
    UniqueConstraints :=
      [ { Name := "uk_items_order", TableName := "items",
          ColumnNames := { Backing := 1, Offset := 0, Len := 1 } } ] }

/-! ## Auxiliary facts: string order, maps, loops -/

theorem leCodes_total : ∀ a b : List Nat, leCodes a b = true ∨ leCodes b a = true
  | [], _ => by simp [leCodes]
  | _ :: _, [] => by simp [leCodes]
  | a :: as, b :: bs => by
    have ih := leCodes_total as bs
    simp only [leCodes, Bool.or_eq_true, Bool.and_eq_true, decide_eq_true_eq]
    rcases Nat.lt_trichotomy a b with h | h | h
    · exact Or.inl (Or.inl h)
    · rcases ih with ih | ih
      · exact Or.inl (Or.inr ⟨h, ih⟩)
      · exact Or.inr (Or.inr ⟨h.symm, ih⟩)
    · exact Or.inr (Or.inl h)

theorem leCodes_trans : ∀ a b c : List Nat,
    leCodes a b = true → leCodes b c = true → leCodes a c = true
  | [], _, _ => by simp [leCodes]
  | _ :: _, [], _ => by simp [leCodes]
  | _ :: _, _ :: _, [] => by simp [leCodes]
  | a :: as, b :: bs, c :: cs => by
    have ih := leCodes_trans as bs cs
    simp only [leCodes, Bool.or_eq_true, Bool.and_eq_true, decide_eq_true_eq]
    rintro (h1 | ⟨h1, t1⟩) (h2 | ⟨h2, t2⟩)
    · exact Or.inl (by omega)
    · exact Or.inl (by omega)
    · exact Or.inl (by omega)
    · exact Or.inr ⟨by omega, ih t1 t2⟩

theorem leCodes_antisymm : ∀ a b : List Nat,
    leCodes a b = true → leCodes b a = true → a = b
  | [], [] => by simp
  | [], _ :: _ => by simp [leCodes]
  | _ :: _, [] => by simp [leCodes]
  | a :: as, b :: bs => by
    have ih := leCodes_antisymm as bs
    simp only [leCodes, Bool.or_eq_true, Bool.and_eq_true, decide_eq_true_eq]
    rintro (h1 | ⟨h1, t1⟩) (h2 | ⟨h2, t2⟩)
    · omega
    · omega
    · omega
    · rw [h1, ih t1 t2]

theorem codes_injective (s t : String) (h : codes s = codes t) : s = t := by
  have hinj : Function.Injective Char.toNat := by
    intro c d hcd
    have h1 := Char.ofNat_toNat c
    have h2 := Char.ofNat_toNat d
    rw [hcd] at h1
    exact h1.symm.trans h2
  exact String.ext (List.map_injective_iff.mpr hinj h)

theorem strLE_total (s t : String) : strLE s t ∨ strLE t s := leCodes_total _ _

theorem strLE_trans (s t u : String) : strLE s t → strLE t u → strLE s u :=
  leCodes_trans _ _ _

theorem strLE_antisymm (s t : String) (h1 : strLE s t) (h2 : strLE t s) : s = t :=
  codes_injective s t (leCodes_antisymm _ _ h1 h2)

theorem MapKeysSorted_perm_keys {V : Type} (m : GoMap V) : (MapKeysSorted m).Perm m.keys :=
  List.perm_insertionSort strLE m.keys

theorem MapKeysSorted_sorted {V : Type} (m : GoMap V) : List.Sorted strLE (MapKeysSorted m) := by
  haveI : IsTotal String strLE := ⟨strLE_total⟩
  haveI : IsTrans String strLE := ⟨strLE_trans⟩
  exact List.sorted_insertionSort strLE m.keys

theorem MapKeysSorted_nodup {V : Type} (m : GoMap V) (h : m.WF) : (MapKeysSorted m).Nodup :=
  (MapKeysSorted_perm_keys m).nodup_iff.mpr h

theorem MapKeysSorted_congr {V W : Type} (m1 : GoMap V) (m2 : GoMap W)
    (h : m1.keys.Perm m2.keys) : MapKeysSorted m1 = MapKeysSorted m2 := by
  haveI : IsAntisymm String strLE := ⟨strLE_antisymm⟩
  exact List.eq_of_perm_of_sorted
    (((MapKeysSorted_perm_keys m1).trans h).trans (MapKeysSorted_perm_keys m2).symm)
    (MapKeysSorted_sorted m1) (MapKeysSorted_sorted m2)

theorem GoMap.get?_eq_none_iff {V : Type} (m : GoMap V) (key : String) :
    m.get? key = none ↔ key ∉ m.keys := by
  induction m with
  | nil => simp [GoMap.get?, GoMap.keys]
  | cons kv rest ih =>
    obtain ⟨k, v⟩ := kv
    by_cases hk : k = key
    · simp [GoMap.get?, GoMap.keys, hk]
    · have : ¬ key = k := fun h => hk h.symm
      simpa [GoMap.get?, GoMap.keys, hk, this] using ih

theorem GoMap.get?_of_mem {V : Type} (m : GoMap V) (key : String) (v : V)
    (hwf : m.WF) (hmem : (key, v) ∈ m) : m.get? key = some v := by
  induction m with
  | nil => simp at hmem
  | cons kv rest ih =>
    obtain ⟨k, w⟩ := kv
    have hnd : k ∉ GoMap.keys rest ∧ (GoMap.keys rest).Nodup := by
      simpa [GoMap.WF, GoMap.keys] using hwf
    rcases List.mem_cons.mp hmem with h | h
    · cases h
      simp [GoMap.get?]
    · have hkey : key ∈ GoMap.keys rest := List.mem_map.mpr ⟨(key, v), h, rfl⟩
      have hne : ¬ k = key := fun e => hnd.1 (e ▸ hkey)
      simp only [GoMap.get?, hne, if_false]
      exact ih hnd.2 h

theorem GoMap.mem_of_get? {V : Type} (m : GoMap V) (key : String) (v : V)
    (h : m.get? key = some v) : (key, v) ∈ m := by
  induction m with
  | nil => simp [GoMap.get?] at h
  | cons kv rest ih =>
    obtain ⟨k, w⟩ := kv
    by_cases hk : k = key
    · simp only [GoMap.get?, hk, if_true, Option.some.injEq] at h
      simp [hk, h]
    · simp only [GoMap.get?, hk, if_false] at h
      exact List.mem_cons_of_mem _ (ih h)

theorem GoMap.get?_perm {V : Type} (m1 m2 : GoMap V) (hwf : m1.WF) (hp : m1.Perm m2)
    (key : String) : m1.get? key = m2.get? key := by
  have hwf2 : m2.WF := (hp.map Prod.fst).nodup_iff.mp hwf
  cases h1 : m1.get? key with
  | none =>
    have : key ∉ m2.keys := fun hmem =>
      (GoMap.get?_eq_none_iff m1 key).mp h1 ((hp.map Prod.fst).mem_iff.mpr hmem)
    exact ((GoMap.get?_eq_none_iff m2 key).mpr this).symm
  | some v =>
    exact (GoMap.get?_of_mem m2 key v hwf2 (hp.mem_iff.mp (GoMap.mem_of_get? m1 key v h1))).symm

theorem slicesIndexFrom_nonneg (v : String) :
    ∀ (s : List String) (i : Int), 0 ≤ i → (slicesIndexFrom v s i ≠ -1 ↔ v ∈ s)
  | [], i, _ => by simp [slicesIndexFrom]
  | x :: xs, i, hi => by
    by_cases hx : x = v
    · simp only [slicesIndexFrom, hx, if_true, List.mem_cons, true_or, iff_true]
      omega
    · have hne : ¬ v = x := fun e => hx e.symm
      simp only [slicesIndexFrom, hx, if_false, List.mem_cons, hne, false_or]
      exact slicesIndexFrom_nonneg v xs (i + 1) (by omega)

theorem slicesIndex_ne_iff (s : List String) (v : String) :
    (slicesIndex s v != -1) = decide (v ∈ s) := by
  have h := slicesIndexFrom_nonneg v s 0 (le_refl 0)
  by_cases hv : v ∈ s
  · simp [slicesIndex, hv, h.mpr hv]
  · have : slicesIndexFrom v s 0 = -1 := by
      by_contra hc
      exact hv (h.mp hc)
    simp [slicesIndex, hv, this]

theorem rangeKeys_append {σ : Type} (step : String → σ → Except Err σ)
    (ks1 ks2 : List String) (s : σ) :
    rangeKeys step (ks1 ++ ks2) s = (rangeKeys step ks1 s).bind (rangeKeys step ks2) := by
  induction ks1 generalizing s with
  | nil => rfl
  | cons k ks ih =>
    simp only [List.cons_append, rangeKeys]
    cases step k s with
    | error e => rfl
    | ok s1 => exact ih s1

/-- A loop whose body only ever appends to the state (through `op`) gives the state
it started from followed by what it gives from the empty state. -/
theorem rangeKeys_acc {σ : Type} (op : σ → σ → σ) (e : σ)
    (hassoc : ∀ a b c, op (op a b) c = op a (op b c)) (hright : ∀ a, op a e = a)
    (step : String → σ → Except Err σ)
    (hstep : ∀ k s, step k s = (step k e).map (op s)) (ks : List String) (s : σ) :
    rangeKeys step ks s = (rangeKeys step ks e).map (op s) := by
  induction ks generalizing s with
  | nil => simp [rangeKeys, Except.map, hright]
  | cons k ks ih =>
    simp only [rangeKeys]
    rw [hstep k s]
    cases hk : step k e with
    | error err => rfl
    | ok d =>
      simp only [Except.map]
      rw [ih (op s d), ih d]
      cases rangeKeys step ks e with
      | error err => rfl
      | ok c => simp [Except.map, hassoc]

/-- Splitting an appending loop at a key whose body succeeds. -/
theorem rangeKeys_split {σ : Type} (op : σ → σ → σ) (e : σ)
    (hassoc : ∀ a b c, op (op a b) c = op a (op b c)) (hright : ∀ a, op a e = a)
    (step : String → σ → Except Err σ)
    (hstep : ∀ k s, step k s = (step k e).map (op s))
    (pre post : List String) (k : String) (b : σ) (hk : step k e = Except.ok b) :
    rangeKeys step (pre ++ k :: post) e =
      (rangeKeys step pre e).bind fun a =>
        (rangeKeys step post e).bind fun c => Except.ok (op (op a b) c) := by
  rw [rangeKeys_append]
  cases hpre : rangeKeys step pre e with
  | error err => rfl
  | ok a =>
    simp only [Except.bind, rangeKeys]
    rw [hstep k a, hk]
    simp only [Except.map]
    rw [rangeKeys_acc op e hassoc hright step hstep post (op a b)]
    cases rangeKeys step post e with
    | error err => rfl
    | ok c => rfl

theorem relationColumnStep_acc (D : Deps) (r : Registry) (typeMap : GoMap PSQLType)
    (relatedModels : GoMap ModelRelation) (k : String) (s : List Column) :
    relationColumnStep D r typeMap relatedModels k s =
      (relationColumnStep D r typeMap relatedModels k []).map (fun d => s ++ d) := by
  unfold relationColumnStep
  dsimp only
  cases r.GetModel k with
  | error e => rfl
  | ok relatedModel =>
    dsimp only
    cases relatedModel.Identifiers.get? "primary" with
    | none => rfl
    | some primaryID =>
      dsimp only
      rcases primaryID.Fields with _ | ⟨pid, _ | ⟨x, rest⟩⟩
      · rfl
      · dsimp only
        cases relatedModel.Fields.get? pid with
        | none => rfl
        | some f =>
          dsimp only
          split_ifs
          · cases typeMap.get? f.Type_ with
            | none => rfl
            | some ty => simp [Except.map]
          · simp [Except.map]
      · rfl

theorem relationForeignKeyStep_acc (D : Deps) (schema tableName : String) (r : Registry)
    (relatedModels : GoMap ModelRelation) (k : String) (s : List ForeignKey) :
    relationForeignKeyStep D schema tableName r relatedModels k s =
      (relationForeignKeyStep D schema tableName r relatedModels k []).map (fun d => s ++ d) := by
  unfold relationForeignKeyStep
  dsimp only
  cases r.GetModel k with
  | error e => rfl
  | ok relatedModel =>
    dsimp only
    cases relatedModel.Identifiers.get? "primary" with
    | none => rfl
    | some primaryID =>
      dsimp only
      rcases primaryID.Fields with _ | ⟨pid, _ | ⟨x, rest⟩⟩
      · rfl
      · dsimp only
        cases relatedModel.Fields.get? pid with
        | none => rfl
        | some f =>
          dsimp only
          split_ifs
          · simp [Except.map]
          · simp [Except.map]
      · rfl

theorem junctionStep_acc (D : Deps) (schema : String) (r : Registry) (model : Model)
    (primaryIdName : String) (k : String) (s : List Table) :
    junctionStep D schema r model primaryIdName k s =
      (junctionStep D schema r model primaryIdName k []).map (fun d => s ++ d) := by
  unfold junctionStep
  dsimp only
  split_ifs
  · cases r.GetModel k with
    | error e => rfl
    | ok relatedModel =>
      dsimp only
      cases relatedModel.Identifiers.get? "primary" with
      | none => rfl
      | some primaryID =>
        dsimp only
        rcases primaryID.Fields with _ | ⟨pid, _ | ⟨x, rest⟩⟩
        · rfl
        · simp [Except.map]
        · rfl
  · simp [Except.map]

theorem fieldStep_acc (D : Deps) (config : MorpheConfig) (r : Registry)
    (typeMap : GoMap PSQLType) (tableName : String) (primaryID : ModelIdentifier)
    (modelFields : GoMap ModelField) (k : String) (s : List Column × List ForeignKey) :
    fieldStep D config r typeMap tableName primaryID modelFields k s =
      (fieldStep D config r typeMap tableName primaryID modelFields k ([], [])).map
        (fun d => (s.1 ++ d.1, s.2 ++ d.2)) := by
  unfold fieldStep
  dsimp only
  cases typeMap.get? (modelFields.index k { Type_ := "" }).Type_ with
  | some columnType => simp [Except.map]
  | none =>
    dsimp only
    cases r.GetEnum (modelFields.index k { Type_ := "" }).Type_ with
    | error e => rfl
    | ok enumType => simp [Except.map]

/-- Splitting a list-state loop at a key whose body succeeds. -/
theorem rangeKeys_split_list {α : Type} (step : String → List α → Except Err (List α))
    (hstep : ∀ k s, step k s = (step k []).map (fun d => s ++ d))
    (pre post : List String) (k : String) (b : List α) (hk : step k [] = Except.ok b) :
    rangeKeys step (pre ++ k :: post) [] =
      (rangeKeys step pre []).bind fun a =>
        (rangeKeys step post []).bind fun c => Except.ok (a ++ b ++ c) :=
  rangeKeys_split (fun a b => a ++ b) [] List.append_assoc List.append_nil step hstep
    pre post k b hk

/-- Splitting the pair-state loop at a key whose body succeeds. -/
theorem rangeKeys_split_pair {α β : Type}
    (step : String → List α × List β → Except Err (List α × List β))
    (hstep : ∀ k s, step k s = (step k ([], [])).map (fun d => (s.1 ++ d.1, s.2 ++ d.2)))
    (pre post : List String) (k : String) (b : List α × List β)
    (hk : step k ([], []) = Except.ok b) :
    rangeKeys step (pre ++ k :: post) ([], []) =
      (rangeKeys step pre ([], [])).bind fun a =>
        (rangeKeys step post ([], [])).bind fun c =>
          Except.ok (a.1 ++ b.1 ++ c.1, a.2 ++ b.2 ++ c.2) :=
  rangeKeys_split (fun a b => (a.1 ++ b.1, a.2 ++ b.2)) ([], [])
    (fun a b c => by simp) (fun a => by simp) step hstep pre post k b hk

/-- A key of a well-formed map occurs exactly once in the sorted key list. -/
theorem MapKeysSorted_split {V : Type} (m : GoMap V) (hwf : m.WF) (key : String) (v : V)
    (hmem : (key, v) ∈ m) :
    ∃ before after, MapKeysSorted m = before ++ key :: after ∧ key ∉ before ∧ key ∉ after := by
  have hk : key ∈ MapKeysSorted m :=
    (MapKeysSorted_perm_keys m).mem_iff.mpr (List.mem_map.mpr ⟨(key, v), hmem, rfl⟩)
  obtain ⟨before, after, hsplit⟩ := List.append_of_mem hk
  have hnd := MapKeysSorted_nodup m hwf
  rw [hsplit] at hnd
  have h1 := List.nodup_append.mp hnd
  refine ⟨before, after, hsplit, ?_, ?_⟩
  · intro hb
    exact h1.2.2 hb (List.mem_cons_self _ _)
  · exact (List.nodup_cons.mp h1.2.1).1

theorem GoMap.index_of_mem {V : Type} (m : GoMap V) (key : String) (v zero : V)
    (hwf : m.WF) (hmem : (key, v) ∈ m) : m.index key zero = v := by
  simp [GoMap.index, GoMap.get?_of_mem m key v hwf hmem]

/-- What a successful run of `morpheModelToPSQLTables` went through. -/
theorem morpheModelToPSQLTables_ok (D : Deps) (config : MorpheConfig) (r : Registry)
    (model : Model) (tables : List Table)
    (h : morpheModelToPSQLTables D config r model = Except.ok tables) :
    ∃ (primaryID : ModelIdentifier) (fieldColumns : List Column)
      (enumForeignKeys : List ForeignKey) (relatedColumns : List Column)
      (relationForeignKeys : List ForeignKey) (modelTable : Table)
      (junctionTables processed : List Table),
      config.Validate = none ∧
      D.ValidateModel model r.GetAllEnums = none ∧
      model.Identifiers.get? "primary" = some primaryID ∧
      getColumnsForModelFields D config r
        (if config.MorpheModelsConfig.UseBigSerial then D.MorpheModelFieldToPSQLFieldBigSerial
          else D.MorpheModelFieldToPSQLField)
        (D.GetTableNameFromModel model.Name) primaryID model.Fields =
          Except.ok (fieldColumns, enumForeignKeys) ∧
      getColumnsForModelRelations D r
        (if config.MorpheModelsConfig.UseBigSerial then
          D.MorpheModelFieldToPSQLFieldBigSerialForeign
          else D.MorpheModelFieldToPSQLFieldForeign) model.Related = Except.ok relatedColumns ∧
      getForeignKeysForModelRelations D config.MorpheModelsConfig.Schema
        (D.GetTableNameFromModel model.Name) r model.Related = Except.ok relationForeignKeys ∧
      ensureNamedForeignKeyConstraints D
        (quoteReservedColumnNames
          (addUniqueIndicesFromIdentifiers D
            { Schema := config.MorpheModelsConfig.Schema
              Name := D.GetTableNameFromModel model.Name
              Columns := fieldColumns ++ relatedColumns
              ForeignKeys := enumForeignKeys ++ relationForeignKeys
              Indices := getIndicesForForeignKeys D (D.GetTableNameFromModel model.Name)
                (enumForeignKeys ++ relationForeignKeys)
              UniqueConstraints := [] }
            model.Identifiers)) = some modelTable ∧
      getJunctionTablesForForManyRelations D config.MorpheModelsConfig.Schema r model =
        Except.ok junctionTables ∧
      processJunctionTables D junctionTables = some processed ∧
      tables = modelTable :: processed := by
  unfold morpheModelToPSQLTables at h
  split at h
  · cases h
  · rename_i hcfg
    split at h
    · cases h
    · rename_i hval
      dsimp only at h
      split at h
      · cases h
      · rename_i primaryID hprim
        split at h
        · cases h
        · rename_i fieldColumns enumForeignKeys hfields
          split at h
          · cases h
          · rename_i relatedColumns hrel
            split at h
            · cases h
            · rename_i relationForeignKeys hfks
              split at h
              · cases h
              · rename_i modelTable hensure
                split at h
                · cases h
                · rename_i junctionTables hj
                  split at h
                  · cases h
                  · rename_i processed hproc
                    injection h with h
                    exact ⟨primaryID, fieldColumns, enumForeignKeys, relatedColumns,
                      relationForeignKeys, modelTable, junctionTables, processed,
                      hcfg, hval, hprim, hfields, hrel, hfks, hensure, hj, hproc, h.symm⟩

theorem fieldStep_ok (D : Deps) (config : MorpheConfig) (r : Registry)
    (typeMap : GoMap PSQLType) (tableName : String) (primaryID : ModelIdentifier)
    (modelFields : GoMap ModelField) (k : String) (acc res : List Column × List ForeignKey)
    (h : fieldStep D config r typeMap tableName primaryID modelFields k acc = Except.ok res) :
    ∃ c : Column, res.1 = acc.1 ++ [c] ∧ c.PrimaryKey = decide (k ∈ primaryID.Fields) ∧
      (c.Name = D.GetColumnNameFromField k ∨ c.Name = D.GetColumnNameFromField k ++ "_id") := by
  unfold fieldStep at h
  dsimp only at h
  split at h
  · injection h with h
    subst h
    exact ⟨_, rfl, slicesIndex_ne_iff _ _, Or.inl rfl⟩
  · split at h
    · cases h
    · injection h with h
      subst h
      exact ⟨_, rfl, slicesIndex_ne_iff _ _, Or.inr rfl⟩

/-- The field loop appends one column per field name, in the order of the names. -/
theorem fieldLoop_columns (D : Deps) (config : MorpheConfig) (r : Registry)
    (typeMap : GoMap PSQLType) (tableName : String) (primaryID : ModelIdentifier)
    (modelFields : GoMap ModelField) :
    ∀ (ks : List String) (acc res : List Column × List ForeignKey),
      rangeKeys (fieldStep D config r typeMap tableName primaryID modelFields) ks acc
        = Except.ok res →
      ∃ d : List Column, res.1 = acc.1 ++ d ∧
        List.Forall₂ (fun k c => c.PrimaryKey = decide (k ∈ primaryID.Fields) ∧
          (c.Name = D.GetColumnNameFromField k ∨ c.Name = D.GetColumnNameFromField k ++ "_id"))
          ks d
  | [], acc, res, h => by
    simp only [rangeKeys, Except.ok.injEq] at h
    subst h
    exact ⟨[], by simp, List.Forall₂.nil⟩
  | k :: ks, acc, res, h => by
    simp only [rangeKeys] at h
    split at h
    · cases h
    · rename_i s1 hstep
      obtain ⟨c, hc, hpk, hname⟩ :=
        fieldStep_ok D config r typeMap tableName primaryID modelFields k acc s1 hstep
      obtain ⟨d, hd, hall⟩ :=
        fieldLoop_columns D config r typeMap tableName primaryID modelFields ks s1 res h
      exact ⟨c :: d, by rw [hd, hc]; simp, List.Forall₂.cons ⟨hpk, hname⟩ hall⟩

theorem getColumnsForModelFields_columns (D : Deps) (config : MorpheConfig) (r : Registry)
    (typeMap : GoMap PSQLType) (tableName : String) (primaryID : ModelIdentifier)
    (modelFields : GoMap ModelField) (columns : List Column) (fks : List ForeignKey)
    (h : getColumnsForModelFields D config r typeMap tableName primaryID modelFields
      = Except.ok (columns, fks)) :
    List.Forall₂ (fun k c => c.PrimaryKey = decide (k ∈ primaryID.Fields) ∧
      (c.Name = D.GetColumnNameFromField k ∨ c.Name = D.GetColumnNameFromField k ++ "_id"))
      (MapKeysSorted modelFields) columns := by
  obtain ⟨d, hd, hall⟩ := fieldLoop_columns D config r typeMap tableName primaryID modelFields
    (MapKeysSorted modelFields) ([], []) (columns, fks) h
  simp only [List.nil_append] at hd
  rw [hd]
  exact hall

theorem relationColumnStep_ok (D : Deps) (r : Registry) (typeMap : GoMap PSQLType)
    (relatedModels : GoMap ModelRelation) (k : String) (acc res : List Column)
    (h : relationColumnStep D r typeMap relatedModels k acc = Except.ok res) :
    res = acc ∨ ∃ c : Column, res = acc ++ [c] ∧ c.PrimaryKey = false ∧ c.NotNull = true ∧
      ∃ pid : String, c.Name = D.GetForeignKeyColumnName k pid := by
  unfold relationColumnStep at h
  dsimp only at h
  split at h
  · cases h
  · split at h
    · cases h
    · split at h
      · split at h
        · cases h
        · split at h
          · split at h
            · cases h
            · injection h with h
              subst h
              exact Or.inr ⟨_, rfl, rfl, rfl, _, rfl⟩
          · injection h with h
            exact Or.inl h.symm
      · cases h

/-- Every column the relation loop appends is a not-null, non-primary column. -/
theorem relationLoop_columns (D : Deps) (r : Registry) (typeMap : GoMap PSQLType)
    (relatedModels : GoMap ModelRelation) :
    ∀ (ks : List String) (acc res : List Column),
      rangeKeys (relationColumnStep D r typeMap relatedModels) ks acc = Except.ok res →
      ∃ d : List Column, res = acc ++ d ∧
        ∀ c ∈ d, c.PrimaryKey = false ∧ c.NotNull = true
  | [], acc, res, h => by
    simp only [rangeKeys, Except.ok.injEq] at h
    subst h
    exact ⟨[], by simp, by simp⟩
  | k :: ks, acc, res, h => by
    simp only [rangeKeys] at h
    split at h
    · cases h
    · rename_i s1 hstep
      obtain ⟨d, hd, hall⟩ := relationLoop_columns D r typeMap relatedModels ks s1 res h
      rcases relationColumnStep_ok D r typeMap relatedModels k acc s1 hstep with
        h1 | ⟨c, h1, hpk, hnn, _⟩
      · exact ⟨d, by rw [hd, h1], hall⟩
      · refine ⟨c :: d, by rw [hd, h1]; simp, ?_⟩
        intro x hx
        rcases List.mem_cons.mp hx with hx | hx
        · subst hx
          exact ⟨hpk, hnn⟩
        · exact hall x hx

theorem getColumnsForModelRelations_columns (D : Deps) (r : Registry)
    (typeMap : GoMap PSQLType) (relatedModels : GoMap ModelRelation) (columns : List Column)
    (h : getColumnsForModelRelations D r typeMap relatedModels = Except.ok columns) :
    ∀ c ∈ columns, c.PrimaryKey = false ∧ c.NotNull = true := by
  obtain ⟨d, hd, hall⟩ := relationLoop_columns D r typeMap relatedModels
    (MapKeysSorted relatedModels) [] columns h
  simp only [List.nil_append] at hd
  rw [hd]
  exact hall

theorem addUniqueIndicesFromIdentifiers_frame (D : Deps) :
    ∀ (identifiers : GoMap ModelIdentifier) (table : Table),
      (addUniqueIndicesFromIdentifiers D table identifiers).Columns = table.Columns ∧
      (addUniqueIndicesFromIdentifiers D table identifiers).ForeignKeys = table.ForeignKeys ∧
      (addUniqueIndicesFromIdentifiers D table identifiers).UniqueConstraints
        = table.UniqueConstraints ∧
      (addUniqueIndicesFromIdentifiers D table identifiers).Name = table.Name ∧
      (addUniqueIndicesFromIdentifiers D table identifiers).Schema = table.Schema
  | [], table => by simp [addUniqueIndicesFromIdentifiers]
  | (idName, identifier) :: rest, table => by
    unfold addUniqueIndicesFromIdentifiers
    split_ifs
    · exact addUniqueIndicesFromIdentifiers_frame D rest table
    · exact addUniqueIndicesFromIdentifiers_frame D rest _

theorem ensureNamedForeignKeyConstraints_frame (D : Deps) (table table1 : Table)
    (h : ensureNamedForeignKeyConstraints D table = some table1) :
    table1.Columns = table.Columns ∧ table1.Indices = table.Indices ∧
      table1.UniqueConstraints = table.UniqueConstraints ∧ table1.Name = table.Name ∧
      table1.Schema = table.Schema ∧
      ensureNamedForeignKeys D table.Name table.ForeignKeys = some table1.ForeignKeys := by
  unfold ensureNamedForeignKeyConstraints at h
  split at h
  · cases h
  · rename_i fks hfks
    injection h with h
    subst h
    exact ⟨rfl, rfl, rfl, rfl, rfl, hfks⟩

theorem forall₂_exists_left {α β : Type} (P : α → β → Prop) :
    ∀ (l1 : List α) (l2 : List β), List.Forall₂ P l1 l2 → ∀ b ∈ l2, ∃ a ∈ l1, P a b
  | _, _, List.Forall₂.nil, b, hb => by simp at hb
  | a :: l1, c :: l2, List.Forall₂.cons hac hrest, b, hb => by
    rcases List.mem_cons.mp hb with hb | hb
    · subst hb
      exact ⟨a, List.mem_cons_self _ _, hac⟩
    · obtain ⟨x, hx, hP⟩ := forall₂_exists_left P l1 l2 hrest b hb
      exact ⟨x, List.mem_cons_of_mem _ hx, hP⟩

theorem forall₂_exists_right {α β : Type} (P : α → β → Prop) :
    ∀ (l1 : List α) (l2 : List β), List.Forall₂ P l1 l2 → ∀ a ∈ l1, ∃ b ∈ l2, P a b
  | _, _, List.Forall₂.nil, a, ha => by simp at ha
  | c :: l1, b :: l2, List.Forall₂.cons hcb hrest, a, ha => by
    rcases List.mem_cons.mp ha with ha | ha
    · subst ha
      exact ⟨b, List.mem_cons_self _ _, hcb⟩
    · obtain ⟨x, hx, hP⟩ := forall₂_exists_right P l1 l2 hrest a ha
      exact ⟨x, List.mem_cons_of_mem _ hx, hP⟩

/-- C4: in the model table of a successful compilation the columns are the field
columns followed by the relation columns; the field columns are those of
`getColumnsForModelFields`, one per field name in sorted order, each with
`PrimaryKey` set exactly when its field name is listed in the model's `primary`
identifier (whether the column is primitive or enum-backed); the relation columns are
those of `getColumnsForModelRelations` and all have `PrimaryKey = false`. So a column
of the model table is a primary-key column only if it is the column of a field
listed in the primary identifier, and every field of the model listed there has a
primary-key column. -/
theorem primary_key_flag_iff_field_in_primary_identifier
    (D : Deps) (config : MorpheConfig) (r : Registry) (model : Model) (tables : List Table)
    (h : morpheModelToPSQLTables D config r model = Except.ok tables) :
    ∃ (primaryID : ModelIdentifier) (modelTable : Table) (junctionTables : List Table)
      (fieldColumns relatedColumns : List Column) (enumForeignKeys : List ForeignKey),
      model.Identifiers.get? "primary" = some primaryID ∧
      tables = modelTable :: junctionTables ∧
      modelTable.Columns = fieldColumns ++ relatedColumns ∧
      getColumnsForModelFields D config r
        (if config.MorpheModelsConfig.UseBigSerial then D.MorpheModelFieldToPSQLFieldBigSerial
          else D.MorpheModelFieldToPSQLField)
        (D.GetTableNameFromModel model.Name) primaryID model.Fields =
          Except.ok (fieldColumns, enumForeignKeys) ∧
      getColumnsForModelRelations D r
        (if config.MorpheModelsConfig.UseBigSerial then
          D.MorpheModelFieldToPSQLFieldBigSerialForeign
          else D.MorpheModelFieldToPSQLFieldForeign) model.Related = Except.ok relatedColumns ∧
      List.Forall₂
        (fun fieldName column =>
          column.PrimaryKey = decide (fieldName ∈ primaryID.Fields) ∧
          (column.Name = D.GetColumnNameFromField fieldName ∨
            column.Name = D.GetColumnNameFromField fieldName ++ "_id"))
        (MapKeysSorted model.Fields) fieldColumns ∧
      (∀ column ∈ relatedColumns, column.PrimaryKey = false) ∧
      (∀ column ∈ modelTable.Columns, column.PrimaryKey = true →
        ∃ fieldName ∈ model.Fields.keys, fieldName ∈ primaryID.Fields ∧
          (column.Name = D.GetColumnNameFromField fieldName ∨
            column.Name = D.GetColumnNameFromField fieldName ++ "_id")) ∧
      (∀ fieldName ∈ model.Fields.keys, fieldName ∈ primaryID.Fields →
        ∃ column ∈ modelTable.Columns, column.PrimaryKey = true ∧
          (column.Name = D.GetColumnNameFromField fieldName ∨
            column.Name = D.GetColumnNameFromField fieldName ++ "_id")) := by
  obtain ⟨primaryID, fieldColumns, enumForeignKeys, relatedColumns, relationForeignKeys,
    modelTable, junctionTables, processed, _, _, hprim, hfields, hrel, _, hensure, _, _, ht⟩ :=
    morpheModelToPSQLTables_ok D config r model tables h
  have hcols : modelTable.Columns = fieldColumns ++ relatedColumns := by
    rw [(ensureNamedForeignKeyConstraints_frame D _ _ hensure).1]
    simp only [quoteReservedColumnNames]
    rw [(addUniqueIndicesFromIdentifiers_frame D _ _).1]
  have hall := getColumnsForModelFields_columns D config r _ _ primaryID model.Fields _ _ hfields
  have hrelpk : ∀ column ∈ relatedColumns, column.PrimaryKey = false := fun c hc =>
    (getColumnsForModelRelations_columns D r _ model.Related _ hrel c hc).1
  refine ⟨primaryID, modelTable, processed, fieldColumns, relatedColumns, enumForeignKeys,
    hprim, ht, hcols, hfields, hrel, hall, hrelpk, ?_, ?_⟩
  · intro c hc hpk
    rw [hcols] at hc
    rcases List.mem_append.mp hc with hc | hc
    · obtain ⟨k, hk, hkpk, hname⟩ := forall₂_exists_left _ _ _ hall c hc
      rw [hpk] at hkpk
      exact ⟨k, (MapKeysSorted_perm_keys model.Fields).mem_iff.mp hk,
        of_decide_eq_true hkpk.symm, hname⟩
    · rw [hrelpk c hc] at hpk
      cases hpk
  · intro k hk hkprim
    obtain ⟨c, hc, hcpk, hname⟩ := forall₂_exists_right _ _ _ hall k
      ((MapKeysSorted_perm_keys model.Fields).mem_iff.mpr hk)
    refine ⟨c, ?_, ?_, hname⟩
    · rw [hcols]
      exact List.mem_append_left _ hc
    · rw [hcpk]
      exact decide_eq_true hkprim

/-- C4 at the sample `Person`, which compiles to `examplePersonTables`. -/
theorem primary_key_flag_iff_field_in_primary_identifier_witness :
    ∃ (primaryID : ModelIdentifier) (modelTable : Table) (junctionTables : List Table)
      (fieldColumns relatedColumns : List Column) (enumForeignKeys : List ForeignKey),
      examplePerson.Identifiers.get? "primary" = some primaryID ∧
      examplePersonTables = modelTable :: junctionTables ∧
      modelTable.Columns = fieldColumns ++ relatedColumns ∧
      getColumnsForModelFields specDeps exampleConfig exampleRegistry
        (if exampleConfig.MorpheModelsConfig.UseBigSerial then specDeps.MorpheModelFieldToPSQLFieldBigSerial
          else specDeps.MorpheModelFieldToPSQLField)
        (specDeps.GetTableNameFromModel examplePerson.Name) primaryID examplePerson.Fields =
          Except.ok (fieldColumns, enumForeignKeys) ∧
      getColumnsForModelRelations specDeps exampleRegistry
        (if exampleConfig.MorpheModelsConfig.UseBigSerial then
          specDeps.MorpheModelFieldToPSQLFieldBigSerialForeign
          else specDeps.MorpheModelFieldToPSQLFieldForeign) examplePerson.Related = Except.ok relatedColumns ∧
      List.Forall₂
        (fun fieldName column =>
          column.PrimaryKey = decide (fieldName ∈ primaryID.Fields) ∧
          (column.Name = specDeps.GetColumnNameFromField fieldName ∨
            column.Name = specDeps.GetColumnNameFromField fieldName ++ "_id"))
        (MapKeysSorted examplePerson.Fields) fieldColumns ∧
      (∀ column ∈ relatedColumns, column.PrimaryKey = false) ∧
      (∀ column ∈ modelTable.Columns, column.PrimaryKey = true →
        ∃ fieldName ∈ examplePerson.Fields.keys, fieldName ∈ primaryID.Fields ∧
          (column.Name = specDeps.GetColumnNameFromField fieldName ∨
            column.Name = specDeps.GetColumnNameFromField fieldName ++ "_id")) ∧
      (∀ fieldName ∈ examplePerson.Fields.keys, fieldName ∈ primaryID.Fields →
        ∃ column ∈ modelTable.Columns, column.PrimaryKey = true ∧
          (column.Name = specDeps.GetColumnNameFromField fieldName ∨
            column.Name = specDeps.GetColumnNameFromField fieldName ++ "_id")) :=
  primary_key_flag_iff_field_in_primary_identifier specDeps exampleConfig exampleRegistry
    examplePerson examplePersonTables (by decide)

theorem GoMap.index_perm {V : Type} (m1 m2 : GoMap V) (hwf : m1.WF) (hp : m1.Perm m2)
    (key : String) (zero : V) : m1.index key zero = m2.index key zero := by
  simp [GoMap.index, GoMap.get?_perm m1 m2 hwf hp key]

theorem MapKeysSorted_perm {V : Type} (m1 m2 : GoMap V) (hp : m1.Perm m2) :
    MapKeysSorted m1 = MapKeysSorted m2 :=
  MapKeysSorted_congr m1 m2 (hp.map Prod.fst)

theorem fieldStep_perm (D : Deps) (config : MorpheConfig) (r : Registry)
    (typeMap : GoMap PSQLType) (tableName : String) (primaryID : ModelIdentifier)
    (fields1 fields2 : GoMap ModelField) (hwf : fields1.WF) (hp : fields1.Perm fields2) :
    fieldStep D config r typeMap tableName primaryID fields1 =
      fieldStep D config r typeMap tableName primaryID fields2 := by
  funext k acc
  simp only [fieldStep, GoMap.index_perm fields1 fields2 hwf hp]

theorem relationColumnStep_perm (D : Deps) (r : Registry) (typeMap : GoMap PSQLType)
    (related1 related2 : GoMap ModelRelation) (hwf : related1.WF)
    (hp : related1.Perm related2) :
    relationColumnStep D r typeMap related1 = relationColumnStep D r typeMap related2 := by
  funext k acc
  simp only [relationColumnStep, GoMap.index_perm related1 related2 hwf hp]

theorem relationForeignKeyStep_perm (D : Deps) (schema tableName : String) (r : Registry)
    (related1 related2 : GoMap ModelRelation) (hwf : related1.WF)
    (hp : related1.Perm related2) :
    relationForeignKeyStep D schema tableName r related1 =
      relationForeignKeyStep D schema tableName r related2 := by
  funext k acc
  simp only [relationForeignKeyStep, GoMap.index_perm related1 related2 hwf hp]

theorem getColumnsForModelFields_perm (D : Deps) (config : MorpheConfig) (r : Registry)
    (typeMap : GoMap PSQLType) (tableName : String) (primaryID : ModelIdentifier)
    (fields1 fields2 : GoMap ModelField) (hwf : fields1.WF) (hp : fields1.Perm fields2) :
    getColumnsForModelFields D config r typeMap tableName primaryID fields1 =
      getColumnsForModelFields D config r typeMap tableName primaryID fields2 := by
  unfold getColumnsForModelFields
  rw [fieldStep_perm D config r typeMap tableName primaryID fields1 fields2 hwf hp,
    MapKeysSorted_perm fields1 fields2 hp]

theorem getColumnsForModelRelations_perm (D : Deps) (r : Registry) (typeMap : GoMap PSQLType)
    (related1 related2 : GoMap ModelRelation) (hwf : related1.WF)
    (hp : related1.Perm related2) :
    getColumnsForModelRelations D r typeMap related1 =
      getColumnsForModelRelations D r typeMap related2 := by
  unfold getColumnsForModelRelations
  rw [relationColumnStep_perm D r typeMap related1 related2 hwf hp,
    MapKeysSorted_perm related1 related2 hp]

theorem getForeignKeysForModelRelations_perm (D : Deps) (schema tableName : String)
    (r : Registry) (related1 related2 : GoMap ModelRelation) (hwf : related1.WF)
    (hp : related1.Perm related2) :
    getForeignKeysForModelRelations D schema tableName r related1 =
      getForeignKeysForModelRelations D schema tableName r related2 := by
  unfold getForeignKeysForModelRelations
  rw [relationForeignKeyStep_perm D schema tableName r related1 related2 hwf hp,
    MapKeysSorted_perm related1 related2 hp]

/-- What the body of the relation column loop does when it succeeds: nothing for a
relation that is not for + to-one, and otherwise it appends the column for the single
primary field of the target. -/
theorem relationColumnStep_ok_exact (D : Deps) (r : Registry) (typeMap : GoMap PSQLType)
    (relatedModels : GoMap ModelRelation) (k : String) (acc res : List Column)
    (h : relationColumnStep D r typeMap relatedModels k acc = Except.ok res) :
    ((D.IsRelationFor (relatedModels.index k { Type_ := "" }).Type_ &&
        D.IsRelationOne (relatedModels.index k { Type_ := "" }).Type_) = false ∧ res = acc) ∨
    ((D.IsRelationFor (relatedModels.index k { Type_ := "" }).Type_ &&
        D.IsRelationOne (relatedModels.index k { Type_ := "" }).Type_) = true ∧
      ∃ (target : Model) (pid : String) (pidField : ModelField) (columnType : PSQLType),
        r.GetModel k = Except.ok target ∧
        target.Identifiers.get? "primary" = some { Fields := [pid] } ∧
        target.Fields.get? pid = some pidField ∧
        typeMap.get? pidField.Type_ = some columnType ∧
        res = acc ++ [{ Name := D.GetForeignKeyColumnName k pid, Type_ := columnType,
                        NotNull := true, PrimaryKey := false, Default := "" }]) := by
  unfold relationColumnStep at h
  dsimp only at h
  cases hm : r.GetModel k with
  | error e => simp [hm] at h
  | ok target =>
    simp only [hm] at h
    cases hp : target.Identifiers.get? "primary" with
    | none => simp [hp] at h
    | some primaryID =>
      simp only [hp] at h
      rcases hf : primaryID.Fields with _ | ⟨pid, _ | ⟨x, rest⟩⟩
      · simp [hf] at h
      · simp only [hf] at h
        cases hfield : target.Fields.get? pid with
        | none => simp [hfield] at h
        | some field =>
          simp only [hfield] at h
          cases hcond : (D.IsRelationFor (relatedModels.index k { Type_ := "" }).Type_ &&
              D.IsRelationOne (relatedModels.index k { Type_ := "" }).Type_) with
          | true =>
            simp only [hcond, if_true] at h
            cases htm : typeMap.get? field.Type_ with
            | none => simp [htm] at h
            | some ty =>
              simp only [htm, Except.ok.injEq] at h
              refine Or.inr ⟨rfl, target, pid, field, ty, rfl, ?_, hfield, htm, h.symm⟩
              cases primaryID
              simp only at hf
              subst hf
              exact hp
          | false =>
            simp only [hcond, Bool.false_eq_true, if_false, Except.ok.injEq] at h
            exact Or.inl ⟨rfl, h.symm⟩
      · simp [hf] at h

/-- On success the relation column loop has appended exactly one column per
for + to-one relation among the names it ranged over, in their order. -/
theorem relationLoop_columns_exact (D : Deps) (r : Registry) (typeMap : GoMap PSQLType)
    (relatedModels : GoMap ModelRelation) :
    ∀ (ks : List String) (acc res : List Column),
      rangeKeys (relationColumnStep D r typeMap relatedModels) ks acc = Except.ok res →
      ∃ d : List Column, res = acc ++ d ∧
        List.Forall₂
          (fun name column =>
            ∃ (target : Model) (pid : String) (pidField : ModelField) (columnType : PSQLType),
              r.GetModel name = Except.ok target ∧
              target.Identifiers.get? "primary" = some { Fields := [pid] } ∧
              target.Fields.get? pid = some pidField ∧
              typeMap.get? pidField.Type_ = some columnType ∧
              column = { Name := D.GetForeignKeyColumnName name pid, Type_ := columnType,
                         NotNull := true, PrimaryKey := false, Default := "" })
          (ks.filter (fun name =>
            D.IsRelationFor (relatedModels.index name { Type_ := "" }).Type_ &&
              D.IsRelationOne (relatedModels.index name { Type_ := "" }).Type_))
          d
  | [], acc, res, h => by
    simp only [rangeKeys, Except.ok.injEq] at h
    subst h
    exact ⟨[], by simp, by simp⟩
  | k :: ks, acc, res, h => by
    simp only [rangeKeys] at h
    split at h
    · cases h
    · rename_i s1 hstep
      obtain ⟨d, hd, hall⟩ := relationLoop_columns_exact D r typeMap relatedModels ks s1 res h
      rcases relationColumnStep_ok_exact D r typeMap relatedModels k acc s1 hstep with
        ⟨hcond, h1⟩ | ⟨hcond, target, pid, pidField, columnType, hm, hp, hfld, hty, h1⟩
      · refine ⟨d, by rw [hd, h1], ?_⟩
        simp only [List.filter_cons, hcond, Bool.false_eq_true, if_false]
        exact hall
      · refine ⟨{ Name := D.GetForeignKeyColumnName k pid, Type_ := columnType,
                  NotNull := true, PrimaryKey := false, Default := "" } :: d,
          by rw [hd, h1]; simp, ?_⟩
        simp only [List.filter_cons, hcond, if_true]
        exact List.Forall₂.cons ⟨target, pid, pidField, columnType, hm, hp, hfld, hty, rfl⟩ hall

/-- C5: the field columns, the relation columns and the relation foreign keys do
not depend on the iteration order of the field map and of the relation map: maps
with the same entries in any two orders give the same results, because the keys are
ranged over in ascending order. On success the field columns stand position by
position for the sorted field names, and the relation columns stand position by
position for the for + to-one relations among the sorted related-model names, each
being the not-null column named after the relation's target and its single primary
field, with the mapped type. Hence two models that differ only in the order of their
maps compile, when they compile, to model tables with identical column lists (field
columns first, then relation columns) and identical foreign-key lists. -/
theorem columns_independent_of_map_order
    (D : Deps) (config : MorpheConfig) (r : Registry) (typeMap relatedTypeMap : GoMap PSQLType)
    (schema tableName : String) (primaryID : ModelIdentifier)
    (fields1 fields2 : GoMap ModelField) (related1 related2 : GoMap ModelRelation)
    (hwf : fields1.WF) (hwr : related1.WF)
    (hf : fields1.Perm fields2) (hr : related1.Perm related2) :
    getColumnsForModelFields D config r typeMap tableName primaryID fields1 =
      getColumnsForModelFields D config r typeMap tableName primaryID fields2 ∧
    getColumnsForModelRelations D r relatedTypeMap related1 =
      getColumnsForModelRelations D r relatedTypeMap related2 ∧
    getForeignKeysForModelRelations D schema tableName r related1 =
      getForeignKeysForModelRelations D schema tableName r related2 ∧
    List.Sorted strLE (MapKeysSorted fields1) ∧ (MapKeysSorted fields1).Perm fields1.keys ∧
    List.Sorted strLE (MapKeysSorted related1) ∧ (MapKeysSorted related1).Perm related1.keys ∧
    (∀ columns fks,
      getColumnsForModelFields D config r typeMap tableName primaryID fields1
        = Except.ok (columns, fks) →
      List.Forall₂
        (fun fieldName column =>
          column.Name = D.GetColumnNameFromField fieldName ∨
            column.Name = D.GetColumnNameFromField fieldName ++ "_id")
        (MapKeysSorted fields1) columns) ∧
    (∀ columns,
      getColumnsForModelRelations D r relatedTypeMap related1 = Except.ok columns →
      List.Forall₂
        (fun name column =>
          ∃ (target : Model) (pid : String) (pidField : ModelField) (columnType : PSQLType),
            r.GetModel name = Except.ok target ∧
            target.Identifiers.get? "primary" = some { Fields := [pid] } ∧
            target.Fields.get? pid = some pidField ∧
            relatedTypeMap.get? pidField.Type_ = some columnType ∧
            column = { Name := D.GetForeignKeyColumnName name pid, Type_ := columnType,
                       NotNull := true, PrimaryKey := false, Default := "" })
        ((MapKeysSorted related1).filter (fun name =>
          D.IsRelationFor (related1.index name { Type_ := "" }).Type_ &&
            D.IsRelationOne (related1.index name { Type_ := "" }).Type_))
        columns) ∧
    (∀ (model1 model2 : Model) (table1 table2 : Table) (rest1 rest2 : List Table),
      model1.Name = model2.Name → model1.Identifiers = model2.Identifiers →
      model1.Fields = fields1 → model2.Fields = fields2 →
      model1.Related = related1 → model2.Related = related2 →
      morpheModelToPSQLTables D config r model1 = Except.ok (table1 :: rest1) →
      morpheModelToPSQLTables D config r model2 = Except.ok (table2 :: rest2) →
      table1.Columns = table2.Columns ∧ table1.ForeignKeys = table2.ForeignKeys ∧
      ∃ (pid : ModelIdentifier) (fieldColumns relatedColumns : List Column)
        (enumForeignKeys : List ForeignKey),
        model1.Identifiers.get? "primary" = some pid ∧
        getColumnsForModelFields D config r
          (if config.MorpheModelsConfig.UseBigSerial then
            D.MorpheModelFieldToPSQLFieldBigSerial else D.MorpheModelFieldToPSQLField)
          (D.GetTableNameFromModel model1.Name) pid fields1
            = Except.ok (fieldColumns, enumForeignKeys) ∧
        getColumnsForModelRelations D r
          (if config.MorpheModelsConfig.UseBigSerial then
            D.MorpheModelFieldToPSQLFieldBigSerialForeign
            else D.MorpheModelFieldToPSQLFieldForeign) related1 = Except.ok relatedColumns ∧
        table1.Columns = fieldColumns ++ relatedColumns) := by
  refine ⟨getColumnsForModelFields_perm D config r typeMap tableName primaryID _ _ hwf hf,
    getColumnsForModelRelations_perm D r relatedTypeMap _ _ hwr hr,
    getForeignKeysForModelRelations_perm D schema tableName r _ _ hwr hr,
    MapKeysSorted_sorted _, MapKeysSorted_perm_keys _,
    MapKeysSorted_sorted _, MapKeysSorted_perm_keys _, ?_, ?_, ?_⟩
  · intro columns fks h
    exact (getColumnsForModelFields_columns D config r typeMap tableName primaryID fields1
      columns fks h).imp (fun _ _ hx => hx.2)
  · intro columns h
    obtain ⟨d, hd, hall⟩ := relationLoop_columns_exact D r relatedTypeMap related1
      (MapKeysSorted related1) [] columns h
    simp only [List.nil_append] at hd
    exact hd ▸ hall
  · intro model1 model2 table1 table2 rest1 rest2 hname hids hf1 hf2 hr1 hr2 h1 h2
    obtain ⟨pid1, fc1, efk1, rc1, rfk1, mt1, jt1, pr1, _, _, hp1, hfl1, hrl1, hfk1, hen1, _, _,
      ht1⟩ := morpheModelToPSQLTables_ok D config r model1 _ h1
    obtain ⟨pid2, fc2, efk2, rc2, rfk2, mt2, jt2, pr2, _, _, hp2, hfl2, hrl2, hfk2, hen2, _, _,
      ht2⟩ := morpheModelToPSQLTables_ok D config r model2 _ h2
    injection ht1 with ht1 _
    injection ht2 with ht2 _
    subst ht1 ht2
    rw [hids] at hp1
    rw [hp1] at hp2
    injection hp2 with hp2
    subst hp2
    rw [hname, hf1, getColumnsForModelFields_perm D config r _ _ pid1 _ _ hwf hf, ← hf2] at hfl1
    rw [hfl1] at hfl2
    injection hfl2 with hfl2
    injection hfl2 with hc he
    rw [hr1, getColumnsForModelRelations_perm D r _ _ _ hwr hr, ← hr2] at hrl1
    rw [hrl1] at hrl2
    injection hrl2 with hrl2
    rw [hname, hr1, getForeignKeysForModelRelations_perm D _ _ r _ _ hwr hr, ← hr2] at hfk1
    rw [hfk1] at hfk2
    injection hfk2 with hfk2
    subst hc he hrl2 hfk2
    obtain ⟨hcol1, _, _, hn1, _, hk1⟩ := ensureNamedForeignKeyConstraints_frame D _ _ hen1
    obtain ⟨hcol2, _, _, hn2, _, hk2⟩ := ensureNamedForeignKeyConstraints_frame D _ _ hen2
    simp only [quoteReservedColumnNames] at hcol1 hcol2 hk1 hk2
    rw [(addUniqueIndicesFromIdentifiers_frame D _ _).1] at hcol1 hcol2
    rw [(addUniqueIndicesFromIdentifiers_frame D _ _).2.1,
      (addUniqueIndicesFromIdentifiers_frame D _ _).2.2.2.1] at hk1 hk2
    dsimp only at hcol1 hcol2 hk1 hk2
    rw [hname] at hk1
    rw [hk1] at hk2
    injection hk2 with hk2
    refine ⟨by rw [hcol1, hcol2], hk2, pid1, fc1, rc1, efk1, ?_, ?_, ?_, hcol1⟩
    · rw [hids]; exact hp1
    · rw [hname, getColumnsForModelFields_perm D config r _ _ pid1 _ _ hwf hf, ← hf2]
      exact hfl1
    · rw [getColumnsForModelRelations_perm D r _ _ _ hwr hr, ← hr2]
      exact hrl1

/-- C5 at the sample `Person`: its field map in reverse order, and a two-relation
map in both orders; the results that the three functions return there come first. -/
theorem columns_independent_of_map_order_witness :
    (getColumnsForModelFields specDeps exampleConfig exampleRegistry
        specDeps.MorpheModelFieldToPSQLField "people" { Fields := ["ID"] }
        examplePerson.Fields.reverse).map (fun res => res.1.map (fun c => c.Name)) =
      Except.ok ["email", "id", "last_name", "nationality_id"] ∧
    getColumnsForModelRelations specDeps exampleRegistry
        specDeps.MorpheModelFieldToPSQLFieldForeign exampleRelationsSwapped =
      Except.ok [{ Name := "company_id", Type_ := "INTEGER", NotNull := true,
                   PrimaryKey := false, Default := "" }] ∧
    (getForeignKeysForModelRelations specDeps "public" "people" exampleRegistry
        exampleRelationsSwapped).map (fun fks => fks.map (fun fk => fk.Name)) =
      Except.ok ["fk_people_company_id"] ∧
    getColumnsForModelFields specDeps exampleConfig exampleRegistry specDeps.MorpheModelFieldToPSQLField "people" { Fields := ["ID"] } examplePerson.Fields =
      getColumnsForModelFields specDeps exampleConfig exampleRegistry specDeps.MorpheModelFieldToPSQLField "people" { Fields := ["ID"] } examplePerson.Fields.reverse ∧
    getColumnsForModelRelations specDeps exampleRegistry specDeps.MorpheModelFieldToPSQLFieldForeign exampleRelations =
      getColumnsForModelRelations specDeps exampleRegistry specDeps.MorpheModelFieldToPSQLFieldForeign exampleRelationsSwapped ∧
    getForeignKeysForModelRelations specDeps "public" "people" exampleRegistry exampleRelations =
      getForeignKeysForModelRelations specDeps "public" "people" exampleRegistry exampleRelationsSwapped ∧
    List.Sorted strLE (MapKeysSorted examplePerson.Fields) ∧ (MapKeysSorted examplePerson.Fields).Perm examplePerson.Fields.keys ∧
    List.Sorted strLE (MapKeysSorted exampleRelations) ∧ (MapKeysSorted exampleRelations).Perm exampleRelations.keys ∧
    (∀ columns fks,
      getColumnsForModelFields specDeps exampleConfig exampleRegistry specDeps.MorpheModelFieldToPSQLField "people" { Fields := ["ID"] } examplePerson.Fields
        = Except.ok (columns, fks) →
      List.Forall₂
        (fun fieldName column =>
          column.Name = specDeps.GetColumnNameFromField fieldName ∨
            column.Name = specDeps.GetColumnNameFromField fieldName ++ "_id")
        (MapKeysSorted examplePerson.Fields) columns) ∧
    (∀ columns,
      getColumnsForModelRelations specDeps exampleRegistry specDeps.MorpheModelFieldToPSQLFieldForeign exampleRelations = Except.ok columns →
      List.Forall₂
        (fun name column =>
          ∃ (target : Model) (pid : String) (pidField : ModelField) (columnType : PSQLType),
            exampleRegistry.GetModel name = Except.ok target ∧
            target.Identifiers.get? "primary" = some { Fields := [pid] } ∧
            target.Fields.get? pid = some pidField ∧
            specDeps.MorpheModelFieldToPSQLFieldForeign.get? pidField.Type_ = some columnType ∧
            column = { Name := specDeps.GetForeignKeyColumnName name pid, Type_ := columnType,
                       NotNull := true, PrimaryKey := false, Default := "" })
        ((MapKeysSorted exampleRelations).filter (fun name =>
          specDeps.IsRelationFor (exampleRelations.index name { Type_ := "" }).Type_ &&
            specDeps.IsRelationOne (exampleRelations.index name { Type_ := "" }).Type_))
        columns) ∧
    (∀ (model1 model2 : Model) (table1 table2 : Table) (rest1 rest2 : List Table),
      model1.Name = model2.Name → model1.Identifiers = model2.Identifiers →
      model1.Fields = examplePerson.Fields → model2.Fields = examplePerson.Fields.reverse →
      model1.Related = exampleRelations → model2.Related = exampleRelationsSwapped →
      morpheModelToPSQLTables specDeps exampleConfig exampleRegistry model1 = Except.ok (table1 :: rest1) →
      morpheModelToPSQLTables specDeps exampleConfig exampleRegistry model2 = Except.ok (table2 :: rest2) →
      table1.Columns = table2.Columns ∧ table1.ForeignKeys = table2.ForeignKeys ∧
      ∃ (pid : ModelIdentifier) (fieldColumns relatedColumns : List Column)
        (enumForeignKeys : List ForeignKey),
        model1.Identifiers.get? "primary" = some pid ∧
        getColumnsForModelFields specDeps exampleConfig exampleRegistry
          (if exampleConfig.MorpheModelsConfig.UseBigSerial then
            specDeps.MorpheModelFieldToPSQLFieldBigSerial else specDeps.MorpheModelFieldToPSQLField)
          (specDeps.GetTableNameFromModel model1.Name) pid examplePerson.Fields
            = Except.ok (fieldColumns, enumForeignKeys) ∧
        getColumnsForModelRelations specDeps exampleRegistry
          (if exampleConfig.MorpheModelsConfig.UseBigSerial then
            specDeps.MorpheModelFieldToPSQLFieldBigSerialForeign
            else specDeps.MorpheModelFieldToPSQLFieldForeign) exampleRelations = Except.ok relatedColumns ∧
        table1.Columns = fieldColumns ++ relatedColumns) :=
  ⟨by decide, by decide, by decide,
    columns_independent_of_map_order specDeps exampleConfig exampleRegistry
      specDeps.MorpheModelFieldToPSQLField specDeps.MorpheModelFieldToPSQLFieldForeign
      "public" "people" { Fields := ["ID"] } examplePerson.Fields examplePerson.Fields.reverse
      exampleRelations exampleRelationsSwapped
      (by decide) (by decide) (List.reverse_perm _).symm (List.Perm.swap _ _ _)⟩

/-- C6: `addUniqueIndicesFromIdentifiers` ranges over the identifier map itself, not
over its sorted keys, so the unique indices come out in the iteration order of the
map: the sample `Student` (non-primary identifiers `email` and `name`) compiles to
the unique indices `idx_students_email, idx_students_name` under one iteration order
and to `idx_students_name, idx_students_email` under the other, although both
identifier maps hold the same entries. -/
theorem unique_indices_follow_identifier_map_iteration_order :
    exampleStudent.Identifiers.Perm exampleStudentReordered.Identifiers ∧
    exampleStudent.Identifiers.WF ∧
    exampleStudentReordered.Name = exampleStudent.Name ∧
    exampleStudentReordered.Fields = exampleStudent.Fields ∧
    exampleStudentReordered.Related = exampleStudent.Related ∧
    (morpheModelToPSQLTables specDeps exampleConfig exampleRegistry exampleStudent).map
        (fun tables => (tables.take 1).map (fun t => t.Indices.map (fun i => i.Name))) =
      Except.ok [["idx_students_email", "idx_students_name"]] ∧
    (morpheModelToPSQLTables specDeps exampleConfig exampleRegistry exampleStudentReordered).map
        (fun tables => (tables.take 1).map (fun t => t.Indices.map (fun i => i.Name))) =
      Except.ok [["idx_students_name", "idx_students_email"]] ∧
    (addUniqueIndicesFromIdentifiers specDeps
        { Schema := "public", Name := "students", Columns := [], Indices := [],
          ForeignKeys := [], UniqueConstraints := [] } exampleStudent.Identifiers).Indices ≠
      (addUniqueIndicesFromIdentifiers specDeps
        { Schema := "public", Name := "students", Columns := [], Indices := [],
          ForeignKeys := [], UniqueConstraints := [] }
        exampleStudentReordered.Identifiers).Indices := by
  refine ⟨(List.reverse_perm _).symm, by decide, rfl, rfl, rfl, by decide, by decide, by decide⟩

/-- C7, as stated, fails: the junction table that `Student` makes for its relation
to `Course` and the one that `Course` makes for its relation to `Student` have the
same table name, but the owning side comes first in each, so their columns, foreign
keys and indices come in opposite orders and their unique constraints list the two
columns in opposite orders (and, the name being built from the participants in that
order, differ in name). -/
theorem junction_tables_of_the_two_directions_differ :
    (getJunctionTablesForForManyRelations specDeps "public" exampleRegistry exampleStudent).map
        (fun ts => ts.map Table.names) =
      Except.ok [[["course_students"], ["id", "student_id", "course_id"],
        ["fk_course_students_student_id", "fk_course_students_course_id"],
        ["idx_course_students_student_id", "idx_course_students_course_id"],
        ["uk_course_students_student_id_course_id"], ["student_id,course_id"]]] ∧
    (getJunctionTablesForForManyRelations specDeps "public" exampleRegistry exampleCourse).map
        (fun ts => ts.map Table.names) =
      Except.ok [[["course_students"], ["id", "course_id", "student_id"],
        ["fk_course_students_course_id", "fk_course_students_student_id"],
        ["idx_course_students_course_id", "idx_course_students_student_id"],
        ["uk_course_students_course_id_student_id"], ["course_id,student_id"]]] ∧
    getJunctionTablesForForManyRelations specDeps "public" exampleRegistry exampleStudent ≠
      getJunctionTablesForForManyRelations specDeps "public" exampleRegistry exampleCourse := by
  refine ⟨by decide, by decide, by decide⟩

/-- The junction table that `getJunctionTablesForForManyRelations` appends for one
for + to-many relation, between what the relations before and after it give. -/
theorem getJunctionTables_split
    (D : Deps) (schema : String) (r : Registry)
    (A : Model) (pa : String) (B : String) (rel : ModelRelation) (Bm : Model) (pb : String)
    (hwf : A.Related.WF) (hmem : (B, rel) ∈ A.Related)
    (hA : A.Identifiers.get? "primary" = some { Fields := [pa] })
    (hmodel : r.GetModel B = Except.ok Bm)
    (hB : Bm.Identifiers.get? "primary" = some { Fields := [pb] })
    (hfor : D.IsRelationFor rel.Type_ = true) (hmany : D.IsRelationMany rel.Type_ = true) :
    ∃ before after : List String,
      MapKeysSorted A.Related = before ++ B :: after ∧ B ∉ before ∧ B ∉ after ∧
      getJunctionTablesForForManyRelations D schema r A =
        ((rangeKeys (junctionStep D schema r A pa) before []).bind fun jpre =>
          (rangeKeys (junctionStep D schema r A pa) after []).bind fun jpost =>
            Except.ok (jpre ++ [junctionTableFor D schema A.Name pa B pb] ++ jpost)) := by
  obtain ⟨before, after, hsplit, hb, ha⟩ := MapKeysSorted_split A.Related hwf B rel hmem
  have hidx : A.Related.index B { Type_ := "" } = rel :=
    GoMap.index_of_mem A.Related B rel _ hwf hmem
  refine ⟨before, after, hsplit, hb, ha, ?_⟩
  unfold getJunctionTablesForForManyRelations
  simp only [hA]
  rw [hsplit]
  apply rangeKeys_split_list _ (junctionStep_acc D schema r A pa)
  simp [junctionStep, hidx, hmodel, hB, hfor, hmany]

/-- C7, amended: the junction table that `A` makes for its for + to-many relation to
`B` and the one that `B` makes for its relation to `A` mirror each other. Both have
the same schema; the columns are `id`, then the column of the owning side, then the
column of the related side, so the two integer columns are swapped; each has one
unique constraint over the same two columns in opposite order, named by
`GetJunctionTableUniqueConstraintName` with the participants in the order of the
triggering side. The table names are `GetJunctionTableName` of the two model names in
the order of the triggering side, and when that gives the same name for both orders,
the table names are equal and the foreign-key lists and the index lists are reverses
of each other. -/
theorem junction_tables_of_the_two_directions_mirror
    (D : Deps) (schema : String) (r : Registry) (A B : Model) (pa pb : String)
    (relAB relBA : ModelRelation)
    (hwfA : A.Related.WF) (hwfB : B.Related.WF)
    (hAB : (B.Name, relAB) ∈ A.Related) (hBA : (A.Name, relBA) ∈ B.Related)
    (hA : r.GetModel A.Name = Except.ok A) (hB : r.GetModel B.Name = Except.ok B)
    (hpa : A.Identifiers.get? "primary" = some { Fields := [pa] })
    (hpb : B.Identifiers.get? "primary" = some { Fields := [pb] })
    (hforAB : D.IsRelationFor relAB.Type_ = true) (hmanyAB : D.IsRelationMany relAB.Type_ = true)
    (hforBA : D.IsRelationFor relBA.Type_ = true)
    (hmanyBA : D.IsRelationMany relBA.Type_ = true) :
    ∃ (tAB tBA : Table) (beforeA afterA beforeB afterB : List String),
      MapKeysSorted A.Related = beforeA ++ B.Name :: afterA ∧
      B.Name ∉ beforeA ∧ B.Name ∉ afterA ∧
      getJunctionTablesForForManyRelations D schema r A =
        ((rangeKeys (junctionStep D schema r A pa) beforeA []).bind fun jpre =>
          (rangeKeys (junctionStep D schema r A pa) afterA []).bind fun jpost =>
            Except.ok (jpre ++ [tAB] ++ jpost)) ∧
      MapKeysSorted B.Related = beforeB ++ A.Name :: afterB ∧
      A.Name ∉ beforeB ∧ A.Name ∉ afterB ∧
      getJunctionTablesForForManyRelations D schema r B =
        ((rangeKeys (junctionStep D schema r B pb) beforeB []).bind fun jpre =>
          (rangeKeys (junctionStep D schema r B pb) afterB []).bind fun jpost =>
            Except.ok (jpre ++ [tBA] ++ jpost)) ∧
      tAB.Schema = tBA.Schema ∧
      tAB.Name = D.GetJunctionTableName A.Name B.Name ∧
      tBA.Name = D.GetJunctionTableName B.Name A.Name ∧
      (∃ idColumn columnA columnB : Column,
        tAB.Columns = [idColumn, columnA, columnB] ∧
        tBA.Columns = [idColumn, columnB, columnA] ∧
        idColumn.Name = "id" ∧
        columnA.Name = D.GetForeignKeyColumnName A.Name pa ∧
        columnB.Name = D.GetForeignKeyColumnName B.Name pb) ∧
      (∃ uAB uBA : UniqueConstraint,
        tAB.UniqueConstraints = [uAB] ∧ tBA.UniqueConstraints = [uBA] ∧
        uAB.TableName = tAB.Name ∧ uBA.TableName = tBA.Name ∧
        uBA.ColumnNames = uAB.ColumnNames.reverse ∧
        uAB.Name = D.GetJunctionTableUniqueConstraintName tAB.Name A.Name pa B.Name pb ∧
        uBA.Name = D.GetJunctionTableUniqueConstraintName tBA.Name B.Name pb A.Name pa) ∧
      (D.GetJunctionTableName A.Name B.Name = D.GetJunctionTableName B.Name A.Name →
        tAB.Name = tBA.Name ∧
        tBA.ForeignKeys = tAB.ForeignKeys.reverse ∧
        tBA.Indices = tAB.Indices.reverse) := by
  obtain ⟨beforeA, afterA, hsA, hbA, haA, hjA⟩ :=
    getJunctionTables_split D schema r A pa B.Name relAB B pb hwfA hAB hpa hB hpb hforAB hmanyAB
  obtain ⟨beforeB, afterB, hsB, hbB, haB, hjB⟩ :=
    getJunctionTables_split D schema r B pb A.Name relBA A pa hwfB hBA hpb hA hpa hforBA hmanyBA
  refine ⟨junctionTableFor D schema A.Name pa B.Name pb,
    junctionTableFor D schema B.Name pb A.Name pa, beforeA, afterA, beforeB, afterB,
    hsA, hbA, haA, hjA, hsB, hbB, haB, hjB, rfl, rfl, rfl, ?_, ?_, ?_⟩
  · exact ⟨_, _, _, rfl, rfl, rfl, rfl, rfl⟩
  · refine ⟨_, _, rfl, rfl, rfl, rfl, ?_, rfl, rfl⟩
    simp [junctionTableFor]
  · intro hsym
    refine ⟨hsym, ?_, ?_⟩
    · simp [junctionTableFor, hsym]
    · simp [junctionTableFor, getIndicesForForeignKeys, foreignKeyIndex, hsym]

/-- C7, amended, at the samples `Student` and `Course`, which declare the relation
from both sides. -/
theorem junction_tables_of_the_two_directions_mirror_witness :
    ∃ (tAB tBA : Table) (beforeA afterA beforeB afterB : List String),
      MapKeysSorted exampleStudent.Related = beforeA ++ exampleCourse.Name :: afterA ∧
      exampleCourse.Name ∉ beforeA ∧ exampleCourse.Name ∉ afterA ∧
      getJunctionTablesForForManyRelations specDeps "public" exampleRegistry exampleStudent =
        ((rangeKeys (junctionStep specDeps "public" exampleRegistry exampleStudent "ID") beforeA []).bind fun jpre =>
          (rangeKeys (junctionStep specDeps "public" exampleRegistry exampleStudent "ID") afterA []).bind fun jpost =>
            Except.ok (jpre ++ [tAB] ++ jpost)) ∧
      MapKeysSorted exampleCourse.Related = beforeB ++ exampleStudent.Name :: afterB ∧
      exampleStudent.Name ∉ beforeB ∧ exampleStudent.Name ∉ afterB ∧
      getJunctionTablesForForManyRelations specDeps "public" exampleRegistry exampleCourse =
        ((rangeKeys (junctionStep specDeps "public" exampleRegistry exampleCourse "ID") beforeB []).bind fun jpre =>
          (rangeKeys (junctionStep specDeps "public" exampleRegistry exampleCourse "ID") afterB []).bind fun jpost =>
            Except.ok (jpre ++ [tBA] ++ jpost)) ∧
      tAB.Schema = tBA.Schema ∧
      tAB.Name = specDeps.GetJunctionTableName exampleStudent.Name exampleCourse.Name ∧
      tBA.Name = specDeps.GetJunctionTableName exampleCourse.Name exampleStudent.Name ∧
      (∃ idColumn columnA columnB : Column,
        tAB.Columns = [idColumn, columnA, columnB] ∧
        tBA.Columns = [idColumn, columnB, columnA] ∧
        idColumn.Name = "id" ∧
        columnA.Name = specDeps.GetForeignKeyColumnName exampleStudent.Name "ID" ∧
        columnB.Name = specDeps.GetForeignKeyColumnName exampleCourse.Name "ID") ∧
      (∃ uAB uBA : UniqueConstraint,
        tAB.UniqueConstraints = [uAB] ∧ tBA.UniqueConstraints = [uBA] ∧
        uAB.TableName = tAB.Name ∧ uBA.TableName = tBA.Name ∧
        uBA.ColumnNames = uAB.ColumnNames.reverse ∧
        uAB.Name = specDeps.GetJunctionTableUniqueConstraintName tAB.Name exampleStudent.Name "ID" exampleCourse.Name "ID" ∧
        uBA.Name = specDeps.GetJunctionTableUniqueConstraintName tBA.Name exampleCourse.Name "ID" exampleStudent.Name "ID") ∧
      (specDeps.GetJunctionTableName exampleStudent.Name exampleCourse.Name = specDeps.GetJunctionTableName exampleCourse.Name exampleStudent.Name →
        tAB.Name = tBA.Name ∧
        tBA.ForeignKeys = tAB.ForeignKeys.reverse ∧
        tBA.Indices = tAB.Indices.reverse) :=
  junction_tables_of_the_two_directions_mirror specDeps "public" exampleRegistry
    exampleStudent exampleCourse "ID" "ID" { Type_ := "ForMany" } { Type_ := "ForMany" }
    (by decide) (by decide) (by decide) (by decide) (by decide) (by decide) (by decide)
    (by decide) (by decide) (by decide) (by decide) (by decide)

/-- C8: the junction table of a self-referencing for + to-many relation repeats its
names. For every naming, when owning and related model coincide the two integer
columns have the same name, the two foreign keys the same constraint name and the
two indices the same index name; the sample `Category` compiles to a junction table
`category_categories` with index names and foreign-key names each listed twice. -/
theorem self_referencing_junction_table_repeats_names :
    (∀ (D : Deps) (schema modelName pid : String),
      (junctionTableFor D schema modelName pid modelName pid).Columns.map (fun c => c.Name) =
        ["id", D.GetForeignKeyColumnName modelName pid,
          D.GetForeignKeyColumnName modelName pid] ∧
      (junctionTableFor D schema modelName pid modelName pid).ForeignKeys.map (fun k => k.Name) =
        [D.GetJunctionTableForeignKeyConstraintName
            (D.GetJunctionTableName modelName modelName) modelName pid,
          D.GetJunctionTableForeignKeyConstraintName
            (D.GetJunctionTableName modelName modelName) modelName pid] ∧
      (junctionTableFor D schema modelName pid modelName pid).Indices.map (fun i => i.Name) =
        [D.GetIndexName (D.GetJunctionTableName modelName modelName)
            (D.GetForeignKeyColumnName modelName pid),
          D.GetIndexName (D.GetJunctionTableName modelName modelName)
            (D.GetForeignKeyColumnName modelName pid)]) ∧
    (morpheModelToPSQLTables specDeps exampleConfig exampleRegistry exampleCategory).map
        (fun tables => tables.map Table.names) =
      Except.ok
        [[["categories"], ["id", "label"], [], [], [], []],
         [["category_categories"], ["id", "category_id", "category_id"],
          ["fk_category_categories_category_id", "fk_category_categories_category_id"],
          ["idx_category_categories_category_id", "idx_category_categories_category_id"],
          ["uk_category_categories_category_id_category_id"], ["category_id,category_id"]]] ∧
    (morpheModelToPSQLTables specDeps exampleConfig exampleRegistry exampleCategory).map
        (fun tables => tables.map (fun t =>
          (decide (t.Indices.map (fun i => i.Name)).Nodup,
           decide (t.ForeignKeys.map (fun k => k.Name)
             ++ t.UniqueConstraints.map (fun u => u.Name)).Nodup))) =
      Except.ok [(true, true), (false, false)] := by
  refine ⟨fun D schema modelName pid => ⟨rfl, rfl, rfl⟩, by decide, by decide⟩

theorem forall₂_map_self {α β : Type} (f : α → β) (P : α → β → Prop)
    (h : ∀ a, P a (f a)) : ∀ l : List α, List.Forall₂ P l (l.map f)
  | [] => List.Forall₂.nil
  | a :: l => List.Forall₂.cons (h a) (forall₂_map_self f P h l)

theorem reservedWords_index (colName : String) :
    reservedWords.index colName false = true ↔ colName ∈ reservedWords.keys := by
  constructor
  · intro h
    by_contra hc
    rw [GoMap.index, (GoMap.get?_eq_none_iff reservedWords colName).mpr hc] at h
    simp at h
  · intro h
    cases hg : reservedWords.get? colName with
    | none => exact absurd h ((GoMap.get?_eq_none_iff reservedWords colName).mp hg)
    | some v =>
      have hall : ∀ p ∈ reservedWords, p.2 = true := by decide
      have := hall _ (GoMap.mem_of_get? reservedWords colName v hg)
      simp only at this
      simp [GoMap.index, hg, this]

theorem quoteColumn_eq (colName : String) :
    quoteColumn colName =
      if colName ∈ ["name", "type", "user", "case", "when", "then", "else", "end", "null",
        "true", "false", "select", "insert", "update", "delete", "from", "where", "group",
        "order", "limit", "offset", "join", "on", "using", "and", "or", "not", "between",
        "alter", "table", "index", "unique", "primary", "foreign", "key"]
      then "\"" ++ colName ++ "\"" else colName := by
  have hkeys : reservedWords.keys = ["name", "type", "user", "case", "when", "then", "else",
      "end", "null", "true", "false", "select", "insert", "update", "delete", "from", "where",
      "group", "order", "limit", "offset", "join", "on", "using", "and", "or", "not", "between",
      "alter", "table", "index", "unique", "primary", "foreign", "key"] := by decide
  rw [← hkeys]
  unfold quoteColumn
  by_cases h : colName ∈ reservedWords.keys
  · rw [if_pos ((reservedWords_index colName).mpr h), if_pos h]
  · have : ¬ reservedWords.index colName false = true := fun hc =>
      h ((reservedWords_index colName).mp hc)
    rw [if_neg this, if_neg h]

/-- On values, `quoteReservedColumnNames` keeps the name, table name, uniqueness
flag and number of columns of every index, and turns each index column into itself
wrapped in double quotes when it is one of the 35 reserved words and leaves it as it
is otherwise. The schema, name, columns, foreign keys and unique constraints of the
table are unchanged. -/
theorem quoteReservedColumnNames_on_values (table : Table) :
    (quoteReservedColumnNames table).Schema = table.Schema ∧
    (quoteReservedColumnNames table).Name = table.Name ∧
    (quoteReservedColumnNames table).Columns = table.Columns ∧
    (quoteReservedColumnNames table).ForeignKeys = table.ForeignKeys ∧
    (quoteReservedColumnNames table).UniqueConstraints = table.UniqueConstraints ∧
    List.Forall₂
      (fun old new =>
        new.Name = old.Name ∧ new.TableName = old.TableName ∧ new.IsUnique = old.IsUnique ∧
        new.Columns.length = old.Columns.length ∧
        List.Forall₂
          (fun c quoted =>
            quoted =
              if c ∈ ["name", "type", "user", "case", "when", "then", "else", "end", "null",
                "true", "false", "select", "insert", "update", "delete", "from", "where",
                "group", "order", "limit", "offset", "join", "on", "using", "and", "or", "not",
                "between", "alter", "table", "index", "unique", "primary", "foreign", "key"]
              then "\"" ++ c ++ "\"" else c)
          old.Columns new.Columns)
      table.Indices (quoteReservedColumnNames table).Indices ∧
    reservedWords.length = 35 ∧
    quoteColumn "order" = "\"order\"" ∧
    quoteColumn "customer_order" = "customer_order" := by
  refine ⟨rfl, rfl, rfl, rfl, rfl, ?_, by decide, by decide, by decide⟩
  unfold quoteReservedColumnNames
  apply forall₂_map_self
  intro idx
  refine ⟨rfl, rfl, rfl, by simp, ?_⟩
  apply forall₂_map_self
  exact quoteColumn_eq

theorem quoteColumn_idem (c : String) : quoteColumn (quoteColumn c) = quoteColumn c := by
  unfold quoteColumn
  by_cases h : reservedWords.index c false = true
  · rw [if_pos h]
    have hq : ¬ reservedWords.index ("\"" ++ c ++ "\"") false = true := by
      intro hc
      have hmem := (reservedWords_index _).mp hc
      have hall : ∀ k ∈ reservedWords.keys, k.data.head? ≠ some '"' := by decide
      exact hall _ hmem (by simp [String.data_append])
    rw [if_neg hq]
  · rw [if_neg h, if_neg h]

/-- The inner loop after its first `n` turns: the elements of the stretch it has
gone over are quoted when reserved, every other element of the store is as before. -/
theorem quoteColumnsLoop_cell (A O : Nat) (store : Store) (n a p : Nat) :
    ((List.range n).foldl
      (fun (store : Store) colIdx =>
        let colName := store A (O + colIdx)
        if reservedWords.index colName false then
          Store.write store A (O + colIdx) ("\"" ++ colName ++ "\"")
        else store)
      store) a p =
      if a = A ∧ O ≤ p ∧ p < O + n then quoteColumn (store a p) else store a p := by
  induction n generalizing a p with
  | zero =>
    simp only [List.range_zero, List.foldl_nil]
    rw [if_neg (by omega)]
  | succ n ih =>
    rw [List.range_succ, List.foldl_append]
    simp only [List.foldl_cons, List.foldl_nil]
    have hcur := ih A (O + n)
    rw [if_neg (by omega)] at hcur
    by_cases hres : reservedWords.index (store A (O + n)) false = true
    · simp only [hcur, hres, if_true, Store.write]
      by_cases hap : a = A ∧ p = O + n
      · obtain ⟨rfl, rfl⟩ := hap
        rw [if_pos ⟨rfl, rfl⟩, if_pos ⟨rfl, by omega, by omega⟩]
        simp [quoteColumn, hres]
      · rw [if_neg hap, ih a p]
        by_cases hin : a = A ∧ O ≤ p ∧ p < O + n
        · rw [if_pos hin, if_pos ⟨hin.1, hin.2.1, by omega⟩]
        · rw [if_neg hin, if_neg]
          rintro ⟨h1, h2, h3⟩
          exact hin ⟨h1, h2, by
            by_contra hc
            exact hap ⟨h1, by omega⟩⟩
    · simp only [hcur, hres, Bool.false_eq_true, if_false]
      rw [ih a p]
      by_cases hin : a = A ∧ O ≤ p ∧ p < O + n
      · rw [if_pos hin, if_pos ⟨hin.1, hin.2.1, by omega⟩]
      · rw [if_neg hin]
        by_cases hap : a = A ∧ p = O + n
        · obtain ⟨rfl, rfl⟩ := hap
          rw [if_pos ⟨rfl, by omega, by omega⟩]
          simp [quoteColumn, hres]
        · rw [if_neg]
          rintro ⟨h1, h2, h3⟩
          exact hin ⟨h1, h2, by
            by_contra hc
            exact hap ⟨h1, by omega⟩⟩

theorem quoteColumnsInPlace_cell (columns : StringSlice) (store : Store) (a p : Nat) :
    (columns.covers a p → quoteColumnsInPlace columns store a p = quoteColumn (store a p)) ∧
    (¬ columns.covers a p → quoteColumnsInPlace columns store a p = store a p) := by
  unfold quoteColumnsInPlace StringSlice.covers
  rw [quoteColumnsLoop_cell]
  constructor
  · intro h
    rw [if_pos h]
  · intro h
    rw [if_neg h]

/-- The outer loop leaves the headers as they are; an element of the store that some
index column slice covers ends up quoted when reserved, any other is as before. -/
theorem quoteIndicesInPlace_cell :
    ∀ (indices : List IndexInStore) (store : Store),
      (quoteIndicesInPlace indices store).1 = indices ∧
      ∀ a p : Nat,
        ((∃ idx ∈ indices, idx.Columns.covers a p) →
          (quoteIndicesInPlace indices store).2 a p = quoteColumn (store a p)) ∧
        ((∀ idx ∈ indices, ¬ idx.Columns.covers a p) →
          (quoteIndicesInPlace indices store).2 a p = store a p)
  | [], store => by simp [quoteIndicesInPlace]
  | idx :: rest, store => by
    obtain ⟨ih1, ih2⟩ := quoteIndicesInPlace_cell rest (quoteColumnsInPlace idx.Columns store)
    simp only [quoteIndicesInPlace, ih1, true_and]
    intro a p
    obtain ⟨hin, hout⟩ := ih2 a p
    obtain ⟨hc1, hc2⟩ := quoteColumnsInPlace_cell idx.Columns store a p
    constructor
    · rintro ⟨i, hi, hcov⟩
      by_cases hrest : ∃ j ∈ rest, j.Columns.covers a p
      · rw [hin hrest]
        by_cases hhere : idx.Columns.covers a p
        · rw [hc1 hhere, quoteColumn_idem]
        · rw [hc2 hhere]
      · have hnone : ∀ j ∈ rest, ¬ j.Columns.covers a p := fun j hj hc => hrest ⟨j, hj, hc⟩
        rw [hout hnone]
        rcases List.mem_cons.mp hi with hi | hi
        · subst hi
          exact hc1 hcov
        · exact absurd hcov (hnone i hi)
    · intro hnone
      rw [hout (fun j hj => hnone j (List.mem_cons_of_mem _ hj)),
        hc2 (hnone idx (List.mem_cons_self _ _))]

theorem shares_of_covers (s1 s2 : StringSlice) (a p : Nat)
    (h1 : s1.covers a p) (h2 : s2.covers a p) : s1.shares s2 = true := by
  unfold StringSlice.covers at h1 h2
  unfold StringSlice.shares
  rw [decide_eq_true_eq]
  obtain ⟨e1, l1, u1⟩ := h1
  obtain ⟨e2, l2, u2⟩ := h2
  exact ⟨e1 ▸ e2, by omega, by omega, by omega, by omega⟩

theorem read_congr (s : StringSlice) (store1 store2 : Store) (f : String → String)
    (h : ∀ p, s.covers s.Backing p → store2 s.Backing p = f (store1 s.Backing p)) :
    s.read store2 = (s.read store1).map f := by
  unfold StringSlice.read
  rw [List.map_map]
  apply List.map_congr_left
  intro i hi
  exact h _ ⟨rfl, by omega, by have := List.mem_range.mp hi; omega⟩


theorem valueAfterQuoting_eq (table : TableInStore) (store : Store)
    (hfresh : ∀ idx ∈ table.Indices,
      (∀ fk ∈ table.ForeignKeys,
        idx.Columns.shares fk.ColumnNames = false ∧
          idx.Columns.shares fk.RefColumnNames = false) ∧
      (∀ uc ∈ table.UniqueConstraints, idx.Columns.shares uc.ColumnNames = false)) :
    table.valueAfterQuoting store = quoteReservedColumnNames (table.value store) := by
  obtain ⟨hhead, hcell⟩ := quoteIndicesInPlace_cell table.Indices store
  have hkeep : ∀ s : StringSlice, (∀ idx ∈ table.Indices, idx.Columns.shares s = false) →
      s.read (quoteIndicesInPlace table.Indices store).2 = s.read store := by
    intro s hs
    have := read_congr s store (quoteIndicesInPlace table.Indices store).2 id (by
      intro p hp
      refine (hcell _ p).2 (fun idx hidx hcov => ?_)
      have := shares_of_covers idx.Columns s _ p hcov hp
      rw [hs idx hidx] at this
      cases this)
    simpa using this
  unfold TableInStore.valueAfterQuoting quoteReservedColumnNamesInPlace quoteReservedColumnNames
    TableInStore.value
  simp only [hhead, Table.mk.injEq, true_and, and_true, List.map_map]
  refine ⟨?_, ?_, ?_⟩
  · apply List.map_congr_left
    intro idx hidx
    simp only [Function.comp, IndexInStore.value, Index.mk.injEq, true_and, and_true]
    exact read_congr idx.Columns store _ quoteColumn
      (fun p hp => (hcell _ p).1 ⟨idx, hidx, hp⟩)
  · apply List.map_congr_left
    intro fk hfk
    simp only [ForeignKeyInStore.value, ForeignKey.mk.injEq, true_and, and_true]
    exact ⟨hkeep _ (fun idx hidx => ((hfresh idx hidx).1 fk hfk).1),
      hkeep _ (fun idx hidx => ((hfresh idx hidx).1 fk hfk).2)⟩
  · apply List.map_congr_left
    intro uc huc
    simp only [UniqueConstraintInStore.value, UniqueConstraint.mk.injEq, true_and]
    exact hkeep _ (fun idx hidx => (hfresh idx hidx).2 uc huc)

/-- C9, as stated, fails: `quoteReservedColumnNames` writes the quoted name into the
backing array of the index column slice, so a foreign key whose `ColumnNames` is the
same slice as the `Columns` of an index is changed by the call. In the sample table
the index and the foreign key share the slice holding `order`; after the call the
foreign key reads `"order"` in quotes as well. -/
theorem quoteReservedColumnNames_rewrites_a_foreign_key_sharing_the_slice :
    (exampleSharingTable.value exampleStore).ForeignKeys.map (fun fk => fk.ColumnNames)
      = [["order"]] ∧
    (exampleSharingTable.valueAfterQuoting exampleStore).ForeignKeys.map
      (fun fk => fk.ColumnNames) = [["\"order\""]] ∧
    (exampleSharingTable.valueAfterQuoting exampleStore).Indices.map (fun idx => idx.Columns)
      = [["\"order\""]] ∧
    (exampleSharingTable.valueAfterQuoting exampleStore).ForeignKeys ≠
      (exampleSharingTable.value exampleStore).ForeignKeys := by
  decide

/-- C9, amended: for every table none of whose index column slices shares an element
of a backing array with a column-name slice of one of its foreign keys or unique
constraints, the call `quoteReservedColumnNames(table)` leaves the table that a reader
sees equal to the map `quoteReservedColumnNames` of the table seen before, and all
slice headers as they were: every index keeps its name, table name, uniqueness flag
and number of columns, each index column is wrapped in double quotes when it is one
of the 35 reserved words and left as it is otherwise (`order` becomes `"order"`,
`customer_order` stays), and the schema, name, columns, foreign keys and unique
constraints are unchanged. Index column slices may share elements with one another. -/
theorem quoteReservedColumnNamesInPlace_quotes_exactly_reserved_words
    (table : TableInStore) (store : Store)
    (hfresh : (∀ idx ∈ table.Indices,
        (∀ fk ∈ table.ForeignKeys,
          idx.Columns.shares fk.ColumnNames = false ∧
            idx.Columns.shares fk.RefColumnNames = false) ∧
        (∀ uc ∈ table.UniqueConstraints, idx.Columns.shares uc.ColumnNames = false))) :
    table.valueAfterQuoting store = quoteReservedColumnNames (table.value store) ∧
    (quoteReservedColumnNamesInPlace table store).1 = table ∧
    (table.valueAfterQuoting store).Schema = (table.value store).Schema ∧
    (table.valueAfterQuoting store).Name = (table.value store).Name ∧
    (table.valueAfterQuoting store).Columns = (table.value store).Columns ∧
    (table.valueAfterQuoting store).ForeignKeys = (table.value store).ForeignKeys ∧
    (table.valueAfterQuoting store).UniqueConstraints = (table.value store).UniqueConstraints ∧
    List.Forall₂
      (fun old new =>
        new.Name = old.Name ∧ new.TableName = old.TableName ∧ new.IsUnique = old.IsUnique ∧
        new.Columns.length = old.Columns.length ∧
        List.Forall₂
          (fun c quoted =>
            quoted =
              if c ∈ ["name", "type", "user", "case", "when", "then", "else", "end", "null",
                "true", "false", "select", "insert", "update", "delete", "from", "where",
                "group", "order", "limit", "offset", "join", "on", "using", "and", "or", "not",
                "between", "alter", "table", "index", "unique", "primary", "foreign", "key"]
              then "\"" ++ c ++ "\"" else c)
          old.Columns new.Columns)
      (table.value store).Indices (table.valueAfterQuoting store).Indices ∧
    reservedWords.length = 35 ∧
    quoteColumn "order" = "\"order\"" ∧
    quoteColumn "customer_order" = "customer_order" := by
  have h := valueAfterQuoting_eq table store hfresh
  refine ⟨h, ?_, ?_⟩
  · unfold quoteReservedColumnNamesInPlace
    simp only [(quoteIndicesInPlace_cell table.Indices store).1]
  · rw [h]
    exact quoteReservedColumnNames_on_values (table.value store)

/-- C9 at a sample table whose index ranges over `order`, `customer_order` in one
backing array while its foreign key and unique constraint read from another. -/
theorem quoteReservedColumnNamesInPlace_quotes_exactly_reserved_words_witness :
    (∀ idx ∈ exampleFreshTable.Indices,
      (∀ fk ∈ exampleFreshTable.ForeignKeys,
        idx.Columns.shares fk.ColumnNames = false ∧
          idx.Columns.shares fk.RefColumnNames = false) ∧
      (∀ uc ∈ exampleFreshTable.UniqueConstraints, idx.Columns.shares uc.ColumnNames = false)) ∧
    (exampleFreshTable.valueAfterQuoting exampleStore).Indices.map (fun idx => idx.Columns)
      = [["\"order\"", "customer_order"]] ∧
    (exampleFreshTable.valueAfterQuoting exampleStore).ForeignKeys.map
      (fun fk => fk.ColumnNames) = [["order"]] ∧
    exampleFreshTable.valueAfterQuoting exampleStore = quoteReservedColumnNames (exampleFreshTable.value exampleStore) ∧
    (quoteReservedColumnNamesInPlace exampleFreshTable exampleStore).1 = exampleFreshTable ∧
    (exampleFreshTable.valueAfterQuoting exampleStore).Schema = (exampleFreshTable.value exampleStore).Schema ∧
    (exampleFreshTable.valueAfterQuoting exampleStore).Name = (exampleFreshTable.value exampleStore).Name ∧
    (exampleFreshTable.valueAfterQuoting exampleStore).Columns = (exampleFreshTable.value exampleStore).Columns ∧
    (exampleFreshTable.valueAfterQuoting exampleStore).ForeignKeys = (exampleFreshTable.value exampleStore).ForeignKeys ∧
    (exampleFreshTable.valueAfterQuoting exampleStore).UniqueConstraints = (exampleFreshTable.value exampleStore).UniqueConstraints ∧
    List.Forall₂
      (fun old new =>
        new.Name = old.Name ∧ new.TableName = old.TableName ∧ new.IsUnique = old.IsUnique ∧
        new.Columns.length = old.Columns.length ∧
        List.Forall₂
          (fun c quoted =>
            quoted =
              if c ∈ ["name", "type", "user", "case", "when", "then", "else", "end", "null",
                "true", "false", "select", "insert", "update", "delete", "from", "where",
                "group", "order", "limit", "offset", "join", "on", "using", "and", "or", "not",
                "between", "alter", "table", "index", "unique", "primary", "foreign", "key"]
              then "\"" ++ c ++ "\"" else c)
          old.Columns new.Columns)
      (exampleFreshTable.value exampleStore).Indices (exampleFreshTable.valueAfterQuoting exampleStore).Indices ∧
    reservedWords.length = 35 ∧
    quoteColumn "order" = "\"order\"" ∧
    quoteColumn "customer_order" = "customer_order" :=
  ⟨by decide, by decide, by decide,
    quoteReservedColumnNamesInPlace_quotes_exactly_reserved_words exampleFreshTable
      exampleStore (by decide)⟩

theorem ensureNamedForeignKey_spec (D : Deps) (tableName : String) (old : ForeignKey)
    (hcols : old.ColumnNames ≠ []) :
    ∃ new : ForeignKey, ensureNamedForeignKey D tableName old = some new ∧
      (old.Name ≠ "" → new.Name = old.Name) ∧
      (old.Name = "" → ∀ first, old.ColumnNames.head? = some first →
        new.Name = D.GetForeignKeyConstraintName tableName first) ∧
      (old.OnDelete ≠ "" → new.OnDelete = old.OnDelete) ∧
      (old.OnDelete = "" → new.OnDelete = "CASCADE") ∧
      new.Schema = old.Schema ∧ new.TableName = old.TableName ∧
      new.ColumnNames = old.ColumnNames ∧ new.RefTableName = old.RefTableName ∧
      new.RefColumnNames = old.RefColumnNames ∧ new.OnUpdate = old.OnUpdate := by
  unfold ensureNamedForeignKey
  by_cases hn : old.Name = "" <;> by_cases hd : old.OnDelete = ""
  · cases hc : old.ColumnNames with
    | nil => exact absurd hc hcols
    | cons first rest => simp [hn, hd, hc]
  · cases hc : old.ColumnNames with
    | nil => exact absurd hc hcols
    | cons first rest => simp [hn, hd, hc]
  · simp [hn, hd]
  · simp [hn, hd]

theorem ensureNamedForeignKey_post (D : Deps) (tableName : String) (old new : ForeignKey)
    (h : ensureNamedForeignKey D tableName old = some new) :
    new.OnDelete ≠ "" ∧
      ((∀ t c, D.GetForeignKeyConstraintName t c ≠ "") → new.Name ≠ "") := by
  unfold ensureNamedForeignKey at h
  by_cases hn : old.Name = "" <;> by_cases hd : old.OnDelete = ""
  · cases hc : old.ColumnNames with
    | nil => simp [hn, hc] at h
    | cons first rest =>
      simp [hn, hd, hc] at h
      subst h
      exact ⟨by simp, fun hne => hne _ _⟩
  · cases hc : old.ColumnNames with
    | nil => simp [hn, hc] at h
    | cons first rest =>
      simp [hn, hd, hc] at h
      subst h
      exact ⟨hd, fun hne => hne _ _⟩
  · simp [hn, hd] at h
    subst h
    exact ⟨by simp, fun _ => hn⟩
  · simp [hn, hd] at h
    subst h
    exact ⟨hd, fun _ => hn⟩

theorem ensureNamedForeignKeys_post (D : Deps) (tableName : String) :
    ∀ (fks out : List ForeignKey), ensureNamedForeignKeys D tableName fks = some out →
      ∀ fk ∈ out, fk.OnDelete ≠ "" ∧
        ((∀ t c, D.GetForeignKeyConstraintName t c ≠ "") → fk.Name ≠ "")
  | [], out, h => by
    simp only [ensureNamedForeignKeys, Option.some.injEq] at h
    subst h
    simp
  | old :: rest, out, h => by
    simp only [ensureNamedForeignKeys] at h
    split at h
    · cases h
    · rename_i new hnew
      split at h
      · cases h
      · rename_i rest1 hrest
        injection h with h
        subst h
        intro fk hfk
        rcases List.mem_cons.mp hfk with hfk | hfk
        · subst hfk
          exact ensureNamedForeignKey_post D tableName old _ hnew
        · exact ensureNamedForeignKeys_post D tableName rest rest1 hrest fk hfk

theorem ensureNamedForeignKeys_spec (D : Deps) (tableName : String) :
    ∀ (fks : List ForeignKey), (∀ fk ∈ fks, fk.ColumnNames ≠ []) →
      ∃ out : List ForeignKey, ensureNamedForeignKeys D tableName fks = some out ∧
        List.Forall₂
          (fun old new =>
            (old.Name ≠ "" → new.Name = old.Name) ∧
            (old.Name = "" → ∀ first, old.ColumnNames.head? = some first →
              new.Name = D.GetForeignKeyConstraintName tableName first) ∧
            (old.OnDelete ≠ "" → new.OnDelete = old.OnDelete) ∧
            (old.OnDelete = "" → new.OnDelete = "CASCADE") ∧
            new.Schema = old.Schema ∧ new.TableName = old.TableName ∧
            new.ColumnNames = old.ColumnNames ∧ new.RefTableName = old.RefTableName ∧
            new.RefColumnNames = old.RefColumnNames ∧ new.OnUpdate = old.OnUpdate)
          fks out
  | [], _ => ⟨[], rfl, List.Forall₂.nil⟩
  | old :: rest, hcols => by
    obtain ⟨new, hnew, hspec⟩ :=
      ensureNamedForeignKey_spec D tableName old (hcols old (List.mem_cons_self _ _))
    obtain ⟨out, hout, hall⟩ := ensureNamedForeignKeys_spec D tableName rest
      (fun fk hfk => hcols fk (List.mem_cons_of_mem _ hfk))
    exact ⟨new :: out, by simp [ensureNamedForeignKeys, hnew, hout],
      List.Forall₂.cons hspec hall⟩

theorem processJunctionTables_post (D : Deps) :
    ∀ (ts out : List Table), processJunctionTables D ts = some out →
      ∀ t ∈ out, ∃ t0 : Table, ensureNamedForeignKeyConstraints D t0 = some t
  | [], out, h => by
    simp only [processJunctionTables, Option.some.injEq] at h
    subst h
    simp
  | t :: rest, out, h => by
    simp only [processJunctionTables] at h
    split at h
    · cases h
    · rename_i t1 ht1
      split at h
      · cases h
      · rename_i rest1 hrest
        injection h with h
        subst h
        intro x hx
        rcases List.mem_cons.mp hx with hx | hx
        · subst hx
          exact ⟨_, ht1⟩
        · exact processJunctionTables_post D rest rest1 hrest x hx

/-- C10: on a table whose foreign keys each own at least one column,
`ensureNamedForeignKeyConstraints` returns the table with the same foreign keys in
number and order, where an empty `Name` became
`GetForeignKeyConstraintName table.Name (first owning column)`, a non-empty `Name` is
kept, an empty `OnDelete` became `CASCADE`, a non-empty `OnDelete` is kept, and every
other field of the foreign key and of the table is unchanged. Hence no foreign key
is left with an empty delete action, nor (as `GetForeignKeyConstraintName` never
returns the empty string) with an empty name, and the same holds for every table that
`morpheModelToPSQLTables` returns. -/
theorem ensureNamedForeignKeyConstraints_backfills_name_and_cascade
    (D : Deps) (table : Table) (hcols : ∀ fk ∈ table.ForeignKeys, fk.ColumnNames ≠ []) :
    ∃ table1 : Table,
      ensureNamedForeignKeyConstraints D table = some table1 ∧
      table1.Schema = table.Schema ∧ table1.Name = table.Name ∧
      table1.Columns = table.Columns ∧ table1.Indices = table.Indices ∧
      table1.UniqueConstraints = table.UniqueConstraints ∧
      List.Forall₂
        (fun old new =>
          (old.Name ≠ "" → new.Name = old.Name) ∧
          (old.Name = "" → ∀ first, old.ColumnNames.head? = some first →
            new.Name = D.GetForeignKeyConstraintName table.Name first) ∧
          (old.OnDelete ≠ "" → new.OnDelete = old.OnDelete) ∧
          (old.OnDelete = "" → new.OnDelete = "CASCADE") ∧
          new.Schema = old.Schema ∧ new.TableName = old.TableName ∧
          new.ColumnNames = old.ColumnNames ∧ new.RefTableName = old.RefTableName ∧
          new.RefColumnNames = old.RefColumnNames ∧ new.OnUpdate = old.OnUpdate)
        table.ForeignKeys table1.ForeignKeys ∧
      (∀ fk ∈ table1.ForeignKeys, fk.OnDelete ≠ "") ∧
      ((∀ t c, D.GetForeignKeyConstraintName t c ≠ "") →
        ∀ fk ∈ table1.ForeignKeys, fk.Name ≠ "") ∧
      (∀ (config : MorpheConfig) (r : Registry) (model : Model) (tables : List Table),
        morpheModelToPSQLTables D config r model = Except.ok tables →
        ∀ t ∈ tables, ∀ fk ∈ t.ForeignKeys, fk.OnDelete ≠ "" ∧
          ((∀ t c, D.GetForeignKeyConstraintName t c ≠ "") → fk.Name ≠ "")) := by
  obtain ⟨out, hout, hall⟩ := ensureNamedForeignKeys_spec D table.Name table.ForeignKeys hcols
  have hpost := ensureNamedForeignKeys_post D table.Name table.ForeignKeys out hout
  refine ⟨{ table with ForeignKeys := out }, by simp [ensureNamedForeignKeyConstraints, hout],
    rfl, rfl, rfl, rfl, rfl, hall, fun fk hfk => (hpost fk hfk).1,
    fun hne fk hfk => (hpost fk hfk).2 hne, ?_⟩
  intro config r model tables h t ht fk hfk
  obtain ⟨_, _, _, _, _, modelTable, _, processed, _, _, _, _, _, _, hensure, _, hproc, htab⟩ :=
    morpheModelToPSQLTables_ok D config r model tables h
  subst htab
  rcases List.mem_cons.mp ht with ht | ht
  · subst ht
    exact ensureNamedForeignKeys_post D _ _ _
      (ensureNamedForeignKeyConstraints_frame D _ _ hensure).2.2.2.2.2 fk hfk
  · obtain ⟨t0, ht0⟩ := processJunctionTables_post D _ _ hproc t ht
    exact ensureNamedForeignKeys_post D _ _ _
      (ensureNamedForeignKeyConstraints_frame D _ _ ht0).2.2.2.2.2 fk hfk

/-- C10 at a sample table with one unnamed foreign key without delete action. -/
theorem ensureNamedForeignKeyConstraints_backfills_name_and_cascade_witness :
    ∃ table1 : Table,
      ensureNamedForeignKeyConstraints specDeps exampleUnnamedTable = some table1 ∧
      table1.Schema = exampleUnnamedTable.Schema ∧ table1.Name = exampleUnnamedTable.Name ∧
      table1.Columns = exampleUnnamedTable.Columns ∧ table1.Indices = exampleUnnamedTable.Indices ∧
      table1.UniqueConstraints = exampleUnnamedTable.UniqueConstraints ∧
      List.Forall₂
        (fun old new =>
          (old.Name ≠ "" → new.Name = old.Name) ∧
          (old.Name = "" → ∀ first, old.ColumnNames.head? = some first →
            new.Name = specDeps.GetForeignKeyConstraintName exampleUnnamedTable.Name first) ∧
          (old.OnDelete ≠ "" → new.OnDelete = old.OnDelete) ∧
          (old.OnDelete = "" → new.OnDelete = "CASCADE") ∧
          new.Schema = old.Schema ∧ new.TableName = old.TableName ∧
          new.ColumnNames = old.ColumnNames ∧ new.RefTableName = old.RefTableName ∧
          new.RefColumnNames = old.RefColumnNames ∧ new.OnUpdate = old.OnUpdate)
        exampleUnnamedTable.ForeignKeys table1.ForeignKeys ∧
      (∀ fk ∈ table1.ForeignKeys, fk.OnDelete ≠ "") ∧
      ((∀ t c, specDeps.GetForeignKeyConstraintName t c ≠ "") →
        ∀ fk ∈ table1.ForeignKeys, fk.Name ≠ "") ∧
      (∀ (config : MorpheConfig) (r : Registry) (model : Model) (tables : List Table),
        morpheModelToPSQLTables specDeps config r model = Except.ok tables →
        ∀ t ∈ tables, ∀ fk ∈ t.ForeignKeys, fk.OnDelete ≠ "" ∧
          ((∀ t c, specDeps.GetForeignKeyConstraintName t c ≠ "") → fk.Name ≠ "")) :=
  ensureNamedForeignKeyConstraints_backfills_name_and_cascade specDeps exampleUnnamedTable
    (by decide)

theorem identifierIndex_eq (D : Deps) (tableName : String) (identifier : ModelIdentifier) :
    identifierIndex D tableName identifier =
      { Name := "idx_" ++ tableName ++ "_"
          ++ stringsJoin (identifier.Fields.map D.GetColumnNameFromField) "_"
        TableName := tableName
        Columns := identifier.Fields.map D.GetColumnNameFromField
        IsUnique := true } := by
  unfold identifierIndex
  rcases h : identifier.Fields.map D.GetColumnNameFromField with _ | ⟨a, _ | ⟨b, rest⟩⟩ <;> rfl

theorem addUniqueIndicesFromIdentifiers_indices (D : Deps) :
    ∀ (identifiers : GoMap ModelIdentifier) (table : Table),
      (addUniqueIndicesFromIdentifiers D table identifiers).Indices =
        table.Indices ++
          (identifiers.filter (fun entry => decide (entry.1 ≠ "primary"))).map
            (fun entry => identifierIndex D table.Name entry.2)
  | [], table => by simp [addUniqueIndicesFromIdentifiers]
  | (idName, identifier) :: rest, table => by
    unfold addUniqueIndicesFromIdentifiers
    split_ifs with h
    · rw [addUniqueIndicesFromIdentifiers_indices D rest table]
      simp [h]
    · rw [addUniqueIndicesFromIdentifiers_indices D rest _]
      simp [h]

/-- C11: `addUniqueIndicesFromIdentifiers` keeps the indices the table already has
as a prefix and appends, in the iteration order of the identifier map, exactly one
index per identifier whose name is not `primary` (none for `primary`); the appended
index is unique, belongs to the table, has as columns the identifier's fields mapped
through `GetColumnNameFromField` in the identifier's field order, and is named
`idx_` + table name + `_` + the column names joined by `_`. Nothing else in the table
changes. -/
theorem addUniqueIndicesFromIdentifiers_appends_one_unique_index_per_identifier
    (D : Deps) (table : Table) (identifiers : GoMap ModelIdentifier) :
    (addUniqueIndicesFromIdentifiers D table identifiers).Indices =
      table.Indices ++
        (identifiers.filter (fun entry => decide (entry.1 ≠ "primary"))).map
          (fun entry =>
            { Name := "idx_" ++ table.Name ++ "_"
                ++ stringsJoin (entry.2.Fields.map D.GetColumnNameFromField) "_"
              TableName := table.Name
              Columns := entry.2.Fields.map D.GetColumnNameFromField
              IsUnique := true }) ∧
    (addUniqueIndicesFromIdentifiers D table identifiers).Schema = table.Schema ∧
    (addUniqueIndicesFromIdentifiers D table identifiers).Name = table.Name ∧
    (addUniqueIndicesFromIdentifiers D table identifiers).Columns = table.Columns ∧
    (addUniqueIndicesFromIdentifiers D table identifiers).ForeignKeys = table.ForeignKeys ∧
    (addUniqueIndicesFromIdentifiers D table identifiers).UniqueConstraints =
      table.UniqueConstraints := by
  obtain ⟨hc, hf, hu, hn, hs⟩ := addUniqueIndicesFromIdentifiers_frame D identifiers table
  refine ⟨?_, hs, hn, hc, hf, hu⟩
  rw [addUniqueIndicesFromIdentifiers_indices]
  congr 2
  funext entry
  exact identifierIndex_eq D table.Name entry.2

theorem tableDeepClone_eq (t : Table) : t.DeepClone = t := by
  cases t
  rfl

theorem DeepCloneSlicePointers_eq (tables : List Table) :
    DeepCloneSlicePointers tables = tables := by
  unfold DeepCloneSlicePointers
  induction tables with
  | nil => rfl
  | cons t rest ih => simp [tableDeepClone_eq, ih]

theorem modelDeepClone_eq (m : Model) : m.DeepClone = m := by
  cases m
  rfl

/-- C14: `triggerCompileMorpheModelSuccess` without a success hook returns its table
list unchanged and no error; with a success hook and a nil table list it returns no
tables and `ErrNoModelTables`, whatever the hook is; with a success hook and a
non-nil list it hands the hook a clone equal to the produced tables and returns the
hook's table list with no error, or no tables and the hook's error when the hook
returns one. -/
theorem triggerCompileMorpheModelSuccess_passes_through_or_runs_hook
    (onStart : Option (MorpheConfig → Model → MorpheConfig × Model × Option Err))
    (onFailure : Option (MorpheConfig → Model → Err → Option Err))
    (onSuccess : List Table → Option (List Table) × Option Err)
    (allModelTables : Option (List Table)) (tables : List Table) :
    triggerCompileMorpheModelSuccess
        { OnCompileMorpheModelStart := onStart, OnCompileMorpheModelSuccess := none,
          OnCompileMorpheModelFailure := onFailure } allModelTables = (allModelTables, none) ∧
    triggerCompileMorpheModelSuccess
        { OnCompileMorpheModelStart := onStart, OnCompileMorpheModelSuccess := some onSuccess,
          OnCompileMorpheModelFailure := onFailure } none = (none, some Err.ErrNoModelTables) ∧
    DeepCloneSlicePointers tables = tables ∧
    triggerCompileMorpheModelSuccess
        { OnCompileMorpheModelStart := onStart, OnCompileMorpheModelSuccess := some onSuccess,
          OnCompileMorpheModelFailure := onFailure } (some tables) =
      (match onSuccess tables with
        | (_, some successErr) => (none, some successErr)
        | (hookTables, none) => (hookTables, none)) := by
  refine ⟨rfl, rfl, DeepCloneSlicePointers_eq tables, ?_⟩
  simp only [triggerCompileMorpheModelSuccess, DeepCloneSlicePointers_eq]

/-- C12: when the start phase of `MorpheModelToPSQLTables` has gone through (giving
the configuration and the model that the core compilation runs on; they are the
caller's when no start hook is registered) and the core compilation
`morpheModelToPSQLTables` fails with `e`, `MorpheModelToPSQLTables` returns no tables
and, as its error, exactly `e` when no failure hook is registered and exactly what the
failure hook returns for `e` when one is. A model that passes validation but has no
`primary` identifier is such a case, with `e` the error naming the model. -/
theorem core_failure_goes_through_failure_hook
    (D : Deps) (config : MorpheCompileConfig) (r : Registry) (model : Model)
    (morpheConfig : MorpheConfig) (startedModel : Model) (e : Err)
    (hstart : triggerCompileMorpheModelStart config.ModelHooks config.MorpheConfig model =
      (morpheConfig, startedModel, none))
    (hcore : morpheModelToPSQLTables D morpheConfig r startedModel = Except.error e) :
    (config.ModelHooks.OnCompileMorpheModelFailure = none →
      MorpheModelToPSQLTables D config r model = (none, some e)) ∧
    (∀ onFailure, config.ModelHooks.OnCompileMorpheModelFailure = some onFailure →
      MorpheModelToPSQLTables D config r model =
        (none, onFailure morpheConfig startedModel e)) ∧
    (config.ModelHooks.OnCompileMorpheModelStart = none →
      morpheConfig = config.MorpheConfig ∧ startedModel = model) ∧
    (morpheConfig.Validate = none → D.ValidateModel startedModel r.GetAllEnums = none →
      startedModel.Identifiers.get? "primary" = none →
      e = Err.errorf ("no primary identifier set for model '" ++ startedModel.Name ++ "'")) := by
  refine ⟨?_, ?_, ?_, ?_⟩
  · intro hnone
    simp [MorpheModelToPSQLTables, hstart, hcore, triggerCompileMorpheModelFailure, hnone]
  · intro onFailure hsome
    simp [MorpheModelToPSQLTables, hstart, hcore, triggerCompileMorpheModelFailure, hsome,
      modelDeepClone_eq]
  · intro hnone
    simp only [triggerCompileMorpheModelStart, hnone, Prod.mk.injEq] at hstart
    exact ⟨hstart.1.symm, hstart.2.1.symm⟩
  · intro hcfg hval hprim
    simp only [morpheModelToPSQLTables, hcfg, hval, hprim, Except.error.injEq] at hcore
    exact hcore.symm

/-- C12 at the sample `Person` without identifiers, with a failure hook that wraps
the error. -/
theorem core_failure_goes_through_failure_hook_witness :
    MorpheModelToPSQLTables specDeps
        { MorpheConfig := exampleConfig, ModelHooks := exampleHooks } exampleRegistry
        examplePersonNoPrimary =
      (none, some (Err.external "wrapped: no primary identifier set for model 'Person'")) :=
  ((core_failure_goes_through_failure_hook specDeps
    { MorpheConfig := exampleConfig, ModelHooks := exampleHooks } exampleRegistry
    examplePersonNoPrimary exampleConfig examplePersonNoPrimary
    (Err.errorf "no primary identifier set for model 'Person'")
    (by decide) (by decide)).2.1 _ rfl).trans (by decide)

/-- C13, as stated, fails. When the start hook fails, the failure hook is handed the
zero model and the zero configuration that `triggerCompileMorpheModelStart` returns
next to the error, not the caller's model: for the sample `Person` the hook sees the
model name `''`. When the start hook rewrites the model and the core compilation then
fails, the failure hook is handed the rewritten model: it sees `'Rewritten'`. -/
theorem failure_hook_does_not_always_get_the_original_model :
    MorpheModelToPSQLTables specDeps
        { MorpheConfig := exampleConfig, ModelHooks := failingStartHooks } exampleRegistry
        examplePerson =
      (none, reportingFailureHook zeroMorpheConfig zeroModel
        (Err.external "start hook failed")) ∧
    MorpheModelToPSQLTables specDeps
        { MorpheConfig := exampleConfig, ModelHooks := failingStartHooks } exampleRegistry
        examplePerson =
      (none, some (Err.external "failure hook got model '' and schema ''")) ∧
    MorpheModelToPSQLTables specDeps
        { MorpheConfig := exampleConfig, ModelHooks := failingStartHooks } exampleRegistry
        examplePerson ≠
      (none, reportingFailureHook exampleConfig examplePerson
        (Err.external "start hook failed")) ∧
    MorpheModelToPSQLTables specDeps
        { MorpheConfig := exampleConfig, ModelHooks := rewritingStartHooks } exampleRegistry
        examplePerson =
      (none, some (Err.external "failure hook got model 'Rewritten' and schema 'public'")) ∧
    MorpheModelToPSQLTables specDeps
        { MorpheConfig := exampleConfig, ModelHooks := rewritingStartHooks } exampleRegistry
        examplePerson ≠
      (none, reportingFailureHook exampleConfig examplePerson
        (Err.errorf "no primary identifier set for model 'Rewritten'")) := by
  refine ⟨by decide, by decide, by decide, by decide, by decide⟩

/-- C13, amended: once the start phase has gone through, giving the configuration
and the model that compilation works on (the caller's own when no start hook is
registered), the failure hook is called on both later failure paths with that
configuration, with a copy of that model and with the triggering error: the error of
the core compilation when it fails, the error of the success hook when it fails. -/
theorem failure_hook_gets_the_model_of_the_start_phase
    (D : Deps) (config : MorpheCompileConfig) (r : Registry) (model : Model)
    (morpheConfig : MorpheConfig) (startedModel : Model)
    (onFailure : MorpheConfig → Model → Err → Option Err)
    (hstart : triggerCompileMorpheModelStart config.ModelHooks config.MorpheConfig model =
      (morpheConfig, startedModel, none))
    (hfailure : config.ModelHooks.OnCompileMorpheModelFailure = some onFailure) :
    (∀ e, morpheModelToPSQLTables D morpheConfig r startedModel = Except.error e →
      MorpheModelToPSQLTables D config r model =
        (none, onFailure morpheConfig startedModel e)) ∧
    (∀ tables hookTables e,
      morpheModelToPSQLTables D morpheConfig r startedModel = Except.ok tables →
      triggerCompileMorpheModelSuccess config.ModelHooks (some tables) = (hookTables, some e) →
      MorpheModelToPSQLTables D config r model =
        (none, onFailure morpheConfig startedModel e)) ∧
    startedModel.DeepClone = startedModel ∧
    (config.ModelHooks.OnCompileMorpheModelStart = none →
      morpheConfig = config.MorpheConfig ∧ startedModel = model) := by
  refine ⟨?_, ?_, modelDeepClone_eq _, ?_⟩
  · intro e hcore
    simp [MorpheModelToPSQLTables, hstart, hcore, triggerCompileMorpheModelFailure, hfailure,
      modelDeepClone_eq]
  · intro tables hookTables e hcore hsuccess
    simp [MorpheModelToPSQLTables, hstart, hcore, hsuccess, triggerCompileMorpheModelFailure,
      hfailure, modelDeepClone_eq]
  · intro hnone
    simp only [triggerCompileMorpheModelStart, hnone, Prod.mk.injEq] at hstart
    exact ⟨hstart.1.symm, hstart.2.1.symm⟩

/-- C13, amended, at the sample `Person` with a start hook that rewrites the model. -/
theorem failure_hook_gets_the_model_of_the_start_phase_witness :
    MorpheModelToPSQLTables specDeps
        { MorpheConfig := exampleConfig, ModelHooks := rewritingStartHooks } exampleRegistry
        examplePerson =
      (none, reportingFailureHook exampleConfig
        { examplePerson with Name := "Rewritten", Identifiers := [] }
        (Err.errorf "no primary identifier set for model 'Rewritten'")) :=
  (failure_hook_gets_the_model_of_the_start_phase specDeps
    { MorpheConfig := exampleConfig, ModelHooks := rewritingStartHooks } exampleRegistry
    examplePerson exampleConfig { examplePerson with Name := "Rewritten", Identifiers := [] }
    reportingFailureHook (by decide) rfl).1 _ (by decide)

theorem GoMap.set_of_not_mem {V : Type} (m : GoMap V) (key : String) (value : V)
    (h : key ∉ m.keys) : m.set key value = m ++ [(key, value)] := by
  induction m with
  | nil => rfl
  | cons kv rest ih =>
    obtain ⟨k, v⟩ := kv
    have hk : ¬ k = key := fun e => h (by simp [GoMap.keys, e])
    have hrest : key ∉ GoMap.keys rest := fun hm => h (by
      simp only [GoMap.keys, List.map_cons, List.mem_cons]
      exact Or.inr hm)
    simp [GoMap.set, hk, ih hrest]

/-- The loop of `AllMorpheModelsToPSQLTables`: it stops at the first entry, in
iteration order, whose compilation returns an error, and otherwise records every
entry. -/
theorem allMorpheModelsLoop_spec (D : Deps) (config : MorpheCompileConfig) (r : Registry) :
    ∀ (entries : GoMap Model) (acc : GoMap (Option (List Table))),
      (acc.keys ++ entries.keys).Nodup →
      ((∀ entry ∈ entries, (MorpheModelToPSQLTables D config r entry.2).2 = none) →
        allMorpheModelsLoop D config r entries acc =
          (some (acc ++ entries.map
            (fun entry => (entry.1, (MorpheModelToPSQLTables D config r entry.2).1))), none)) ∧
      ((∃ entry ∈ entries, (MorpheModelToPSQLTables D config r entry.2).2 ≠ none) →
        ∃ (before after : GoMap Model) (entry : String × Model) (e : Err),
          entries = before ++ entry :: after ∧
          (∀ b ∈ before, (MorpheModelToPSQLTables D config r b.2).2 = none) ∧
          (MorpheModelToPSQLTables D config r entry.2).2 = some e ∧
          allMorpheModelsLoop D config r entries acc = (none, some e))
  | [], acc, _ => by
    constructor
    · intro _
      simp [allMorpheModelsLoop]
    · rintro ⟨entry, hmem, _⟩
      simp at hmem
  | (modelName, model) :: rest, acc, hnd => by
    have hnot : modelName ∉ acc.keys := by
      intro hm
      have := List.nodup_append.mp hnd
      exact this.2.2 hm (by simp [GoMap.keys])
    have hnd1 : ((acc.set modelName (MorpheModelToPSQLTables D config r model).1).keys
        ++ GoMap.keys rest).Nodup := by
      rw [GoMap.set_of_not_mem acc modelName _ hnot]
      simpa [GoMap.keys, List.append_assoc] using hnd
    obtain ⟨ihok, iherr⟩ := allMorpheModelsLoop_spec D config r rest
      (acc.set modelName (MorpheModelToPSQLTables D config r model).1) hnd1
    constructor
    · intro hall
      have hhead := hall (modelName, model) (List.mem_cons_self _ _)
      have htail := ihok (fun entry hentry => hall entry (List.mem_cons_of_mem _ hentry))
      unfold allMorpheModelsLoop
      rcases hres : MorpheModelToPSQLTables D config r model with ⟨modelTables, _ | modelErr⟩
      · rw [hres] at htail
        simp only at htail ⊢
        rw [htail, GoMap.set_of_not_mem acc modelName _ hnot]
        simp [hres]
      · rw [hres] at hhead
        simp at hhead
    · rintro ⟨entry, hmem, hfail⟩
      rcases hres : MorpheModelToPSQLTables D config r model with ⟨modelTables, _ | modelErr⟩
      · have hin : entry ∈ rest := by
          rcases List.mem_cons.mp hmem with h | h
          · subst h
            rw [hres] at hfail
            simp at hfail
          · exact h
        obtain ⟨before, after, bad, e, hsplit, hbefore, hbad, hloop⟩ := iherr ⟨entry, hin, hfail⟩
        refine ⟨(modelName, model) :: before, after, bad, e, by simp [hsplit], ?_, hbad, ?_⟩
        · intro b hb
          rcases List.mem_cons.mp hb with h | h
          · subst h
            simp [hres]
          · exact hbefore b h
        · unfold allMorpheModelsLoop
          rw [hres] at hloop
          simp only [hres]
          exact hloop
      · refine ⟨[], rest, (modelName, model), modelErr, rfl, by simp, by simp [hres], ?_⟩
        unfold allMorpheModelsLoop
        simp [hres]

/-- C17: `AllMorpheModelsToPSQLTables` returns an error and a nil mapping exactly
when `MorpheModelToPSQLTables` returns an error for at least one model of the
registry (the error is that of the first such model in the iteration order of the
model map); otherwise it returns, with no error, the mapping that has exactly the
model names of the registry as keys and, for each name, the table list that
`MorpheModelToPSQLTables` returns for that model. -/
theorem AllMorpheModelsToPSQLTables_all_or_nothing
    (D : Deps) (config : MorpheCompileConfig) (r : Registry) (hwf : r.GetAllModels.WF) :
    ((∃ entry ∈ r.GetAllModels, (MorpheModelToPSQLTables D config r entry.2).2 ≠ none) ↔
      ∃ e, AllMorpheModelsToPSQLTables D config r = (none, some e)) ∧
    ((∃ entry ∈ r.GetAllModels, (MorpheModelToPSQLTables D config r entry.2).2 ≠ none) →
      ∃ (before after : GoMap Model) (entry : String × Model) (e : Err),
        r.GetAllModels = before ++ entry :: after ∧
        (∀ b ∈ before, (MorpheModelToPSQLTables D config r b.2).2 = none) ∧
        (MorpheModelToPSQLTables D config r entry.2).2 = some e ∧
        AllMorpheModelsToPSQLTables D config r = (none, some e)) ∧
    ((∀ entry ∈ r.GetAllModels, (MorpheModelToPSQLTables D config r entry.2).2 = none) →
      ∃ mapping : GoMap (Option (List Table)),
        AllMorpheModelsToPSQLTables D config r = (some mapping, none) ∧
        mapping.keys = r.GetAllModels.keys ∧
        ∀ (modelName : String) (model : Model), (modelName, model) ∈ r.GetAllModels →
          mapping.get? modelName = some (MorpheModelToPSQLTables D config r model).1) := by
  have hnd : (GoMap.keys ([] : GoMap (Option (List Table))) ++ r.GetAllModels.keys).Nodup := by
    simpa [GoMap.keys] using hwf
  obtain ⟨hok, herr⟩ := allMorpheModelsLoop_spec D config r r.GetAllModels [] hnd
  have hokform : (∀ entry ∈ r.GetAllModels, (MorpheModelToPSQLTables D config r entry.2).2 = none) →
      AllMorpheModelsToPSQLTables D config r =
        (some (r.GetAllModels.map
          (fun entry => (entry.1, (MorpheModelToPSQLTables D config r entry.2).1))), none) := by
    intro hall
    have := hok hall
    simpa [AllMorpheModelsToPSQLTables] using this
  refine ⟨⟨?_, ?_⟩, ?_, ?_⟩
  · intro hex
    obtain ⟨_, _, _, e, _, _, _, hloop⟩ := herr hex
    exact ⟨e, hloop⟩
  · rintro ⟨e, he⟩
    by_contra hno
    have hall : ∀ entry ∈ r.GetAllModels,
        (MorpheModelToPSQLTables D config r entry.2).2 = none := by
      intro entry hentry
      by_contra hc
      exact hno ⟨entry, hentry, hc⟩
    rw [hokform hall] at he
    simp at he
  · intro hex
    exact herr hex
  · intro hall
    refine ⟨_, hokform hall, ?_, ?_⟩
    · simp [GoMap.keys, List.map_map, Function.comp_def]
    · intro modelName model hmem
      apply GoMap.get?_of_mem
      · simpa [GoMap.WF, GoMap.keys, List.map_map, Function.comp_def] using hwf
      · exact List.mem_map.mpr ⟨(modelName, model), hmem, rfl⟩

/-- C17 at the sample registry without hooks: all five models compile. -/
theorem AllMorpheModelsToPSQLTables_all_or_nothing_witness :
    ∃ mapping : GoMap (Option (List Table)),
      AllMorpheModelsToPSQLTables specDeps
        { MorpheConfig := exampleConfig, ModelHooks := noHooks } exampleRegistry =
          (some mapping, none) ∧
      mapping.keys = exampleRegistry.GetAllModels.keys ∧
      ∀ (modelName : String) (model : Model), (modelName, model) ∈ exampleRegistry.GetAllModels →
        mapping.get? modelName =
          some (MorpheModelToPSQLTables specDeps
            { MorpheConfig := exampleConfig, ModelHooks := noHooks } exampleRegistry model).1 :=
  (AllMorpheModelsToPSQLTables_all_or_nothing specDeps
    { MorpheConfig := exampleConfig, ModelHooks := noHooks } exampleRegistry
    (by decide)).2.2 (by decide)

/-- A loop whose body fails or not regardless of the state stops with the error of
the first key whose body fails, and runs through when no body fails. -/
theorem rangeKeys_first_error {σ : Type} (step : String → σ → Except Err σ) (s0 : σ)
    (hind : ∀ k s e, step k s = Except.error e ↔ step k s0 = Except.error e) :
    ∀ (ks : List String) (s : σ),
      ((∀ k ∈ ks, ∀ e, step k s0 ≠ Except.error e) → ∃ s1, rangeKeys step ks s = Except.ok s1) ∧
      (∀ s1, rangeKeys step ks s = Except.ok s1 → ∀ k ∈ ks, ∀ e, step k s0 ≠ Except.error e) ∧
      (∀ e, rangeKeys step ks s = Except.error e →
        ∃ before name after, ks = before ++ name :: after ∧
          (∀ k ∈ before, ∀ e1, step k s0 ≠ Except.error e1) ∧
          step name s0 = Except.error e)
  | [], s => by
    refine ⟨fun _ => ⟨s, rfl⟩, fun _ _ k hk => by simp at hk, fun e h => ?_⟩
    simp [rangeKeys] at h
  | k :: ks, s => by
    cases hk : step k s with
    | error err =>
      have hk0 : step k s0 = Except.error err := (hind k s err).mp hk
      refine ⟨?_, ?_, ?_⟩
      · intro hall
        exact absurd hk0 (hall k (List.mem_cons_self _ _) err)
      · intro s1 h
        simp [rangeKeys, hk] at h
      · intro e h
        simp only [rangeKeys, hk, Except.error.injEq] at h
        subst h
        exact ⟨[], k, ks, rfl, by simp, hk0⟩
    | ok s2 =>
      have hk0 : ∀ e, step k s0 ≠ Except.error e := by
        intro e he
        rw [(hind k s e).mpr he] at hk
        cases hk
      obtain ⟨ih1, ih2, ih3⟩ := rangeKeys_first_error step s0 hind ks s2
      refine ⟨?_, ?_, ?_⟩
      · intro hall
        obtain ⟨s1, hs1⟩ := ih1 (fun x hx => hall x (List.mem_cons_of_mem _ hx))
        exact ⟨s1, by simp [rangeKeys, hk, hs1]⟩
      · intro s1 h x hx
        simp only [rangeKeys, hk] at h
        rcases List.mem_cons.mp hx with hx | hx
        · subst hx
          exact hk0
        · exact ih2 s1 h x hx
      · intro e h
        simp only [rangeKeys, hk] at h
        obtain ⟨before, name, after, hsplit, hbefore, hname⟩ := ih3 e h
        refine ⟨k :: before, name, after, by simp [hsplit], ?_, hname⟩
        intro x hx
        rcases List.mem_cons.mp hx with hx | hx
        · subst hx
          exact hk0
        · exact hbefore x hx

theorem error_map_iff {α : Type} (x : Except Err α) (f : α → α) (e : Err) :
    x.map f = Except.error e ↔ x = Except.error e := by
  cases x <;> simp [Except.map]

theorem relationColumnStep_error_iff (D : Deps) (r : Registry) (typeMap : GoMap PSQLType)
    (relatedModels : GoMap ModelRelation) (name : String) :
    (∃ e, relationColumnStep D r typeMap relatedModels name [] = Except.error e) ↔
      relationTargetInvalid D r typeMap relatedModels name = true := by
  unfold relationColumnStep relationTargetInvalid
  dsimp only
  cases r.GetModel name with
  | error e => simp
  | ok target =>
    dsimp only
    cases target.Identifiers.get? "primary" with
    | none => simp
    | some primaryID =>
      dsimp only
      rcases hf : primaryID.Fields with _ | ⟨pid, _ | ⟨x, rest⟩⟩
      · simp
      · simp only [List.length_singleton, ne_eq, not_true_eq_false, if_false, List.headD_cons]
        cases target.Fields.get? pid with
        | none => simp
        | some field =>
          dsimp only
          cases hfor : D.IsRelationFor (relatedModels.index name { Type_ := "" }).Type_ <;>
            cases hone : D.IsRelationOne (relatedModels.index name { Type_ := "" }).Type_ <;>
            cases htm : typeMap.get? field.Type_ <;> simp
      · simp

theorem fieldStep_error_iff (D : Deps) (config : MorpheConfig) (r : Registry)
    (typeMap : GoMap PSQLType) (tableName : String) (primaryID : ModelIdentifier)
    (modelFields : GoMap ModelField) (name : String) (e : Err) :
    fieldStep D config r typeMap tableName primaryID modelFields name ([], []) = Except.error e ↔
      fieldTypeUnsupported r typeMap modelFields name = true ∧
        e = Err.errorf ("morphe model field '" ++ name ++ "' has unsupported type '"
          ++ (modelFields.index name { Type_ := "" }).Type_ ++ "'") := by
  unfold fieldStep fieldTypeUnsupported
  dsimp only
  cases typeMap.get? (modelFields.index name { Type_ := "" }).Type_ with
  | some ty => simp
  | none =>
    dsimp only
    cases r.GetEnum (modelFields.index name { Type_ := "" }).Type_ with
    | error err =>
      simp only [Except.error.injEq, Option.isNone_none, Bool.and_self, true_and]
      exact eq_comm
    | ok en => simp

theorem relationColumnStep_error_indep (D : Deps) (r : Registry) (typeMap : GoMap PSQLType)
    (relatedModels : GoMap ModelRelation) (k : String) (s : List Column) (e : Err) :
    relationColumnStep D r typeMap relatedModels k s = Except.error e ↔
      relationColumnStep D r typeMap relatedModels k [] = Except.error e := by
  rw [relationColumnStep_acc D r typeMap relatedModels k s]
  exact error_map_iff _ _ e

theorem fieldStep_error_indep (D : Deps) (config : MorpheConfig) (r : Registry)
    (typeMap : GoMap PSQLType) (tableName : String) (primaryID : ModelIdentifier)
    (modelFields : GoMap ModelField) (k : String) (s : List Column × List ForeignKey)
    (e : Err) :
    fieldStep D config r typeMap tableName primaryID modelFields k s = Except.error e ↔
      fieldStep D config r typeMap tableName primaryID modelFields k ([], []) =
        Except.error e := by
  rw [fieldStep_acc D config r typeMap tableName primaryID modelFields k s]
  exact error_map_iff _ _ e

/-- C15: `getColumnsForModelRelations` checks every declared relation, whatever its
type, in ascending order of the related-model names, and returns an error (and no
columns) exactly when some relation is invalid in the sense of
`relationTargetInvalid`: target not found, no `primary` identifier, primary
identifier without exactly one field, primary field absent from the target, or, for a
for + to-one relation, primary field type not in the type map. The error returned is
that of the first invalid relation in that order, every relation before it being
valid. -/
theorem getColumnsForModelRelations_fails_iff_some_relation_invalid
    (D : Deps) (r : Registry) (typeMap : GoMap PSQLType)
    (relatedModels : GoMap ModelRelation) :
    ((∃ e, getColumnsForModelRelations D r typeMap relatedModels = Except.error e) ↔
      ∃ name ∈ relatedModels.keys,
        relationTargetInvalid D r typeMap relatedModels name = true) ∧
    ((∃ columns, getColumnsForModelRelations D r typeMap relatedModels = Except.ok columns) ↔
      ∀ name ∈ relatedModels.keys,
        relationTargetInvalid D r typeMap relatedModels name = false) ∧
    (∀ e, getColumnsForModelRelations D r typeMap relatedModels = Except.error e →
      ∃ before name after,
        MapKeysSorted relatedModels = before ++ name :: after ∧
        (∀ k ∈ before, relationTargetInvalid D r typeMap relatedModels k = false) ∧
        relationTargetInvalid D r typeMap relatedModels name = true ∧
        relationColumnStep D r typeMap relatedModels name [] = Except.error e) ∧
    List.Sorted strLE (MapKeysSorted relatedModels) ∧
    (MapKeysSorted relatedModels).Perm relatedModels.keys := by
  obtain ⟨h1, h2, h3⟩ := rangeKeys_first_error (relationColumnStep D r typeMap relatedModels) []
    (relationColumnStep_error_indep D r typeMap relatedModels) (MapKeysSorted relatedModels) []
  have hmem : ∀ k, k ∈ MapKeysSorted relatedModels ↔ k ∈ relatedModels.keys :=
    fun k => (MapKeysSorted_perm_keys relatedModels).mem_iff
  have hgood : ∀ k, (∀ e, relationColumnStep D r typeMap relatedModels k [] ≠ Except.error e) ↔
      relationTargetInvalid D r typeMap relatedModels k = false := by
    intro k
    rw [← Bool.not_eq_true, ← relationColumnStep_error_iff]
    simp
  have hfirst : ∀ e, getColumnsForModelRelations D r typeMap relatedModels = Except.error e →
      ∃ before name after,
        MapKeysSorted relatedModels = before ++ name :: after ∧
        (∀ k ∈ before, relationTargetInvalid D r typeMap relatedModels k = false) ∧
        relationTargetInvalid D r typeMap relatedModels name = true ∧
        relationColumnStep D r typeMap relatedModels name [] = Except.error e := by
    intro e he
    obtain ⟨before, name, after, hsplit, hbefore, hname⟩ := h3 e he
    exact ⟨before, name, after, hsplit, fun k hk => (hgood k).mp (hbefore k hk),
      (relationColumnStep_error_iff D r typeMap relatedModels name).mp ⟨e, hname⟩, hname⟩
  have hok : (∃ columns, getColumnsForModelRelations D r typeMap relatedModels
      = Except.ok columns) ↔
      ∀ name ∈ relatedModels.keys,
        relationTargetInvalid D r typeMap relatedModels name = false := by
    constructor
    · rintro ⟨columns, hc⟩ name hname
      exact (hgood name).mp (h2 columns hc name ((hmem name).mpr hname))
    · intro hall
      exact h1 (fun k hk => (hgood k).mpr (hall k ((hmem k).mp hk)))
  refine ⟨⟨?_, ?_⟩, hok, hfirst, MapKeysSorted_sorted _, MapKeysSorted_perm_keys _⟩
  · rintro ⟨e, he⟩
    obtain ⟨before, name, after, hsplit, _, hbad, _⟩ := hfirst e he
    exact ⟨name, (hmem name).mp (by rw [hsplit]; simp), hbad⟩
  · rintro ⟨name, hname, hbad⟩
    cases hres : getColumnsForModelRelations D r typeMap relatedModels with
    | error e => exact ⟨e, rfl⟩
    | ok columns =>
      have := hok.mp ⟨columns, hres⟩ name hname
      rw [hbad] at this
      cases this

/-- C16: `getColumnsForModelFields` returns an error (and neither columns nor
foreign keys) exactly when some field's declared type is neither a key of the type
map nor the name of an enum of the registry; the error names the first such field in
ascending field-name order, with its type; on success there are as many columns as
fields. -/
theorem getColumnsForModelFields_fails_iff_some_field_type_unsupported
    (D : Deps) (config : MorpheConfig) (r : Registry) (typeMap : GoMap PSQLType)
    (tableName : String) (primaryID : ModelIdentifier) (modelFields : GoMap ModelField) :
    ((∃ e, getColumnsForModelFields D config r typeMap tableName primaryID modelFields
        = Except.error e) ↔
      ∃ name ∈ modelFields.keys, fieldTypeUnsupported r typeMap modelFields name = true) ∧
    (∀ e, getColumnsForModelFields D config r typeMap tableName primaryID modelFields
        = Except.error e →
      ∃ before name after,
        MapKeysSorted modelFields = before ++ name :: after ∧
        (∀ k ∈ before, fieldTypeUnsupported r typeMap modelFields k = false) ∧
        fieldTypeUnsupported r typeMap modelFields name = true ∧
        e = Err.errorf ("morphe model field '" ++ name ++ "' has unsupported type '"
          ++ (modelFields.index name { Type_ := "" }).Type_ ++ "'")) ∧
    (∀ columns fks,
      getColumnsForModelFields D config r typeMap tableName primaryID modelFields
        = Except.ok (columns, fks) →
      columns.length = modelFields.length) ∧
    List.Sorted strLE (MapKeysSorted modelFields) := by
  obtain ⟨h1, h2, h3⟩ := rangeKeys_first_error
    (fieldStep D config r typeMap tableName primaryID modelFields) ([], [])
    (fieldStep_error_indep D config r typeMap tableName primaryID modelFields)
    (MapKeysSorted modelFields) ([], [])
  have hmem : ∀ k, k ∈ MapKeysSorted modelFields ↔ k ∈ modelFields.keys :=
    fun k => (MapKeysSorted_perm_keys modelFields).mem_iff
  have hgood : ∀ k,
      (∀ e, fieldStep D config r typeMap tableName primaryID modelFields k ([], [])
        ≠ Except.error e) ↔ fieldTypeUnsupported r typeMap modelFields k = false := by
    intro k
    constructor
    · intro hall
      by_contra hc
      rw [Bool.not_eq_false] at hc
      exact hall _ ((fieldStep_error_iff D config r typeMap tableName primaryID modelFields k
        _).mpr ⟨hc, rfl⟩)
    · intro hf e he
      have := ((fieldStep_error_iff D config r typeMap tableName primaryID modelFields k
        e).mp he).1
      rw [hf] at this
      cases this
  have hfirst : ∀ e, getColumnsForModelFields D config r typeMap tableName primaryID modelFields
        = Except.error e →
      ∃ before name after,
        MapKeysSorted modelFields = before ++ name :: after ∧
        (∀ k ∈ before, fieldTypeUnsupported r typeMap modelFields k = false) ∧
        fieldTypeUnsupported r typeMap modelFields name = true ∧
        e = Err.errorf ("morphe model field '" ++ name ++ "' has unsupported type '"
          ++ (modelFields.index name { Type_ := "" }).Type_ ++ "'") := by
    intro e he
    obtain ⟨before, name, after, hsplit, hbefore, hname⟩ := h3 e he
    obtain ⟨hbad, herr⟩ := (fieldStep_error_iff D config r typeMap tableName primaryID
      modelFields name e).mp hname
    exact ⟨before, name, after, hsplit, fun k hk => (hgood k).mp (hbefore k hk), hbad, herr⟩
  refine ⟨⟨?_, ?_⟩, hfirst, ?_, MapKeysSorted_sorted _⟩
  · rintro ⟨e, he⟩
    obtain ⟨before, name, after, hsplit, _, hbad, _⟩ := hfirst e he
    exact ⟨name, (hmem name).mp (by rw [hsplit]; simp), hbad⟩
  · rintro ⟨name, hname, hbad⟩
    cases hres : getColumnsForModelFields D config r typeMap tableName primaryID modelFields with
    | error e => exact ⟨e, rfl⟩
    | ok res =>
      have := (hgood name).mp (h2 res hres name ((hmem name).mpr hname))
      rw [hbad] at this
      cases this
  · intro columns fks hres
    have hall := getColumnsForModelFields_columns D config r typeMap tableName primaryID
      modelFields columns fks hres
    rw [← hall.length_eq, (MapKeysSorted_perm_keys modelFields).length_eq]
    simp [GoMap.keys]

/-- C18, as stated, fails: the sample `Person` compiles to one table and no junction
table, with two foreign keys and two indices, but the table has five columns, the
four field columns and the relation column for `Company`, not four. -/
theorem person_table_has_five_columns_not_four :
    morpheModelToPSQLTables specDeps exampleConfig exampleRegistry examplePerson =
      Except.ok examplePersonTables ∧
    examplePersonTables.map (fun t => t.Columns.map (fun c => c.Name)) =
      [["email", "id", "last_name", "nationality_id", "company_id"]] ∧
    (morpheModelToPSQLTables specDeps exampleConfig exampleRegistry examplePerson).map
        (fun tables => tables.map (fun t => t.Columns.length)) = Except.ok [5] ∧
    (morpheModelToPSQLTables specDeps exampleConfig exampleRegistry examplePerson).map
        (fun tables => tables.map (fun t => t.Columns.length)) ≠ Except.ok [4] := by
  refine ⟨by decide, by decide, by decide, by decide⟩

/-- C18, amended: compiling the model `Person` (fields `Email`, `ID`, `LastName` of
primitive types, `Nationality` of an enum type, one for + to-one relation to
`Company`, which has a single-field primary identifier, primary identifier `[ID]`)
with a valid configuration succeeds and returns exactly one table and no junction
table. That table has five columns: the four field columns in the order `Email`,
`ID`, `LastName`, `Nationality`, then the relation column for `Company`. It has
exactly two foreign keys, the first owned by the enum column for `Nationality`, the
second by the relation column for `Company`, and exactly two indices, one per
foreign key; only the column for `ID` has the primary-key flag. -/
theorem person_compiles_to_one_table_with_five_columns
    (D : Deps) (config : MorpheConfig) (r : Registry)
    (tString tAuto tRelated : PSQLType) (nationality : Enum) (company : Model)
    (pid : String) (pidField : ModelField)
    (hcfg : config.Validate = none)
    (hval : D.ValidateModel examplePerson r.GetAllEnums = none)
    (hString : (selectedTypeMap D config).get? "String" = some tString)
    (hAuto : (selectedTypeMap D config).get? "AutoIncrement" = some tAuto)
    (hNat : (selectedTypeMap D config).get? "Nationality" = none)
    (hEnum : r.GetEnum "Nationality" = Except.ok nationality)
    (hCompany : r.GetModel "Company" = Except.ok company)
    (hCompanyPrimary : company.Identifiers.get? "primary" = some { Fields := [pid] })
    (hCompanyField : company.Fields.get? pid = some pidField)
    (hRelated : (selectedRelatedTypeMap D config).get? pidField.Type_ = some tRelated)
    (hfor : D.IsRelationFor "ForOne" = true) (hone : D.IsRelationOne "ForOne" = true)
    (hmany : D.IsRelationMany "ForOne" = false) :
    ∃ table : Table,
      morpheModelToPSQLTables D config r examplePerson = Except.ok [table] ∧
      table.Columns.length = 5 ∧
      table.Columns.map (fun c => c.PrimaryKey) = [false, true, false, false, false] ∧
      table.ForeignKeys.length = 2 ∧
      table.ForeignKeys.map (fun k => k.ColumnNames) =
        [[D.GetColumnNameFromField "Nationality" ++ "_id"],
          [D.GetForeignKeyColumnName "Company" pid]] ∧
      table.Indices.length = 2 ∧
      table.Indices.map (fun i => i.Columns) =
        [[quoteColumn (D.GetColumnNameFromField "Nationality" ++ "_id")],
          [quoteColumn (D.GetForeignKeyColumnName "Company" pid)]] ∧
      table =
          { Schema := config.MorpheModelsConfig.Schema
            Name := D.GetTableNameFromModel "Person"
            Columns :=
              [ { Name := D.GetColumnNameFromField "Email", Type_ := tString, NotNull := false,
                  PrimaryKey := false, Default := "" },
                { Name := D.GetColumnNameFromField "ID", Type_ := tAuto, NotNull := false,
                  PrimaryKey := true, Default := "" },
                { Name := D.GetColumnNameFromField "LastName", Type_ := tString,
                  NotNull := false, PrimaryKey := false, Default := "" },
                { Name := D.GetColumnNameFromField "Nationality" ++ "_id",
                  Type_ := PSQLTypeInteger, NotNull := true, PrimaryKey := false,
                  Default := "" },
                { Name := D.GetForeignKeyColumnName "Company" pid, Type_ := tRelated,
                  NotNull := true, PrimaryKey := false, Default := "" } ]
            Indices :=
              [ { Name := D.GetIndexName (D.GetTableNameFromModel "Person")
                    (D.GetColumnNameFromField "Nationality" ++ "_id")
                  TableName := D.GetTableNameFromModel "Person"
                  Columns := [quoteColumn (D.GetColumnNameFromField "Nationality" ++ "_id")]
                  IsUnique := false },
                { Name := D.GetIndexName (D.GetTableNameFromModel "Person")
                    (D.GetForeignKeyColumnName "Company" pid)
                  TableName := D.GetTableNameFromModel "Person"
                  Columns := [quoteColumn (D.GetForeignKeyColumnName "Company" pid)]
                  IsUnique := false } ]
            ForeignKeys :=
              [ { Schema := config.MorpheModelsConfig.Schema
                  Name := D.GetForeignKeyConstraintName (D.GetTableNameFromModel "Person")
                    (D.GetColumnNameFromField "Nationality" ++ "_id")
                  TableName := D.GetTableNameFromModel "Person"
                  ColumnNames := [D.GetColumnNameFromField "Nationality" ++ "_id"]
                  RefTableName := D.Pluralize (D.ToSnakeCaseLower nationality.Name)
                  RefColumnNames := ["id"]
                  OnDelete := "CASCADE"
                  OnUpdate := "" },
                { Schema := config.MorpheModelsConfig.Schema
                  Name := D.GetForeignKeyConstraintName (D.GetTableNameFromModel "Person")
                    (D.GetForeignKeyColumnName "Company" pid)
                  TableName := D.GetTableNameFromModel "Person"
                  ColumnNames := [D.GetForeignKeyColumnName "Company" pid]
                  RefTableName := D.GetTableNameFromModel "Company"
                  RefColumnNames := [D.GetColumnNameFromField pid]
                  OnDelete := "CASCADE"
                  OnUpdate := "" } ]
            UniqueConstraints := [] } := by
  refine ⟨_, ?_, ?_, ?_, ?_, ?_, ?_, ?_, rfl⟩
  rotate_left
  · rfl
  · rfl
  · rfl
  · rfl
  · rfl
  · rfl
  have hfields : MapKeysSorted examplePerson.Fields = ["Email", "ID", "LastName", "Nationality"] := by
    decide
  have hrelated : MapKeysSorted examplePerson.Related = ["Company"] := by decide
  have hprim : examplePerson.Identifiers.get? "primary" = some { Fields := ["ID"] } := by decide
  have hname : examplePerson.Name = "Person" := rfl
  have hids : examplePerson.Identifiers = [("primary", { Fields := ["ID"] })] := rfl
  have i1 : GoMap.index examplePerson.Fields "Email" { Type_ := "" } = { Type_ := "String" } := by
    decide
  have i2 : GoMap.index examplePerson.Fields "ID" { Type_ := "" } = { Type_ := "AutoIncrement" } := by
    decide
  have i3 : GoMap.index examplePerson.Fields "LastName" { Type_ := "" } = { Type_ := "String" } := by
    decide
  have i4 : GoMap.index examplePerson.Fields "Nationality" { Type_ := "" }
      = { Type_ := "Nationality" } := by decide
  have i5 : GoMap.index examplePerson.Related "Company" { Type_ := "" } = { Type_ := "ForOne" } := by
    decide
  have p1 : (slicesIndex ["ID"] "Email" != -1) = false := by decide
  have p2 : (slicesIndex ["ID"] "ID" != -1) = true := by decide
  have p3 : (slicesIndex ["ID"] "LastName" != -1) = false := by decide
  have p4 : (slicesIndex ["ID"] "Nationality" != -1) = false := by decide
  unfold selectedTypeMap at hString hAuto hNat
  unfold selectedRelatedTypeMap at hRelated
  simp only [morpheModelToPSQLTables, hcfg, hval, hprim, hname, getColumnsForModelFields,
    hfields, rangeKeys, fieldStep, i1, i2, i3, i4, hString, hAuto, hNat, hEnum, p1, p2, p3, p4,
    getColumnsForModelRelations, hrelated, relationColumnStep, i5, hCompany, hCompanyPrimary,
    hCompanyField, hRelated, hfor, hone, Bool.and_self, if_true,
    getForeignKeysForModelRelations, relationForeignKeyStep, List.nil_append, List.cons_append,
    List.append_nil, getIndicesForForeignKeys, foreignKeyIndex, List.map_cons, List.map_nil,
    hids, addUniqueIndicesFromIdentifiers, quoteReservedColumnNames,
    ensureNamedForeignKeyConstraints, ensureNamedForeignKeys, ensureNamedForeignKey,
    getJunctionTablesForForManyRelations, junctionStep, hmany, Bool.and_false,
    processJunctionTables, GoMap.get?, ite_self, p1, p2, p3, p4]
  rfl

/-- C18, amended, at the sample configuration and registry. -/
theorem person_compiles_to_one_table_with_five_columns_witness :
    ∃ table : Table,
      morpheModelToPSQLTables specDeps exampleConfig exampleRegistry examplePerson =
        Except.ok [table] ∧
      table.Columns.length = 5 ∧
      table.Columns.map (fun c => c.PrimaryKey) = [false, true, false, false, false] ∧
      table.ForeignKeys.length = 2 ∧
      table.Indices.length = 2 := by
  obtain ⟨table, h, hc, hpk, hfk, _, hidx, _, _⟩ :=
    person_compiles_to_one_table_with_five_columns specDeps exampleConfig exampleRegistry
      "TEXT" "SERIAL" "INTEGER" { Name := "Nationality" } exampleCompany "ID"
      { Type_ := "AutoIncrement" }
      (by decide) (by decide) (by decide) (by decide) (by decide) (by decide) (by decide)
      (by decide) (by decide) (by decide) (by decide) (by decide) (by decide)
  exact ⟨table, h, hc, hpk, hfk, hidx⟩

theorem rangeKeys_error_of_step {σ : Type} (step : String → σ → Except Err σ)
    (P : Err → Prop) (hstep : ∀ k s e, step k s = Except.error e → P e) :
    ∀ (ks : List String) (s : σ) (e : Err), rangeKeys step ks s = Except.error e → P e
  | [], s, e, h => by simp [rangeKeys] at h
  | k :: ks, s, e, h => by
    simp only [rangeKeys] at h
    split at h
    · rename_i e1 hk
      injection h with h
      subst h
      exact hstep k s _ hk
    · exact rangeKeys_error_of_step step P hstep ks _ e h

theorem relationColumnStep_error_source (D : Deps) (r : Registry) (typeMap : GoMap PSQLType)
    (relatedModels : GoMap ModelRelation) (k : String) (s : List Column) (e : Err)
    (h : relationColumnStep D r typeMap relatedModels k s = Except.error e) :
    (∃ text, e = Err.errorf text) ∨ r.GetModel k = Except.error e := by
  unfold relationColumnStep at h
  dsimp only at h
  split at h
  · rename_i e1 hm
    injection h with h
    subst h
    exact Or.inr hm
  · split at h
    · injection h with h
      exact Or.inl ⟨_, h.symm⟩
    · split at h
      · split at h
        · injection h with h
          exact Or.inl ⟨_, h.symm⟩
        · split at h
          · split at h
            · injection h with h
              exact Or.inl ⟨_, h.symm⟩
            · cases h
          · cases h
      · injection h with h
        exact Or.inl ⟨_, h.symm⟩

theorem relationForeignKeyStep_error_source (D : Deps) (schema tableName : String)
    (r : Registry) (relatedModels : GoMap ModelRelation) (k : String) (s : List ForeignKey)
    (e : Err)
    (h : relationForeignKeyStep D schema tableName r relatedModels k s = Except.error e) :
    (∃ text, e = Err.errorf text) ∨ r.GetModel k = Except.error e := by
  unfold relationForeignKeyStep at h
  dsimp only at h
  split at h
  · rename_i e1 hm
    injection h with h
    subst h
    exact Or.inr hm
  · split at h
    · injection h with h
      exact Or.inl ⟨_, h.symm⟩
    · split at h
      · split at h
        · injection h with h
          exact Or.inl ⟨_, h.symm⟩
        · split at h
          · cases h
          · cases h
      · injection h with h
        exact Or.inl ⟨_, h.symm⟩

theorem junctionStep_error_source (D : Deps) (schema : String) (r : Registry) (model : Model)
    (primaryIdName : String) (k : String) (s : List Table) (e : Err)
    (h : junctionStep D schema r model primaryIdName k s = Except.error e) :
    (∃ text, e = Err.errorf text) ∨ r.GetModel k = Except.error e := by
  unfold junctionStep at h
  dsimp only at h
  split at h
  · split at h
    · rename_i e1 hm
      injection h with h
      subst h
      exact Or.inr hm
    · split at h
      · injection h with h
        exact Or.inl ⟨_, h.symm⟩
      · split at h
        · cases h
        · injection h with h
          exact Or.inl ⟨_, h.symm⟩
  · cases h

theorem error_source_ne (r : Registry)
    (hmodel : ∀ n, r.GetModel n ≠ Except.error Err.ErrNoModelTables) (k : String) (e : Err)
    (h : (∃ text, e = Err.errorf text) ∨ r.GetModel k = Except.error e) :
    e ≠ Err.ErrNoModelTables := by
  rcases h with ⟨text, h⟩ | h
  · rw [h]
    intro hc
    cases hc
  · intro hc
    rw [hc] at h
    exact hmodel k h

/-- The core compilation never fails with `ErrNoModelTables`, provided the model
validation and the registry do not return that error themselves. -/
theorem morpheModelToPSQLTables_error_ne (D : Deps) (r : Registry)
    (hval : ∀ m es, D.ValidateModel m es ≠ some Err.ErrNoModelTables)
    (hmodel : ∀ n, r.GetModel n ≠ Except.error Err.ErrNoModelTables)
    (config : MorpheConfig) (model : Model) (e : Err)
    (h : morpheModelToPSQLTables D config r model = Except.error e) :
    e ≠ Err.ErrNoModelTables := by
  unfold morpheModelToPSQLTables at h
  split at h
  · rename_i e1 hcfg
    injection h with h
    subst h
    unfold MorpheConfig.Validate at hcfg
    split_ifs at hcfg
    injection hcfg with hcfg
    rw [← hcfg]
    intro hc
    cases hc
  · split at h
    · rename_i e1 hv
      injection h with h
      subst h
      intro hc
      rw [hc] at hv
      exact hval _ _ hv
    · dsimp only at h
      split at h
      · injection h with h
        rw [← h]
        intro hc
        cases hc
      · split at h
        · rename_i e1 hf
          injection h with h
          subst h
          unfold getColumnsForModelFields at hf
          refine rangeKeys_error_of_step _ (fun e => e ≠ Err.ErrNoModelTables) ?_ _ _ _ hf
          intro k s e hk
          rw [fieldStep_error_indep] at hk
          rw [((fieldStep_error_iff _ _ _ _ _ _ _ _ _).mp hk).2]
          intro hc
          cases hc
        · split at h
          · rename_i e1 hr
            injection h with h
            subst h
            unfold getColumnsForModelRelations at hr
            refine rangeKeys_error_of_step _ (fun e => e ≠ Err.ErrNoModelTables) ?_ _ _ _ hr
            intro k s e hk
            exact error_source_ne r hmodel k e (relationColumnStep_error_source _ _ _ _ _ _ _ hk)
          · split at h
            · rename_i e1 hk1
              injection h with h
              subst h
              unfold getForeignKeysForModelRelations at hk1
              refine rangeKeys_error_of_step _ (fun e => e ≠ Err.ErrNoModelTables) ?_ _ _ _ hk1
              intro k s e hk
              exact error_source_ne r hmodel k e
                (relationForeignKeyStep_error_source _ _ _ _ _ _ _ _ hk)
            · split at h
              · injection h with h
                rw [← h]
                intro hc
                cases hc
              · split at h
                · rename_i e1 hj
                  injection h with h
                  subst h
                  unfold getJunctionTablesForForManyRelations at hj
                  dsimp only at hj
                  split at hj
                  · injection hj with hj
                    rw [← hj]
                    intro hc
                    cases hc
                  · split at hj
                    · refine rangeKeys_error_of_step _ (fun e => e ≠ Err.ErrNoModelTables) ?_
                        _ _ _ hj
                      intro k s e hk
                      exact error_source_ne r hmodel k e
                        (junctionStep_error_source _ _ _ _ _ _ _ _ hk)
                    · injection hj with hj
                      rw [← hj]
                      intro hc
                      cases hc
                · split at h
                  · injection h with h
                    rw [← h]
                    intro hc
                    cases hc
                  · cases h

theorem processJunctionTables_forall₂ (D : Deps) :
    ∀ (ts out : List Table), processJunctionTables D ts = some out →
      List.Forall₂
        (fun jt p => ensureNamedForeignKeyConstraints D (quoteReservedColumnNames jt) = some p)
        ts out
  | [], out, h => by
    simp only [processJunctionTables, Option.some.injEq] at h
    subst h
    exact List.Forall₂.nil
  | t :: rest, out, h => by
    simp only [processJunctionTables] at h
    split at h
    · cases h
    · rename_i t1 ht1
      split at h
      · cases h
      · rename_i rest1 hrest
        injection h with h
        subst h
        exact List.Forall₂.cons ht1 (processJunctionTables_forall₂ D rest rest1 hrest)

theorem triggerCompileMorpheModelStart_error (hooks : CompileMorpheModel)
    (config : MorpheConfig) (model : Model) (c : MorpheConfig) (m : Model) (e : Err)
    (h : triggerCompileMorpheModelStart hooks config model = (c, m, some e)) :
    ∃ onStart, hooks.OnCompileMorpheModelStart = some onStart ∧
      (onStart config model).2.2 = some e ∧ c = zeroMorpheConfig ∧ m = zeroModel := by
  unfold triggerCompileMorpheModelStart at h
  split at h
  · cases h
  · rename_i onStart hs
    split at h
    · rename_i c1 m1 e1 hres
      simp only [Prod.mk.injEq, Option.some.injEq] at h
      exact ⟨onStart, hs, by rw [hres]; simp [h.2.2], h.1.symm, h.2.1.symm⟩
    · simp at h

theorem triggerCompileMorpheModelSuccess_error (hooks : CompileMorpheModel)
    (tables : List Table) (res : Option (List Table)) (e : Err)
    (h : triggerCompileMorpheModelSuccess hooks (some tables) = (res, some e)) :
    ∃ onSuccess, hooks.OnCompileMorpheModelSuccess = some onSuccess ∧
      (onSuccess tables).2 = some e := by
  unfold triggerCompileMorpheModelSuccess at h
  split at h
  · simp at h
  · rename_i onSuccess hs
    simp only [DeepCloneSlicePointers_eq] at h
    split at h
    · rename_i r1 e1 hres
      simp only [Prod.mk.injEq, Option.some.injEq] at h
      exact ⟨onSuccess, hs, by rw [hres]; simp [h.2]⟩
    · simp at h

theorem triggerCompileMorpheModelSuccess_some (hooks : CompileMorpheModel)
    (tables : List Table) :
    triggerCompileMorpheModelSuccess hooks (some tables) =
      (match hooks.OnCompileMorpheModelSuccess with
        | none => (some tables, none)
        | some onSuccess =>
          match onSuccess tables with
          | (_, some successErr) => (none, some successErr)
          | (hookTables, none) => (hookTables, none)) := by
  unfold triggerCompileMorpheModelSuccess
  cases hooks.OnCompileMorpheModelSuccess with
  | none => rfl
  | some onSuccess =>
    simp only [DeepCloneSlicePointers_eq]

/-- C19: a successful `morpheModelToPSQLTables` returns a non-empty list: first the
model's own table (schema of the configuration, name `GetTableNameFromModel` of the
model name), then the junction tables in the order `getJunctionTablesForForManyRelations`
produced them, each after quoting and constraint backfilling. So inside
`MorpheModelToPSQLTables` the success phase always receives a non-nil table list: the
result after a successful core compilation is the table list itself when no success
hook is registered and otherwise what the success hook returns (routed through the
failure hook when it returns an error), never `ErrNoModelTables` from the nil check.
As the core compilation does not fail with `ErrNoModelTables` either,
`MorpheModelToPSQLTables` returns that error only if a hook returned it. The model
validation and the registry, which are outside this package, are assumed not to
return `ErrNoModelTables` themselves. -/
theorem core_success_is_never_a_nil_table_set
    (D : Deps) (r : Registry)
    (hval : ∀ m es, D.ValidateModel m es ≠ some Err.ErrNoModelTables)
    (hmodel : ∀ n, r.GetModel n ≠ Except.error Err.ErrNoModelTables) :
    (∀ (config : MorpheConfig) (model : Model) (tables : List Table),
      morpheModelToPSQLTables D config r model = Except.ok tables →
      ∃ (modelTable : Table) (junctionTables processed : List Table),
        tables = modelTable :: processed ∧ tables ≠ [] ∧
        modelTable.Schema = config.MorpheModelsConfig.Schema ∧
        modelTable.Name = D.GetTableNameFromModel model.Name ∧
        getJunctionTablesForForManyRelations D config.MorpheModelsConfig.Schema r model =
          Except.ok junctionTables ∧
        List.Forall₂
          (fun jt p =>
            ensureNamedForeignKeyConstraints D (quoteReservedColumnNames jt) = some p)
          junctionTables processed) ∧
    (∀ (cc : MorpheCompileConfig) (model : Model) (morpheConfig : MorpheConfig)
      (startedModel : Model) (tables : List Table),
      triggerCompileMorpheModelStart cc.ModelHooks cc.MorpheConfig model =
        (morpheConfig, startedModel, none) →
      morpheModelToPSQLTables D morpheConfig r startedModel = Except.ok tables →
      MorpheModelToPSQLTables D cc r model =
        (match cc.ModelHooks.OnCompileMorpheModelSuccess with
          | none => (some tables, none)
          | some onSuccess =>
            match onSuccess tables with
            | (_, some successErr) =>
              (none,
                triggerCompileMorpheModelFailure cc.ModelHooks morpheConfig startedModel
                  successErr)
            | (hookTables, none) => (hookTables, none))) ∧
    (∀ (config : MorpheConfig) (model : Model) (e : Err),
      morpheModelToPSQLTables D config r model = Except.error e → e ≠ Err.ErrNoModelTables) ∧
    (∀ (cc : MorpheCompileConfig) (model : Model) (res : Option (List Table)),
      MorpheModelToPSQLTables D cc r model = (res, some Err.ErrNoModelTables) →
      (∃ onFailure c m e, cc.ModelHooks.OnCompileMorpheModelFailure = some onFailure ∧
        onFailure c m e = some Err.ErrNoModelTables) ∨
      (∃ onStart, cc.ModelHooks.OnCompileMorpheModelStart = some onStart ∧
        (onStart cc.MorpheConfig model).2.2 = some Err.ErrNoModelTables) ∨
      (∃ onSuccess ts, cc.ModelHooks.OnCompileMorpheModelSuccess = some onSuccess ∧
        (onSuccess ts).2 = some Err.ErrNoModelTables)) := by
  refine ⟨?_, ?_, ?_, ?_⟩
  · intro config model tables h
    obtain ⟨_, _, _, _, _, modelTable, junctionTables, processed, _, _, _, _, _, _, hensure, hj,
      hproc, ht⟩ := morpheModelToPSQLTables_ok D config r model tables h
    obtain ⟨_, _, _, hn, hs, _⟩ := ensureNamedForeignKeyConstraints_frame D _ _ hensure
    simp only [quoteReservedColumnNames] at hn hs
    rw [(addUniqueIndicesFromIdentifiers_frame D _ _).2.2.2.1] at hn
    rw [(addUniqueIndicesFromIdentifiers_frame D _ _).2.2.2.2] at hs
    exact ⟨modelTable, junctionTables, processed, ht, by rw [ht]; simp, hs, hn, hj,
      processJunctionTables_forall₂ D _ _ hproc⟩
  · intro cc model morpheConfig startedModel tables hstart hcore
    simp only [MorpheModelToPSQLTables, hstart, hcore, triggerCompileMorpheModelSuccess_some]
    cases cc.ModelHooks.OnCompileMorpheModelSuccess with
    | none => rfl
    | some onSuccess =>
      dsimp only
      rcases onSuccess tables with ⟨hookTables, _ | successErr⟩ <;> rfl
  · intro config model e h
    exact morpheModelToPSQLTables_error_ne D r hval hmodel config model e h
  · intro cc model res h
    have hfail : ∀ c m e, e ≠ Err.ErrNoModelTables ∨
          ((∃ onStart, cc.ModelHooks.OnCompileMorpheModelStart = some onStart ∧
            (onStart cc.MorpheConfig model).2.2 = some Err.ErrNoModelTables) ∨
          (∃ onSuccess ts, cc.ModelHooks.OnCompileMorpheModelSuccess = some onSuccess ∧
            (onSuccess ts).2 = some Err.ErrNoModelTables)) →
        triggerCompileMorpheModelFailure cc.ModelHooks c m e = some Err.ErrNoModelTables →
        (∃ onFailure c m e, cc.ModelHooks.OnCompileMorpheModelFailure = some onFailure ∧
          onFailure c m e = some Err.ErrNoModelTables) ∨
        (∃ onStart, cc.ModelHooks.OnCompileMorpheModelStart = some onStart ∧
          (onStart cc.MorpheConfig model).2.2 = some Err.ErrNoModelTables) ∨
        (∃ onSuccess ts, cc.ModelHooks.OnCompileMorpheModelSuccess = some onSuccess ∧
          (onSuccess ts).2 = some Err.ErrNoModelTables) := by
      intro c m e hsrc hf
      unfold triggerCompileMorpheModelFailure at hf
      split at hf
      · injection hf with hf
        rcases hsrc with hsrc | hsrc
        · exact absurd hf hsrc
        · exact Or.inr hsrc
      · rename_i onFailure hof
        exact Or.inl ⟨onFailure, c, _, e, hof, hf⟩
    unfold MorpheModelToPSQLTables at h
    split at h
    · rename_i c m e hstart
      simp only [Prod.mk.injEq] at h
      obtain ⟨onStart, hs, he, _, _⟩ := triggerCompileMorpheModelStart_error _ _ _ _ _ _ hstart
      refine hfail c m e ?_ h.2
      by_cases hc : e = Err.ErrNoModelTables
      · exact Or.inr (Or.inl ⟨onStart, hs, by rw [he, hc]⟩)
      · exact Or.inl hc
    · rename_i c m hstart
      split at h
      · rename_i e hcore
        simp only [Prod.mk.injEq] at h
        exact hfail c m e
          (Or.inl (morpheModelToPSQLTables_error_ne D r hval hmodel _ _ e hcore)) h.2
      · rename_i tables hcore
        split at h
        · rename_i r1 e hsucc
          simp only [Prod.mk.injEq] at h
          obtain ⟨onSuccess, hs, he⟩ := triggerCompileMorpheModelSuccess_error _ _ _ _ hsucc
          refine hfail c m e ?_ h.2
          by_cases hc : e = Err.ErrNoModelTables
          · exact Or.inr (Or.inr ⟨onSuccess, tables, hs, by rw [he, hc]⟩)
          · exact Or.inl hc
        · simp at h

/-- C19 at the sample registry and the sample `Person`. -/
theorem core_success_is_never_a_nil_table_set_witness :
    ∃ (modelTable : Table) (junctionTables processed : List Table),
      examplePersonTables = modelTable :: processed ∧ examplePersonTables ≠ [] ∧
      modelTable.Schema = exampleConfig.MorpheModelsConfig.Schema ∧
      modelTable.Name = specDeps.GetTableNameFromModel examplePerson.Name ∧
      getJunctionTablesForForManyRelations specDeps exampleConfig.MorpheModelsConfig.Schema
        exampleRegistry examplePerson = Except.ok junctionTables ∧
      List.Forall₂
        (fun jt p =>
          ensureNamedForeignKeyConstraints specDeps (quoteReservedColumnNames jt) = some p)
        junctionTables processed :=
  (core_success_is_never_a_nil_table_set specDeps exampleRegistry
    (fun m es => by
      unfold specDeps
      dsimp only
      split_ifs <;> simp)
    (fun n => by
      unfold exampleRegistry
      dsimp only
      split <;> simp)).1 exampleConfig examplePerson examplePersonTables (by decide)

theorem fieldStep_foreignKey (D : Deps) (config : MorpheConfig) (r : Registry)
    (typeMap : GoMap PSQLType) (tableName : String) (primaryID : ModelIdentifier)
    (modelFields : GoMap ModelField) (k : String) (acc res : List Column × List ForeignKey)
    (h : fieldStep D config r typeMap tableName primaryID modelFields k acc = Except.ok res) :
    ∃ c : Column, res.1 = acc.1 ++ [c] ∧
      (res.2 = acc.2 ∨
        ∃ fk : ForeignKey, res.2 = acc.2 ++ [fk] ∧ fk.ColumnNames = [c.Name] ∧
          fk.TableName = tableName ∧ c.Name = D.GetColumnNameFromField k ++ "_id") := by
  unfold fieldStep at h
  dsimp only at h
  split at h
  · injection h with h
    subst h
    exact ⟨_, rfl, Or.inl rfl⟩
  · split at h
    · cases h
    · injection h with h
      subst h
      exact ⟨_, rfl, Or.inr ⟨_, rfl, rfl, rfl, rfl⟩⟩

/-- Every enum foreign key of the field loop owns the enum column emitted for the
same field. -/
theorem fieldLoop_foreignKeys (D : Deps) (config : MorpheConfig) (r : Registry)
    (typeMap : GoMap PSQLType) (tableName : String) (primaryID : ModelIdentifier)
    (modelFields : GoMap ModelField) :
    ∀ (ks : List String) (acc res : List Column × List ForeignKey),
      rangeKeys (fieldStep D config r typeMap tableName primaryID modelFields) ks acc
        = Except.ok res →
      ∃ (dc : List Column) (dk : List ForeignKey),
        res.1 = acc.1 ++ dc ∧ res.2 = acc.2 ++ dk ∧
        ∀ fk ∈ dk, ∃ k ∈ ks, ∃ c ∈ dc, fk.ColumnNames = [c.Name] ∧
          fk.TableName = tableName ∧ c.Name = D.GetColumnNameFromField k ++ "_id"
  | [], acc, res, h => by
    simp only [rangeKeys, Except.ok.injEq] at h
    subst h
    exact ⟨[], [], by simp, by simp, by simp⟩
  | k :: ks, acc, res, h => by
    simp only [rangeKeys] at h
    split at h
    · cases h
    · rename_i s1 hstep
      obtain ⟨c, hc, hfk⟩ :=
        fieldStep_foreignKey D config r typeMap tableName primaryID modelFields k acc s1 hstep
      obtain ⟨dc, dk, hdc, hdk, hall⟩ :=
        fieldLoop_foreignKeys D config r typeMap tableName primaryID modelFields ks s1 res h
      have hlift : ∀ fk ∈ dk, ∃ k1 ∈ k :: ks, ∃ c1 ∈ c :: dc, fk.ColumnNames = [c1.Name] ∧
          fk.TableName = tableName ∧ c1.Name = D.GetColumnNameFromField k1 ++ "_id" := by
        intro fk hfkm
        obtain ⟨k1, hk1, c1, hc1, hrest⟩ := hall fk hfkm
        exact ⟨k1, List.mem_cons_of_mem _ hk1, c1, List.mem_cons_of_mem _ hc1, hrest⟩
      rcases hfk with hsame | ⟨fk0, hfk0, hcols, htab, hname⟩
      · exact ⟨c :: dc, dk, by rw [hdc, hc]; simp, by rw [hdk, hsame], hlift⟩
      · refine ⟨c :: dc, fk0 :: dk, by rw [hdc, hc]; simp, by rw [hdk, hfk0]; simp, ?_⟩
        intro fk hfkm
        rcases List.mem_cons.mp hfkm with hfkm | hfkm
        · subst hfkm
          exact ⟨k, List.mem_cons_self _ _, c, List.mem_cons_self _ _, hcols, htab, hname⟩
        · exact hlift fk hfkm

theorem relationSteps_lockstep (D : Deps) (schema tableName : String) (r : Registry)
    (typeMap : GoMap PSQLType) (relatedModels : GoMap ModelRelation) (k : String)
    (acc1 s1 : List Column) (acc2 s2 : List ForeignKey)
    (h1 : relationColumnStep D r typeMap relatedModels k acc1 = Except.ok s1)
    (h2 : relationForeignKeyStep D schema tableName r relatedModels k acc2 = Except.ok s2) :
    (s1 = acc1 ∧ s2 = acc2) ∨
      ∃ (c : Column) (fk : ForeignKey), s1 = acc1 ++ [c] ∧ s2 = acc2 ++ [fk] ∧
        fk.ColumnNames = [c.Name] ∧ fk.TableName = tableName := by
  unfold relationColumnStep at h1
  unfold relationForeignKeyStep at h2
  dsimp only at h1 h2
  cases hm : r.GetModel k with
  | error e => simp [hm] at h1
  | ok target =>
    simp only [hm] at h1 h2
    cases hp : target.Identifiers.get? "primary" with
    | none => simp [hp] at h1
    | some primaryID =>
      simp only [hp] at h1 h2
      rcases hf : primaryID.Fields with _ | ⟨pid, _ | ⟨x, rest⟩⟩
      · simp [hf] at h1
      · simp only [hf] at h1 h2
        cases hfield : target.Fields.get? pid with
        | none => simp [hfield] at h1
        | some field =>
          simp only [hfield] at h1 h2
          cases hcond : (D.IsRelationFor (relatedModels.index k { Type_ := "" }).Type_ &&
              D.IsRelationOne (relatedModels.index k { Type_ := "" }).Type_) with
          | true =>
            simp only [hcond, if_true] at h1 h2
            cases htm : typeMap.get? field.Type_ with
            | none => simp [htm] at h1
            | some ty =>
              simp only [htm, Except.ok.injEq] at h1 h2
              exact Or.inr ⟨_, _, h1.symm, h2.symm, rfl, rfl⟩
          | false =>
            simp only [hcond, Bool.false_eq_true, if_false, Except.ok.injEq] at h1 h2
            exact Or.inl ⟨h1.symm, h2.symm⟩
      · simp [hf] at h1

/-- The relation column loop and the relation foreign-key loop emit in lockstep:
the i-th foreign key owns the i-th column. -/
theorem relationLoops_lockstep (D : Deps) (schema tableName : String) (r : Registry)
    (typeMap : GoMap PSQLType) (relatedModels : GoMap ModelRelation) :
    ∀ (ks : List String) (acc1 res1 : List Column) (acc2 res2 : List ForeignKey),
      rangeKeys (relationColumnStep D r typeMap relatedModels) ks acc1 = Except.ok res1 →
      rangeKeys (relationForeignKeyStep D schema tableName r relatedModels) ks acc2
        = Except.ok res2 →
      ∃ (d1 : List Column) (d2 : List ForeignKey), res1 = acc1 ++ d1 ∧ res2 = acc2 ++ d2 ∧
        List.Forall₂ (fun c fk => fk.ColumnNames = [c.Name] ∧ fk.TableName = tableName) d1 d2
  | [], acc1, res1, acc2, res2, h1, h2 => by
    simp only [rangeKeys, Except.ok.injEq] at h1 h2
    subst h1 h2
    exact ⟨[], [], by simp, by simp, List.Forall₂.nil⟩
  | k :: ks, acc1, res1, acc2, res2, h1, h2 => by
    simp only [rangeKeys] at h1 h2
    split at h1
    · cases h1
    · rename_i s1 hs1
      split at h2
      · cases h2
      · rename_i s2 hs2
        obtain ⟨d1, d2, hd1, hd2, hall⟩ :=
          relationLoops_lockstep D schema tableName r typeMap relatedModels ks s1 res1 s2 res2
            h1 h2
        rcases relationSteps_lockstep D schema tableName r typeMap relatedModels k acc1 s1
            acc2 s2 hs1 hs2 with ⟨e1, e2⟩ | ⟨c, fk, e1, e2, hc, ht⟩
        · exact ⟨d1, d2, by rw [hd1, e1], by rw [hd2, e2], hall⟩
        · exact ⟨c :: d1, fk :: d2, by rw [hd1, e1]; simp, by rw [hd2, e2]; simp,
            List.Forall₂.cons ⟨hc, ht⟩ hall⟩

theorem junctionStep_ok (D : Deps) (schema : String) (r : Registry) (model : Model)
    (primaryIdName : String) (k : String) (acc res : List Table)
    (h : junctionStep D schema r model primaryIdName k acc = Except.ok res) :
    res = acc ∨ ∃ pb : String,
      res = acc ++ [junctionTableFor D schema model.Name primaryIdName k pb] := by
  unfold junctionStep at h
  dsimp only at h
  split at h
  · split at h
    · cases h
    · split at h
      · cases h
      · split at h
        · injection h with h
          exact Or.inr ⟨_, h.symm⟩
        · cases h
  · injection h with h
    exact Or.inl h.symm

/-- Every table the junction loop appends is a `junctionTableFor`. -/
theorem junctionLoop_tables (D : Deps) (schema : String) (r : Registry) (model : Model)
    (primaryIdName : String) :
    ∀ (ks : List String) (acc res : List Table),
      rangeKeys (junctionStep D schema r model primaryIdName) ks acc = Except.ok res →
      ∃ d : List Table, res = acc ++ d ∧
        ∀ t ∈ d, ∃ b pb : String,
          t = junctionTableFor D schema model.Name primaryIdName b pb
  | [], acc, res, h => by
    simp only [rangeKeys, Except.ok.injEq] at h
    subst h
    exact ⟨[], by simp, by simp⟩
  | k :: ks, acc, res, h => by
    simp only [rangeKeys] at h
    split at h
    · cases h
    · rename_i s1 hstep
      obtain ⟨d, hd, hall⟩ := junctionLoop_tables D schema r model primaryIdName ks s1 res h
      rcases junctionStep_ok D schema r model primaryIdName k acc s1 hstep with h1 | ⟨pb, h1⟩
      · exact ⟨d, by rw [hd, h1], hall⟩
      · refine ⟨junctionTableFor D schema model.Name primaryIdName k pb :: d,
          by rw [hd, h1]; simp, ?_⟩
        intro t ht
        rcases List.mem_cons.mp ht with ht | ht
        · exact ⟨k, pb, ht⟩
        · exact hall t ht

theorem getJunctionTables_tables (D : Deps) (schema : String) (r : Registry) (model : Model)
    (junctionTables : List Table)
    (h : getJunctionTablesForForManyRelations D schema r model = Except.ok junctionTables) :
    ∀ t ∈ junctionTables, ∃ pa b pb : String,
      t = junctionTableFor D schema model.Name pa b pb := by
  unfold getJunctionTablesForForManyRelations at h
  dsimp only at h
  split at h
  · cases h
  · split at h
    · rename_i pa _
      obtain ⟨d, hd, hall⟩ := junctionLoop_tables D schema r model pa _ [] junctionTables h
      simp only [List.nil_append] at hd
      intro t ht
      rw [hd] at ht
      obtain ⟨b, pb, hb⟩ := hall t ht
      exact ⟨pa, b, pb, hb⟩
    · cases h

theorem ensureNamedForeignKey_frame (D : Deps) (tableName : String) (old new : ForeignKey)
    (h : ensureNamedForeignKey D tableName old = some new) :
    new.ColumnNames = old.ColumnNames ∧ new.TableName = old.TableName ∧
      new.Schema = old.Schema ∧ new.RefTableName = old.RefTableName ∧
      new.RefColumnNames = old.RefColumnNames := by
  unfold ensureNamedForeignKey at h
  by_cases hn : old.Name = "" <;> by_cases hd : old.OnDelete = ""
  · cases hc : old.ColumnNames with
    | nil => simp [hn, hc] at h
    | cons first rest =>
      simp [hn, hd, hc] at h
      subst h
      simp [hc]
  · cases hc : old.ColumnNames with
    | nil => simp [hn, hc] at h
    | cons first rest =>
      simp [hn, hd, hc] at h
      subst h
      simp [hc]
  · simp [hn, hd] at h
    subst h
    simp
  · simp [hn, hd] at h
    subst h
    simp

theorem ensureNamedForeignKeys_frame (D : Deps) (tableName : String) :
    ∀ (fks out : List ForeignKey), ensureNamedForeignKeys D tableName fks = some out →
      List.Forall₂
        (fun old new => new.ColumnNames = old.ColumnNames ∧ new.TableName = old.TableName ∧
          new.Schema = old.Schema ∧ new.RefTableName = old.RefTableName ∧
          new.RefColumnNames = old.RefColumnNames) fks out
  | [], out, h => by
    simp only [ensureNamedForeignKeys, Option.some.injEq] at h
    subst h
    exact List.Forall₂.nil
  | old :: rest, out, h => by
    simp only [ensureNamedForeignKeys] at h
    split at h
    · cases h
    · rename_i new hnew
      split at h
      · cases h
      · rename_i rest1 hrest
        injection h with h
        subst h
        exact List.Forall₂.cons (ensureNamedForeignKey_frame D tableName old new hnew)
          (ensureNamedForeignKeys_frame D tableName rest rest1 hrest)

theorem processed_junction_table (D : Deps) (schema modelName pa b pb : String) (p : Table)
    (h : ensureNamedForeignKeyConstraints D
      (quoteReservedColumnNames (junctionTableFor D schema modelName pa b pb)) = some p) :
    p.Name = D.GetJunctionTableName modelName b ∧
    ∃ (idColumn columnA columnB : Column) (fkA fkB : ForeignKey),
      p.Columns = [idColumn, columnA, columnB] ∧
      idColumn.Name = "id" ∧
      columnA.Type_ = PSQLTypeInteger ∧ columnB.Type_ = PSQLTypeInteger ∧
      p.ForeignKeys = [fkA, fkB] ∧
      fkA.ColumnNames = [columnA.Name] ∧ fkB.ColumnNames = [columnB.Name] ∧
      fkA.TableName = p.Name ∧ fkB.TableName = p.Name := by
  obtain ⟨hcols, _, _, hname, _, hfks⟩ := ensureNamedForeignKeyConstraints_frame D _ _ h
  have hall := ensureNamedForeignKeys_frame D _ _ _ hfks
  simp only [quoteReservedColumnNames, junctionTableFor] at hcols hname hall
  generalize hout : p.ForeignKeys = out at hall
  cases hall with
  | cons h1 hrest =>
    cases hrest with
    | cons h2 hnil =>
      cases hnil
      rename_i fkA fkB
      refine ⟨hname, _, _, _, fkA, fkB, hcols, rfl, rfl, rfl, rfl, ?_, ?_, ?_, ?_⟩
      · exact h1.1
      · exact h2.1
      · rw [hname]
        exact h1.2.1
      · rw [hname]
        exact h2.2.1

/-- C20: in every table that a successful `morpheModelToPSQLTables` returns, every
foreign key has exactly one owning column, its `TableName` is the name of the table,
and its owning column is the name of a column of that table. In the model table the
foreign keys are those of the field loop followed by those of the relation loop,
with owning columns and table name as built; each enum foreign key owns the enum
column emitted for the same field; the relation foreign keys are as many as the
relation columns and the i-th owns the i-th column; each junction table has the
columns `id` and two integer columns, and two foreign keys owning the first and the
second integer column. -/
theorem every_foreign_key_is_owned_by_a_column_of_its_table
    (D : Deps) (config : MorpheConfig) (r : Registry) (model : Model) (tables : List Table)
    (h : morpheModelToPSQLTables D config r model = Except.ok tables) :
    (∀ t ∈ tables, ∀ fk ∈ t.ForeignKeys,
      ∃ c : String, fk.ColumnNames = [c] ∧ fk.TableName = t.Name ∧
        c ∈ t.Columns.map (fun col => col.Name)) ∧
    ∃ (primaryID : ModelIdentifier) (modelTable : Table) (processed : List Table)
      (fieldColumns relatedColumns : List Column)
      (enumForeignKeys relationForeignKeys : List ForeignKey),
      tables = modelTable :: processed ∧
      getColumnsForModelFields D config r (selectedTypeMap D config)
        (D.GetTableNameFromModel model.Name) primaryID model.Fields =
          Except.ok (fieldColumns, enumForeignKeys) ∧
      getColumnsForModelRelations D r (selectedRelatedTypeMap D config) model.Related =
        Except.ok relatedColumns ∧
      getForeignKeysForModelRelations D config.MorpheModelsConfig.Schema
        (D.GetTableNameFromModel model.Name) r model.Related = Except.ok relationForeignKeys ∧
      modelTable.Name = D.GetTableNameFromModel model.Name ∧
      modelTable.Columns = fieldColumns ++ relatedColumns ∧
      List.Forall₂
        (fun old new => new.ColumnNames = old.ColumnNames ∧ new.TableName = old.TableName)
        (enumForeignKeys ++ relationForeignKeys) modelTable.ForeignKeys ∧
      (∀ fk ∈ enumForeignKeys, ∃ fieldName ∈ model.Fields.keys, ∃ c ∈ fieldColumns,
        c.Name = D.GetColumnNameFromField fieldName ++ "_id" ∧ fk.ColumnNames = [c.Name] ∧
        fk.TableName = D.GetTableNameFromModel model.Name) ∧
      relatedColumns.length = relationForeignKeys.length ∧
      List.Forall₂
        (fun c fk => fk.ColumnNames = [c.Name] ∧
          fk.TableName = D.GetTableNameFromModel model.Name)
        relatedColumns relationForeignKeys ∧
      (∀ t ∈ processed,
        ∃ (idColumn columnA columnB : Column) (fkA fkB : ForeignKey),
          t.Columns = [idColumn, columnA, columnB] ∧
          idColumn.Name = "id" ∧
          columnA.Type_ = PSQLTypeInteger ∧ columnB.Type_ = PSQLTypeInteger ∧
          t.ForeignKeys = [fkA, fkB] ∧
          fkA.ColumnNames = [columnA.Name] ∧ fkB.ColumnNames = [columnB.Name] ∧
          fkA.TableName = t.Name ∧ fkB.TableName = t.Name) := by
  obtain ⟨primaryID, fieldColumns, enumForeignKeys, relatedColumns, relationForeignKeys,
    modelTable, junctionTables, processed, _, _, _, hfields, hrel, hfks, hensure, hj, hproc,
    ht⟩ := morpheModelToPSQLTables_ok D config r model tables h
  obtain ⟨hcols, _, _, hname, _, hk⟩ := ensureNamedForeignKeyConstraints_frame D _ _ hensure
  simp only [quoteReservedColumnNames] at hcols hname hk
  rw [(addUniqueIndicesFromIdentifiers_frame D _ _).1] at hcols
  rw [(addUniqueIndicesFromIdentifiers_frame D _ _).2.2.2.1] at hname
  rw [(addUniqueIndicesFromIdentifiers_frame D _ _).2.1,
    (addUniqueIndicesFromIdentifiers_frame D _ _).2.2.2.1] at hk
  dsimp only at hcols hname hk
  have hframe : List.Forall₂
      (fun old new => new.ColumnNames = old.ColumnNames ∧ new.TableName = old.TableName)
      (enumForeignKeys ++ relationForeignKeys) modelTable.ForeignKeys :=
    (ensureNamedForeignKeys_frame D _ _ _ hk).imp (fun _ _ hx => ⟨hx.1, hx.2.1⟩)
  have henum : ∀ fk ∈ enumForeignKeys, ∃ fieldName ∈ model.Fields.keys, ∃ c ∈ fieldColumns,
      c.Name = D.GetColumnNameFromField fieldName ++ "_id" ∧ fk.ColumnNames = [c.Name] ∧
      fk.TableName = D.GetTableNameFromModel model.Name := by
    obtain ⟨dc, dk, hdc, hdk, hall⟩ := fieldLoop_foreignKeys D config r _ _ primaryID
      model.Fields (MapKeysSorted model.Fields) ([], []) (fieldColumns, enumForeignKeys) hfields
    simp only [List.nil_append] at hdc hdk
    subst hdc hdk
    intro fk hfk
    obtain ⟨k, hkm, c, hc, hcn, htn, hname1⟩ := hall fk hfk
    exact ⟨k, (MapKeysSorted_perm_keys model.Fields).mem_iff.mp hkm, c, hc, hname1, hcn, htn⟩
  have hlock : List.Forall₂
      (fun c fk => fk.ColumnNames = [c.Name] ∧
        fk.TableName = D.GetTableNameFromModel model.Name)
      relatedColumns relationForeignKeys := by
    obtain ⟨d1, d2, hd1, hd2, hall⟩ := relationLoops_lockstep D _ _ r _ model.Related
      (MapKeysSorted model.Related) [] relatedColumns [] relationForeignKeys hrel hfks
    simp only [List.nil_append] at hd1 hd2
    subst hd1 hd2
    exact hall
  have hjunction : ∀ t ∈ processed,
      ∃ (idColumn columnA columnB : Column) (fkA fkB : ForeignKey),
        t.Columns = [idColumn, columnA, columnB] ∧
        idColumn.Name = "id" ∧
        columnA.Type_ = PSQLTypeInteger ∧ columnB.Type_ = PSQLTypeInteger ∧
        t.ForeignKeys = [fkA, fkB] ∧
        fkA.ColumnNames = [columnA.Name] ∧ fkB.ColumnNames = [columnB.Name] ∧
        fkA.TableName = t.Name ∧ fkB.TableName = t.Name := by
    intro t htm
    obtain ⟨jt, hjt, hp⟩ := forall₂_exists_left _ _ _ (processJunctionTables_forall₂ D _ _ hproc)
      t htm
    obtain ⟨pa, b, pb, hform⟩ := getJunctionTables_tables D _ r model _ hj jt hjt
    rw [hform] at hp
    exact (processed_junction_table D _ _ pa b pb t hp).2
  refine ⟨?_, primaryID, modelTable, processed, fieldColumns, relatedColumns, enumForeignKeys,
    relationForeignKeys, ht, hfields, hrel, hfks, hname, hcols, hframe, henum,
    hlock.length_eq, hlock, hjunction⟩
  intro t htm fk hfk
  rw [ht] at htm
  rcases List.mem_cons.mp htm with htm | htm
  · subst htm
    obtain ⟨old, hold, hcn, htn⟩ := forall₂_exists_left _ _ _ hframe fk hfk
    rw [hcn, htn, hname, hcols]
    rcases List.mem_append.mp hold with hold | hold
    · obtain ⟨_, _, c, hc, _, hcn1, htn1⟩ := henum old hold
      exact ⟨c.Name, hcn1, htn1,
        List.mem_map.mpr ⟨c, List.mem_append_left _ hc, rfl⟩⟩
    · obtain ⟨c, hc, hcn1, htn1⟩ := forall₂_exists_left _ _ _ hlock old hold
      exact ⟨c.Name, hcn1, htn1,
        List.mem_map.mpr ⟨c, List.mem_append_right _ hc, rfl⟩⟩
  · obtain ⟨idColumn, columnA, columnB, fkA, fkB, hc, _, _, _, hf, hA, hB, htA, htB⟩ :=
      hjunction t htm
    rw [hf] at hfk
    rw [hc]
    rcases List.mem_cons.mp hfk with hfk | hfk
    · subst hfk
      exact ⟨columnA.Name, hA, htA, by simp⟩
    · rcases List.mem_cons.mp hfk with hfk | hfk
      · subst hfk
        exact ⟨columnB.Name, hB, htB, by simp⟩
      · simp at hfk

/-- C20 at the sample `Person`, which compiles to `examplePersonTables`. -/
theorem every_foreign_key_is_owned_by_a_column_of_its_table_witness :
    (∀ t ∈ examplePersonTables, ∀ fk ∈ t.ForeignKeys,
      ∃ c : String, fk.ColumnNames = [c] ∧ fk.TableName = t.Name ∧
        c ∈ t.Columns.map (fun col => col.Name)) ∧
    ∃ (primaryID : ModelIdentifier) (modelTable : Table) (processed : List Table)
      (fieldColumns relatedColumns : List Column)
      (enumForeignKeys relationForeignKeys : List ForeignKey),
      examplePersonTables = modelTable :: processed ∧
      getColumnsForModelFields specDeps exampleConfig exampleRegistry (selectedTypeMap specDeps exampleConfig)
        (specDeps.GetTableNameFromModel examplePerson.Name) primaryID examplePerson.Fields =
          Except.ok (fieldColumns, enumForeignKeys) ∧
      getColumnsForModelRelations specDeps exampleRegistry (selectedRelatedTypeMap specDeps exampleConfig) examplePerson.Related =
        Except.ok relatedColumns ∧
      getForeignKeysForModelRelations specDeps exampleConfig.MorpheModelsConfig.Schema
        (specDeps.GetTableNameFromModel examplePerson.Name) exampleRegistry examplePerson.Related = Except.ok relationForeignKeys ∧
      modelTable.Name = specDeps.GetTableNameFromModel examplePerson.Name ∧
      modelTable.Columns = fieldColumns ++ relatedColumns ∧
      List.Forall₂
        (fun old new => new.ColumnNames = old.ColumnNames ∧ new.TableName = old.TableName)
        (enumForeignKeys ++ relationForeignKeys) modelTable.ForeignKeys ∧
      (∀ fk ∈ enumForeignKeys, ∃ fieldName ∈ examplePerson.Fields.keys, ∃ c ∈ fieldColumns,
        c.Name = specDeps.GetColumnNameFromField fieldName ++ "_id" ∧ fk.ColumnNames = [c.Name] ∧
        fk.TableName = specDeps.GetTableNameFromModel examplePerson.Name) ∧
      relatedColumns.length = relationForeignKeys.length ∧
      List.Forall₂
        (fun c fk => fk.ColumnNames = [c.Name] ∧
          fk.TableName = specDeps.GetTableNameFromModel examplePerson.Name)
        relatedColumns relationForeignKeys ∧
      (∀ t ∈ processed,
        ∃ (idColumn columnA columnB : Column) (fkA fkB : ForeignKey),
          t.Columns = [idColumn, columnA, columnB] ∧
          idColumn.Name = "id" ∧
          columnA.Type_ = PSQLTypeInteger ∧ columnB.Type_ = PSQLTypeInteger ∧
          t.ForeignKeys = [fkA, fkB] ∧
          fkA.ColumnNames = [columnA.Name] ∧ fkB.ColumnNames = [columnB.Name] ∧
          fkA.TableName = t.Name ∧ fkB.TableName = t.Name) :=
  every_foreign_key_is_owned_by_a_column_of_its_table specDeps exampleConfig exampleRegistry
    examplePerson examplePersonTables (by decide)

theorem junctionStep_error_indep (D : Deps) (schema : String) (r : Registry) (model : Model)
    (primaryIdName : String) (k : String) (s : List Table) (e : Err) :
    junctionStep D schema r model primaryIdName k s = Except.error e ↔
      junctionStep D schema r model primaryIdName k [] = Except.error e := by
  rw [junctionStep_acc D schema r model primaryIdName k s]
  exact error_map_iff _ _ e

theorem junctionStep_error_iff (D : Deps) (schema : String) (r : Registry) (model : Model)
    (primaryIdName : String) (name : String) :
    (∃ e, junctionStep D schema r model primaryIdName name [] = Except.error e) ↔
      junctionTargetInvalid D r model.Related name = true := by
  unfold junctionStep junctionTargetInvalid
  dsimp only
  cases hcond : (D.IsRelationFor (model.Related.index name { Type_ := "" }).Type_ &&
      D.IsRelationMany (model.Related.index name { Type_ := "" }).Type_) with
  | false => simp
  | true =>
    simp only [if_true, Bool.true_and]
    cases r.GetModel name with
    | error e => simp
    | ok target =>
      dsimp only
      cases target.Identifiers.get? "primary" with
      | none => simp
      | some primaryID =>
        dsimp only
        rcases hf : primaryID.Fields with _ | ⟨pid, _ | ⟨x, rest⟩⟩ <;> simp

theorem junctionStep_skips_other_relations (D : Deps) (schema : String) (r : Registry)
    (model : Model) (primaryIdName : String) (name : String) (acc : List Table)
    (h : (D.IsRelationFor (model.Related.index name { Type_ := "" }).Type_ &&
      D.IsRelationMany (model.Related.index name { Type_ := "" }).Type_) = false) :
    junctionStep D schema r model primaryIdName name acc = Except.ok acc := by
  unfold junctionStep
  dsimp only
  simp only [h, Bool.false_eq_true, if_false]

/-- C21: `getJunctionTablesForForManyRelations` returns an error for every model
whose `primary` identifier is missing or does not have exactly one field, whatever
relations the model declares (also none); hence a model that
`morpheModelToPSQLTables` compiles has a primary identifier with exactly one field.
When the primary identifier has exactly one field, the function fails exactly when
some relation is for + to-many with a target that is not in the registry, or lacks a
`primary` identifier, or has a primary identifier without exactly one field; the
error is that of the first such relation in ascending order of the names; a relation
that is not for + to-many leaves the loop state as it is without looking at the
registry. -/
theorem getJunctionTables_fails_without_single_field_primary
    (D : Deps) (schema : String) (r : Registry) (model : Model) :
    (model.Identifiers.get? "primary" = none →
      getJunctionTablesForForManyRelations D schema r model =
        Except.error (Err.errorf ("model " ++ model.Name ++ " has no primary identifier"))) ∧
    (∀ primaryID, model.Identifiers.get? "primary" = some primaryID →
      primaryID.Fields.length ≠ 1 →
      getJunctionTablesForForManyRelations D schema r model =
        Except.error (Err.errorf
          ("model " ++ model.Name ++ " primary identifier must have exactly one field"))) ∧
    (∀ (config : MorpheConfig) (tables : List Table),
      morpheModelToPSQLTables D config r model = Except.ok tables →
      ∃ primaryIdName, model.Identifiers.get? "primary" = some { Fields := [primaryIdName] }) ∧
    (∀ primaryIdName,
      model.Identifiers.get? "primary" = some { Fields := [primaryIdName] } →
      ((∃ e, getJunctionTablesForForManyRelations D schema r model = Except.error e) ↔
        ∃ name ∈ model.Related.keys, junctionTargetInvalid D r model.Related name = true) ∧
      (∀ e, getJunctionTablesForForManyRelations D schema r model = Except.error e →
        ∃ before name after,
          MapKeysSorted model.Related = before ++ name :: after ∧
          (∀ k ∈ before, junctionTargetInvalid D r model.Related k = false) ∧
          junctionTargetInvalid D r model.Related name = true ∧
          junctionStep D schema r model primaryIdName name [] = Except.error e) ∧
      (∀ (name : String) (acc : List Table),
        (D.IsRelationFor (model.Related.index name { Type_ := "" }).Type_ &&
          D.IsRelationMany (model.Related.index name { Type_ := "" }).Type_) = false →
        junctionTargetInvalid D r model.Related name = false ∧
        junctionStep D schema r model primaryIdName name acc = Except.ok acc)) := by
  refine ⟨?_, ?_, ?_, ?_⟩
  · intro hnone
    simp [getJunctionTablesForForManyRelations, hnone]
  · intro primaryID hsome hlen
    unfold getJunctionTablesForForManyRelations
    simp only [hsome]
    rcases hf : primaryID.Fields with _ | ⟨pid, _ | ⟨x, rest⟩⟩
    · rfl
    · rw [hf] at hlen
      simp at hlen
    · rfl
  · intro config tables h
    obtain ⟨_, _, _, _, _, _, junctionTables, _, _, _, _, _, _, _, _, hj, _, _⟩ :=
      morpheModelToPSQLTables_ok D config r model tables h
    unfold getJunctionTablesForForManyRelations at hj
    dsimp only at hj
    split at hj
    · cases hj
    · rename_i primaryID hprim
      split at hj
      · rename_i pa hf
        refine ⟨pa, ?_⟩
        rw [hprim]
        cases primaryID
        simp only at hf
        rw [hf]
      · cases hj
  · intro pa hprim
    have hloop : getJunctionTablesForForManyRelations D schema r model =
        rangeKeys (junctionStep D schema r model pa) (MapKeysSorted model.Related) [] := by
      simp [getJunctionTablesForForManyRelations, hprim]
    obtain ⟨h1, h2, h3⟩ := rangeKeys_first_error (junctionStep D schema r model pa) []
      (junctionStep_error_indep D schema r model pa) (MapKeysSorted model.Related) []
    have hmem : ∀ k, k ∈ MapKeysSorted model.Related ↔ k ∈ model.Related.keys :=
      fun k => (MapKeysSorted_perm_keys model.Related).mem_iff
    have hgood : ∀ k, (∀ e, junctionStep D schema r model pa k [] ≠ Except.error e) ↔
        junctionTargetInvalid D r model.Related k = false := by
      intro k
      rw [← Bool.not_eq_true, ← junctionStep_error_iff D schema r model pa k]
      simp
    have hfirst : ∀ e, getJunctionTablesForForManyRelations D schema r model = Except.error e →
        ∃ before name after,
          MapKeysSorted model.Related = before ++ name :: after ∧
          (∀ k ∈ before, junctionTargetInvalid D r model.Related k = false) ∧
          junctionTargetInvalid D r model.Related name = true ∧
          junctionStep D schema r model pa name [] = Except.error e := by
      intro e he
      rw [hloop] at he
      obtain ⟨before, name, after, hsplit, hbefore, hname⟩ := h3 e he
      exact ⟨before, name, after, hsplit, fun k hk => (hgood k).mp (hbefore k hk),
        (junctionStep_error_iff D schema r model pa name).mp ⟨e, hname⟩, hname⟩
    refine ⟨⟨?_, ?_⟩, hfirst, ?_⟩
    · rintro ⟨e, he⟩
      obtain ⟨before, name, after, hsplit, _, hbad, _⟩ := hfirst e he
      exact ⟨name, (hmem name).mp (by rw [hsplit]; simp), hbad⟩
    · rintro ⟨name, hname, hbad⟩
      cases hres : getJunctionTablesForForManyRelations D schema r model with
      | error e => exact ⟨e, rfl⟩
      | ok junctionTables =>
        rw [hloop] at hres
        have := (hgood name).mp (h2 junctionTables hres name ((hmem name).mpr hname))
        rw [hbad] at this
        cases this
    · intro name acc hcond
      refine ⟨?_, junctionStep_skips_other_relations D schema r model pa name acc hcond⟩
      unfold junctionTargetInvalid
      dsimp only
      rw [hcond]
      rfl

/-- Splitting a list-state loop at a key, when the loop runs through before and
after it. -/
theorem rangeKeys_split_ok {α : Type} (step : String → List α → Except Err (List α))
    (hstep : ∀ k s, step k s = (step k []).map (fun d => s ++ d))
    (pre post : List String) (k : String) (a b c : List α)
    (hpre : rangeKeys step pre [] = Except.ok a) (hk : step k [] = Except.ok b)
    (hpost : rangeKeys step post [] = Except.ok c) :
    rangeKeys step (pre ++ k :: post) [] = Except.ok (a ++ b ++ c) := by
  rw [rangeKeys_split_list step hstep pre post k b hk, hpre, hpost]
  rfl

/-- Splitting the pair-state loop at a key, when the loop runs through before and
after it. -/
theorem rangeKeys_split_pair_ok {α β : Type}
    (step : String → List α × List β → Except Err (List α × List β))
    (hstep : ∀ k s, step k s = (step k ([], [])).map (fun d => (s.1 ++ d.1, s.2 ++ d.2)))
    (pre post : List String) (k : String) (a b c : List α × List β)
    (hpre : rangeKeys step pre ([], []) = Except.ok a) (hk : step k ([], []) = Except.ok b)
    (hpost : rangeKeys step post ([], []) = Except.ok c) :
    rangeKeys step (pre ++ k :: post) ([], []) =
      Except.ok (a.1 ++ b.1 ++ c.1, a.2 ++ b.2 ++ c.2) := by
  rw [rangeKeys_split_pair step hstep pre post k b hk, hpre, hpost]
  rfl

theorem relationForeignKeyStep_error_indep (D : Deps) (schema tableName : String)
    (r : Registry) (relatedModels : GoMap ModelRelation) (k : String) (s : List ForeignKey)
    (e : Err) :
    relationForeignKeyStep D schema tableName r relatedModels k s = Except.error e ↔
      relationForeignKeyStep D schema tableName r relatedModels k [] = Except.error e := by
  rw [relationForeignKeyStep_acc D schema tableName r relatedModels k s]
  exact error_map_iff _ _ e

/-- A relation that passes the checks of the column loop passes those of the
foreign-key loop, which are the same but for the type lookup. -/
theorem relationForeignKeyStep_ok_of_valid (D : Deps) (schema tableName : String)
    (r : Registry) (typeMap : GoMap PSQLType) (relatedModels : GoMap ModelRelation)
    (k : String) (h : relationTargetInvalid D r typeMap relatedModels k = false) (e : Err) :
    relationForeignKeyStep D schema tableName r relatedModels k [] ≠ Except.error e := by
  unfold relationTargetInvalid at h
  unfold relationForeignKeyStep
  dsimp only at h ⊢
  cases hm : r.GetModel k with
  | error e1 => simp [hm] at h
  | ok target =>
    simp only [hm] at h ⊢
    cases hp : target.Identifiers.get? "primary" with
    | none => simp [hp] at h
    | some primaryID =>
      simp only [hp] at h ⊢
      rcases hf : primaryID.Fields with _ | ⟨pid, _ | ⟨x, rest⟩⟩
      · simp [hf] at h
      · simp only [hf, List.length_singleton, ne_eq, not_true_eq_false, if_false,
          List.headD_cons] at h ⊢
        cases hfield : target.Fields.get? pid with
        | none => simp [hfield] at h
        | some field =>
          simp only [hfield]
          split_ifs <;> simp
      · simp [hf] at h

theorem relationColumnLoop_ok (D : Deps) (r : Registry) (typeMap : GoMap PSQLType)
    (relatedModels : GoMap ModelRelation) (ks : List String)
    (h : ∀ k ∈ ks, relationTargetInvalid D r typeMap relatedModels k = false) :
    ∃ columns, rangeKeys (relationColumnStep D r typeMap relatedModels) ks [] =
      Except.ok columns := by
  refine (rangeKeys_first_error (relationColumnStep D r typeMap relatedModels) []
    (relationColumnStep_error_indep D r typeMap relatedModels) ks []).1 ?_
  intro k hk e he
  have := (relationColumnStep_error_iff D r typeMap relatedModels k).mp ⟨e, he⟩
  rw [h k hk] at this
  cases this

theorem relationForeignKeyLoop_ok (D : Deps) (schema tableName : String) (r : Registry)
    (typeMap : GoMap PSQLType) (relatedModels : GoMap ModelRelation) (ks : List String)
    (h : ∀ k ∈ ks, relationTargetInvalid D r typeMap relatedModels k = false) :
    ∃ foreignKeys, rangeKeys (relationForeignKeyStep D schema tableName r relatedModels) ks [] =
      Except.ok foreignKeys :=
  (rangeKeys_first_error (relationForeignKeyStep D schema tableName r relatedModels) []
    (relationForeignKeyStep_error_indep D schema tableName r relatedModels) ks []).1
    (fun k hk e =>
      relationForeignKeyStep_ok_of_valid D schema tableName r typeMap relatedModels k (h k hk) e)

theorem junctionLoop_ok (D : Deps) (schema : String) (r : Registry) (model : Model)
    (primaryIdName : String) (ks : List String)
    (h : ∀ k ∈ ks, junctionTargetInvalid D r model.Related k = false) :
    ∃ junctionTables, rangeKeys (junctionStep D schema r model primaryIdName) ks [] =
      Except.ok junctionTables := by
  refine (rangeKeys_first_error (junctionStep D schema r model primaryIdName) []
    (junctionStep_error_indep D schema r model primaryIdName) ks []).1 ?_
  intro k hk e he
  have := (junctionStep_error_iff D schema r model primaryIdName k).mp ⟨e, he⟩
  rw [h k hk] at this
  cases this

theorem fieldLoop_ok (D : Deps) (config : MorpheConfig) (r : Registry)
    (typeMap : GoMap PSQLType) (tableName : String) (primaryID : ModelIdentifier)
    (modelFields : GoMap ModelField) (ks : List String)
    (h : ∀ k ∈ ks, fieldTypeUnsupported r typeMap modelFields k = false) :
    ∃ res, rangeKeys (fieldStep D config r typeMap tableName primaryID modelFields) ks ([], []) =
      Except.ok res := by
  refine (rangeKeys_first_error (fieldStep D config r typeMap tableName primaryID modelFields)
    ([], []) (fieldStep_error_indep D config r typeMap tableName primaryID modelFields)
    ks ([], [])).1 ?_
  intro k hk e he
  have := ((fieldStep_error_iff D config r typeMap tableName primaryID modelFields k e).mp he).1
  rw [h k hk] at this
  cases this

/-- The keys on either side of a key in the sorted key list are other keys of the
map. -/
theorem MapKeysSorted_split_mem {V : Type} (m : GoMap V) (before after : List String)
    (key : String) (hsplit : MapKeysSorted m = before ++ key :: after)
    (hb : key ∉ before) (ha : key ∉ after) :
    (∀ k ∈ before, k ∈ m.keys ∧ k ≠ key) ∧ (∀ k ∈ after, k ∈ m.keys ∧ k ≠ key) := by
  have hmem : ∀ k, k ∈ MapKeysSorted m → k ∈ m.keys :=
    fun k => (MapKeysSorted_perm_keys m).mem_iff.mp
  constructor
  · intro k hk
    exact ⟨hmem k (by rw [hsplit]; simp [hk]), fun h => hb (h ▸ hk)⟩
  · intro k hk
    exact ⟨hmem k (by rw [hsplit]; simp [hk]), fun h => ha (h ▸ hk)⟩

/-- C1, as stated, fails: the hypotheses speak of the relation to `R` alone, but
both functions return an error, and so no column or foreign key at all, as soon as any
other relation of the map is invalid. In the sample map the relation to `Company` is
for + to-one and `Company` resolves with the single primary field `ID` of a mapped
type, while `Ghost` is not in the registry: both functions return the registry's
error. -/
theorem for_one_relation_emits_nothing_when_another_relation_fails :
    exampleGhostRelations.WF ∧
    ("Company", { Type_ := "ForOne" }) ∈ exampleGhostRelations ∧
    exampleRegistry.GetModel "Company" = Except.ok exampleCompany ∧
    exampleCompany.Identifiers.get? "primary" = some { Fields := ["ID"] } ∧
    exampleCompany.Fields.get? "ID" = some { Type_ := "AutoIncrement" } ∧
    specDeps.MorpheModelFieldToPSQLFieldForeign.get? "AutoIncrement" = some "INTEGER" ∧
    specDeps.IsRelationFor "ForOne" = true ∧ specDeps.IsRelationOne "ForOne" = true ∧
    getColumnsForModelRelations specDeps exampleRegistry
      specDeps.MorpheModelFieldToPSQLFieldForeign exampleGhostRelations =
        Except.error (Err.external "model not found: Ghost") ∧
    getForeignKeysForModelRelations specDeps "public" "people" exampleRegistry
      exampleGhostRelations = Except.error (Err.external "model not found: Ghost") := by
  decide

/-- C1, amended: when the relation to `R` is for + to-one, `R` resolves, has the
single-field primary identifier `[pid]`, `pid` is a field of `R` with a mapped type,
and every other relation of the map is valid (not `relationTargetInvalid`), both
functions return: `getColumnsForModelRelations` returns the columns of the relations
sorted before `R`, then exactly one column for `R` (named
`GetForeignKeyColumnName R pid`, mapped type, not null, not primary key), then the
columns of the relations sorted after `R`; `getForeignKeysForModelRelations` returns
the foreign keys of the relations before `R`, then exactly one foreign key for `R`
(owning that column, referencing `GetTableNameFromModel R` and
`GetColumnNameFromField pid`, cascading), then those of the relations after `R`; the
column and the foreign key stand at the same position of their lists. -/
theorem for_one_relation_emits_one_column_and_one_foreign_key
    (D : Deps) (r : Registry) (typeMap : GoMap PSQLType) (schema tableName : String)
    (relatedModels : GoMap ModelRelation) (R : String) (rel : ModelRelation)
    (relatedModel : Model) (pid : String) (pidField : ModelField) (columnType : PSQLType)
    (hwf : relatedModels.WF) (hmem : (R, rel) ∈ relatedModels)
    (hmodel : r.GetModel R = Except.ok relatedModel)
    (hprimary : relatedModel.Identifiers.get? "primary" = some { Fields := [pid] })
    (hfield : relatedModel.Fields.get? pid = some pidField)
    (htype : typeMap.get? pidField.Type_ = some columnType)
    (hfor : D.IsRelationFor rel.Type_ = true) (hone : D.IsRelationOne rel.Type_ = true)
    (hvalid : ∀ name ∈ relatedModels.keys, name ≠ R →
      relationTargetInvalid D r typeMap relatedModels name = false) :
    ∃ (before after : List String) (cpre cpost : List Column) (fpre fpost : List ForeignKey),
      MapKeysSorted relatedModels = before ++ R :: after ∧ R ∉ before ∧ R ∉ after ∧
      rangeKeys (relationColumnStep D r typeMap relatedModels) before [] = Except.ok cpre ∧
      rangeKeys (relationColumnStep D r typeMap relatedModels) after [] = Except.ok cpost ∧
      rangeKeys (relationForeignKeyStep D schema tableName r relatedModels) before []
        = Except.ok fpre ∧
      rangeKeys (relationForeignKeyStep D schema tableName r relatedModels) after []
        = Except.ok fpost ∧
      fpre.length = cpre.length ∧ fpost.length = cpost.length ∧
      getColumnsForModelRelations D r typeMap relatedModels =
        Except.ok (cpre ++
          [{ Name := D.GetForeignKeyColumnName R pid, Type_ := columnType, NotNull := true,
             PrimaryKey := false, Default := "" }] ++ cpost) ∧
      getForeignKeysForModelRelations D schema tableName r relatedModels =
        Except.ok (fpre ++
          [{ Schema := schema
             Name := D.GetForeignKeyConstraintName tableName (D.GetForeignKeyColumnName R pid)
             TableName := tableName
             ColumnNames := [D.GetForeignKeyColumnName R pid]
             RefTableName := D.GetTableNameFromModel R
             RefColumnNames := [D.GetColumnNameFromField pid]
             OnDelete := "CASCADE"
             OnUpdate := "" }] ++ fpost) := by
  obtain ⟨before, after, hsplit, hb, ha⟩ := MapKeysSorted_split relatedModels hwf R rel hmem
  obtain ⟨hbm, ham⟩ := MapKeysSorted_split_mem relatedModels before after R hsplit hb ha
  have hidx : relatedModels.index R { Type_ := "" } = rel :=
    GoMap.index_of_mem relatedModels R rel _ hwf hmem
  have hvb : ∀ k ∈ before, relationTargetInvalid D r typeMap relatedModels k = false :=
    fun k hk => hvalid k (hbm k hk).1 (hbm k hk).2
  have hva : ∀ k ∈ after, relationTargetInvalid D r typeMap relatedModels k = false :=
    fun k hk => hvalid k (ham k hk).1 (ham k hk).2
  obtain ⟨cpre, hcpre⟩ := relationColumnLoop_ok D r typeMap relatedModels before hvb
  obtain ⟨cpost, hcpost⟩ := relationColumnLoop_ok D r typeMap relatedModels after hva
  obtain ⟨fpre, hfpre⟩ :=
    relationForeignKeyLoop_ok D schema tableName r typeMap relatedModels before hvb
  obtain ⟨fpost, hfpost⟩ :=
    relationForeignKeyLoop_ok D schema tableName r typeMap relatedModels after hva
  refine ⟨before, after, cpre, cpost, fpre, fpost, hsplit, hb, ha, hcpre, hcpost, hfpre, hfpost,
    ?_, ?_, ?_, ?_⟩
  · obtain ⟨d1, d2, hd1, hd2, hall⟩ := relationLoops_lockstep D schema tableName r typeMap
      relatedModels before [] cpre [] fpre hcpre hfpre
    rw [hd1, hd2]
    simp [hall.length_eq]
  · obtain ⟨d1, d2, hd1, hd2, hall⟩ := relationLoops_lockstep D schema tableName r typeMap
      relatedModels after [] cpost [] fpost hcpost hfpost
    rw [hd1, hd2]
    simp [hall.length_eq]
  · unfold getColumnsForModelRelations
    rw [hsplit]
    exact rangeKeys_split_ok _ (relationColumnStep_acc D r typeMap relatedModels) before after R
      cpre _ cpost hcpre
      (by simp [relationColumnStep, hidx, hmodel, hprimary, hfield, htype, hfor, hone]) hcpost
  · unfold getForeignKeysForModelRelations
    rw [hsplit]
    exact rangeKeys_split_ok _ (relationForeignKeyStep_acc D schema tableName r relatedModels)
      before after R fpre _ fpost hfpre
      (by simp [relationForeignKeyStep, hidx, hmodel, hprimary, hfield, hfor, hone]) hfpost

/-- C1 at a sample map with a for + to-one relation to `Company` and a valid
for + to-many relation to `Course`. -/
theorem for_one_relation_emits_one_column_and_one_foreign_key_witness :
    (∀ name ∈ exampleRelations.keys, name ≠ "Company" →
      relationTargetInvalid specDeps exampleRegistry
        specDeps.MorpheModelFieldToPSQLFieldForeign exampleRelations name = false) ∧
    ∃ (before after : List String) (cpre cpost : List Column) (fpre fpost : List ForeignKey),
      MapKeysSorted exampleRelations = before ++ "Company" :: after ∧ "Company" ∉ before ∧ "Company" ∉ after ∧
      rangeKeys (relationColumnStep specDeps exampleRegistry specDeps.MorpheModelFieldToPSQLFieldForeign exampleRelations) before [] = Except.ok cpre ∧
      rangeKeys (relationColumnStep specDeps exampleRegistry specDeps.MorpheModelFieldToPSQLFieldForeign exampleRelations) after [] = Except.ok cpost ∧
      rangeKeys (relationForeignKeyStep specDeps "public" "people" exampleRegistry exampleRelations) before []
        = Except.ok fpre ∧
      rangeKeys (relationForeignKeyStep specDeps "public" "people" exampleRegistry exampleRelations) after []
        = Except.ok fpost ∧
      fpre.length = cpre.length ∧ fpost.length = cpost.length ∧
      getColumnsForModelRelations specDeps exampleRegistry specDeps.MorpheModelFieldToPSQLFieldForeign exampleRelations =
        Except.ok (cpre ++
          [{ Name := specDeps.GetForeignKeyColumnName "Company" "ID", Type_ := "INTEGER", NotNull := true,
             PrimaryKey := false, Default := "" }] ++ cpost) ∧
      getForeignKeysForModelRelations specDeps "public" "people" exampleRegistry exampleRelations =
        Except.ok (fpre ++
          [{ Schema := "public"
             Name := specDeps.GetForeignKeyConstraintName "people" (specDeps.GetForeignKeyColumnName "Company" "ID")
             TableName := "people"
             ColumnNames := [specDeps.GetForeignKeyColumnName "Company" "ID"]
             RefTableName := specDeps.GetTableNameFromModel "Company"
             RefColumnNames := [specDeps.GetColumnNameFromField "ID"]
             OnDelete := "CASCADE"
             OnUpdate := "" }] ++ fpost) :=
  ⟨by decide,
    for_one_relation_emits_one_column_and_one_foreign_key specDeps exampleRegistry
      specDeps.MorpheModelFieldToPSQLFieldForeign "public" "people" exampleRelations
      "Company" { Type_ := "ForOne" } exampleCompany "ID" { Type_ := "AutoIncrement" } "INTEGER"
      (by decide) (by decide) (by decide) (by decide) (by decide) (by decide) (by decide)
      (by decide) (by decide)⟩

/-- C2, as stated, fails: the hypotheses speak of the relation from `A` to `B` alone,
but each of the three functions returns an error, and so no junction table, column or
foreign key at all, as soon as another relation of `A` is invalid for it. The sample
`Student` with a second for + to-many relation to `Zombie`, which is not in the
registry, has a valid for + to-many relation to `Course`, yet
`getJunctionTablesForForManyRelations` returns the registry's error, and so do the
other two functions and the compilation of the model. -/
theorem for_many_relation_makes_no_junction_table_when_another_relation_fails :
    exampleStudentZombie.Related.WF ∧
    ("Course", { Type_ := "ForMany" }) ∈ exampleStudentZombie.Related ∧
    exampleStudentZombie.Identifiers.get? "primary" = some { Fields := ["ID"] } ∧
    exampleRegistry.GetModel "Course" = Except.ok exampleCourse ∧
    exampleCourse.Identifiers.get? "primary" = some { Fields := ["ID"] } ∧
    specDeps.IsRelationFor "ForMany" = true ∧ specDeps.IsRelationMany "ForMany" = true ∧
    specDeps.IsRelationOne "ForMany" = false ∧
    getJunctionTablesForForManyRelations specDeps "public" exampleRegistry exampleStudentZombie
      = Except.error (Err.external "model not found: Zombie") ∧
    getColumnsForModelRelations specDeps exampleRegistry
      specDeps.MorpheModelFieldToPSQLFieldForeign exampleStudentZombie.Related
      = Except.error (Err.external "model not found: Zombie") ∧
    getForeignKeysForModelRelations specDeps "public" "students" exampleRegistry
      exampleStudentZombie.Related = Except.error (Err.external "model not found: Zombie") ∧
    morpheModelToPSQLTables specDeps exampleConfig exampleRegistry exampleStudentZombie
      = Except.error (Err.external "model not found: Zombie") := by
  decide

/-- C2, amended: let `A` have the primary identifier `[pa]` and a for + to-many (not
to-one) relation to `B`, which resolves with the primary identifier `[pb]`. When no
other relation of `A` is `junctionTargetInvalid`,
`getJunctionTablesForForManyRelations` returns the junction tables of the relations
sorted before `B`, then exactly one junction table for this relation, then those of
the relations after `B`; that table has three columns (`id` serial primary key, then
two integer columns that are not primary keys), two cascading foreign keys (one per
integer column, to the table and primary column of `A` and of `B`), one unique
constraint over the two integer columns, and two indices, one per foreign-key
column. When no relation of `A` is `relationTargetInvalid`,
`getColumnsForModelRelations` and `getForeignKeysForModelRelations` return what the
relations before `B` give followed by what the relations after `B` give: the relation
to `B` contributes no column and no foreign key. -/
theorem for_many_relation_makes_one_junction_table_and_no_column
    (D : Deps) (schema tableName : String) (r : Registry) (typeMap : GoMap PSQLType)
    (A : Model) (pa : String) (B : String) (rel : ModelRelation) (Bm : Model) (pb : String)
    (hwf : A.Related.WF) (hmem : (B, rel) ∈ A.Related)
    (hA : A.Identifiers.get? "primary" = some { Fields := [pa] })
    (hmodel : r.GetModel B = Except.ok Bm)
    (hB : Bm.Identifiers.get? "primary" = some { Fields := [pb] })
    (hfor : D.IsRelationFor rel.Type_ = true) (hmany : D.IsRelationMany rel.Type_ = true)
    (hone : D.IsRelationOne rel.Type_ = false) :
    ∃ before after : List String,
      MapKeysSorted A.Related = before ++ B :: after ∧ B ∉ before ∧ B ∉ after ∧
      ((∀ name ∈ A.Related.keys, name ≠ B →
          junctionTargetInvalid D r A.Related name = false) →
        ∃ jpre jpost : List Table,
          rangeKeys (junctionStep D schema r A pa) before [] = Except.ok jpre ∧
          rangeKeys (junctionStep D schema r A pa) after [] = Except.ok jpost ∧
          getJunctionTablesForForManyRelations D schema r A =
            Except.ok (jpre ++
              [{ Schema := schema
                 Name := D.GetJunctionTableName A.Name B
                 Columns :=
                   [ { Name := "id", Type_ := PSQLTypeSerial, NotNull := false,
                       PrimaryKey := true, Default := "" },
                     { Name := D.GetForeignKeyColumnName A.Name pa, Type_ := PSQLTypeInteger,
                       NotNull := false, PrimaryKey := false, Default := "" },
                     { Name := D.GetForeignKeyColumnName B pb, Type_ := PSQLTypeInteger,
                       NotNull := false, PrimaryKey := false, Default := "" } ]
                 ForeignKeys :=
                   [ { Schema := schema
                       Name := D.GetJunctionTableForeignKeyConstraintName
                         (D.GetJunctionTableName A.Name B) A.Name pa
                       TableName := D.GetJunctionTableName A.Name B
                       ColumnNames := [D.GetForeignKeyColumnName A.Name pa]
                       RefTableName := D.GetTableNameFromModel A.Name
                       RefColumnNames := [D.GetColumnNameFromField pa]
                       OnDelete := "CASCADE"
                       OnUpdate := "" },
                     { Schema := schema
                       Name := D.GetJunctionTableForeignKeyConstraintName
                         (D.GetJunctionTableName A.Name B) B pb
                       TableName := D.GetJunctionTableName A.Name B
                       ColumnNames := [D.GetForeignKeyColumnName B pb]
                       RefTableName := D.GetTableNameFromModel B
                       RefColumnNames := [D.GetColumnNameFromField pb]
                       OnDelete := "CASCADE"
                       OnUpdate := "" } ]
                 UniqueConstraints :=
                   [ { Name := D.GetJunctionTableUniqueConstraintName
                         (D.GetJunctionTableName A.Name B) A.Name pa B pb
                       TableName := D.GetJunctionTableName A.Name B
                       ColumnNames :=
                         [D.GetForeignKeyColumnName A.Name pa, D.GetForeignKeyColumnName B pb] } ]
                 Indices :=
                   [ { Name := D.GetIndexName (D.GetJunctionTableName A.Name B)
                         (D.GetForeignKeyColumnName A.Name pa)
                       TableName := D.GetJunctionTableName A.Name B
                       Columns := [D.GetForeignKeyColumnName A.Name pa]
                       IsUnique := false },
                     { Name := D.GetIndexName (D.GetJunctionTableName A.Name B)
                         (D.GetForeignKeyColumnName B pb)
                       TableName := D.GetJunctionTableName A.Name B
                       Columns := [D.GetForeignKeyColumnName B pb]
                       IsUnique := false } ] }] ++ jpost)) ∧
      ((∀ name ∈ A.Related.keys, relationTargetInvalid D r typeMap A.Related name = false) →
        ∃ (cpre cpost : List Column) (fpre fpost : List ForeignKey),
          rangeKeys (relationColumnStep D r typeMap A.Related) before [] = Except.ok cpre ∧
          rangeKeys (relationColumnStep D r typeMap A.Related) after [] = Except.ok cpost ∧
          rangeKeys (relationForeignKeyStep D schema tableName r A.Related) before []
            = Except.ok fpre ∧
          rangeKeys (relationForeignKeyStep D schema tableName r A.Related) after []
            = Except.ok fpost ∧
          getColumnsForModelRelations D r typeMap A.Related = Except.ok (cpre ++ cpost) ∧
          getForeignKeysForModelRelations D schema tableName r A.Related =
            Except.ok (fpre ++ fpost)) := by
  obtain ⟨before, after, hsplit, hb, ha⟩ := MapKeysSorted_split A.Related hwf B rel hmem
  obtain ⟨hbm, ham⟩ := MapKeysSorted_split_mem A.Related before after B hsplit hb ha
  have hidx : A.Related.index B { Type_ := "" } = rel :=
    GoMap.index_of_mem A.Related B rel _ hwf hmem
  refine ⟨before, after, hsplit, hb, ha, ?_, ?_⟩
  · intro hvalid
    obtain ⟨jpre, hjpre⟩ := junctionLoop_ok D schema r A pa before
      (fun k hk => hvalid k (hbm k hk).1 (hbm k hk).2)
    obtain ⟨jpost, hjpost⟩ := junctionLoop_ok D schema r A pa after
      (fun k hk => hvalid k (ham k hk).1 (ham k hk).2)
    refine ⟨jpre, jpost, hjpre, hjpost, ?_⟩
    unfold getJunctionTablesForForManyRelations
    simp only [hA]
    rw [hsplit]
    exact rangeKeys_split_ok _ (junctionStep_acc D schema r A pa) before after B jpre _ jpost
      hjpre
      (by simp [junctionStep, junctionTableFor, hidx, hmodel, hB, hfor, hmany,
        getIndicesForForeignKeys, foreignKeyIndex]) hjpost
  · intro hvalid
    have hvb : ∀ k ∈ before, relationTargetInvalid D r typeMap A.Related k = false :=
      fun k hk => hvalid k (hbm k hk).1
    have hva : ∀ k ∈ after, relationTargetInvalid D r typeMap A.Related k = false :=
      fun k hk => hvalid k (ham k hk).1
    have hBvalid := hvalid B (List.mem_map.mpr ⟨(B, rel), hmem, rfl⟩)
    obtain ⟨cpre, hcpre⟩ := relationColumnLoop_ok D r typeMap A.Related before hvb
    obtain ⟨cpost, hcpost⟩ := relationColumnLoop_ok D r typeMap A.Related after hva
    obtain ⟨fpre, hfpre⟩ :=
      relationForeignKeyLoop_ok D schema tableName r typeMap A.Related before hvb
    obtain ⟨fpost, hfpost⟩ :=
      relationForeignKeyLoop_ok D schema tableName r typeMap A.Related after hva
    refine ⟨cpre, cpost, fpre, fpost, hcpre, hcpost, hfpre, hfpost, ?_, ?_⟩
    · unfold getColumnsForModelRelations
      rw [hsplit]
      cases hf : Bm.Fields.get? pb with
      | none => simp [relationTargetInvalid, hmodel, hB, hf] at hBvalid
      | some fld =>
        have := rangeKeys_split_ok _ (relationColumnStep_acc D r typeMap A.Related) before
          after B cpre [] cpost hcpre
          (by simp [relationColumnStep, hidx, hmodel, hB, hf, hone]) hcpost
        simpa using this
    · unfold getForeignKeysForModelRelations
      rw [hsplit]
      cases hf : Bm.Fields.get? pb with
      | none => simp [relationTargetInvalid, hmodel, hB, hf] at hBvalid
      | some fld =>
        have := rangeKeys_split_ok _
          (relationForeignKeyStep_acc D schema tableName r A.Related) before
          after B fpre [] fpost hfpre
          (by simp [relationForeignKeyStep, hidx, hmodel, hB, hf, hone]) hfpost
        simpa using this

/-- C2 at the sample `Student`, whose relation to `Course` is for + to-many. -/
theorem for_many_relation_makes_one_junction_table_and_no_column_witness :
    ∃ before after : List String,
      MapKeysSorted exampleStudent.Related = before ++ "Course" :: after ∧ "Course" ∉ before ∧ "Course" ∉ after ∧
      (∃ jpre jpost : List Table,
          rangeKeys (junctionStep specDeps "public" exampleRegistry exampleStudent "ID") before [] = Except.ok jpre ∧
          rangeKeys (junctionStep specDeps "public" exampleRegistry exampleStudent "ID") after [] = Except.ok jpost ∧
          getJunctionTablesForForManyRelations specDeps "public" exampleRegistry exampleStudent =
            Except.ok (jpre ++
              [{ Schema := "public"
                 Name := specDeps.GetJunctionTableName exampleStudent.Name "Course"
                 Columns :=
                   [ { Name := "id", Type_ := PSQLTypeSerial, NotNull := false,
                       PrimaryKey := true, Default := "" },
                     { Name := specDeps.GetForeignKeyColumnName exampleStudent.Name "ID", Type_ := PSQLTypeInteger,
                       NotNull := false, PrimaryKey := false, Default := "" },
                     { Name := specDeps.GetForeignKeyColumnName "Course" "ID", Type_ := PSQLTypeInteger,
                       NotNull := false, PrimaryKey := false, Default := "" } ]
                 ForeignKeys :=
                   [ { Schema := "public"
                       Name := specDeps.GetJunctionTableForeignKeyConstraintName
                         (specDeps.GetJunctionTableName exampleStudent.Name "Course") exampleStudent.Name "ID"
                       TableName := specDeps.GetJunctionTableName exampleStudent.Name "Course"
                       ColumnNames := [specDeps.GetForeignKeyColumnName exampleStudent.Name "ID"]
                       RefTableName := specDeps.GetTableNameFromModel exampleStudent.Name
                       RefColumnNames := [specDeps.GetColumnNameFromField "ID"]
                       OnDelete := "CASCADE"
                       OnUpdate := "" },
                     { Schema := "public"
                       Name := specDeps.GetJunctionTableForeignKeyConstraintName
                         (specDeps.GetJunctionTableName exampleStudent.Name "Course") "Course" "ID"
                       TableName := specDeps.GetJunctionTableName exampleStudent.Name "Course"
                       ColumnNames := [specDeps.GetForeignKeyColumnName "Course" "ID"]
                       RefTableName := specDeps.GetTableNameFromModel "Course"
                       RefColumnNames := [specDeps.GetColumnNameFromField "ID"]
                       OnDelete := "CASCADE"
                       OnUpdate := "" } ]
                 UniqueConstraints :=
                   [ { Name := specDeps.GetJunctionTableUniqueConstraintName
                         (specDeps.GetJunctionTableName exampleStudent.Name "Course") exampleStudent.Name "ID" "Course" "ID"
                       TableName := specDeps.GetJunctionTableName exampleStudent.Name "Course"
                       ColumnNames :=
                         [specDeps.GetForeignKeyColumnName exampleStudent.Name "ID", specDeps.GetForeignKeyColumnName "Course" "ID"] } ]
                 Indices :=
                   [ { Name := specDeps.GetIndexName (specDeps.GetJunctionTableName exampleStudent.Name "Course")
                         (specDeps.GetForeignKeyColumnName exampleStudent.Name "ID")
                       TableName := specDeps.GetJunctionTableName exampleStudent.Name "Course"
                       Columns := [specDeps.GetForeignKeyColumnName exampleStudent.Name "ID"]
                       IsUnique := false },
                     { Name := specDeps.GetIndexName (specDeps.GetJunctionTableName exampleStudent.Name "Course")
                         (specDeps.GetForeignKeyColumnName "Course" "ID")
                       TableName := specDeps.GetJunctionTableName exampleStudent.Name "Course"
                       Columns := [specDeps.GetForeignKeyColumnName "Course" "ID"]
                       IsUnique := false } ] }] ++ jpost)) ∧
      (∃ (cpre cpost : List Column) (fpre fpost : List ForeignKey),
          rangeKeys (relationColumnStep specDeps exampleRegistry specDeps.MorpheModelFieldToPSQLFieldForeign exampleStudent.Related) before [] = Except.ok cpre ∧
          rangeKeys (relationColumnStep specDeps exampleRegistry specDeps.MorpheModelFieldToPSQLFieldForeign exampleStudent.Related) after [] = Except.ok cpost ∧
          rangeKeys (relationForeignKeyStep specDeps "public" "students" exampleRegistry exampleStudent.Related) before []
            = Except.ok fpre ∧
          rangeKeys (relationForeignKeyStep specDeps "public" "students" exampleRegistry exampleStudent.Related) after []
            = Except.ok fpost ∧
          getColumnsForModelRelations specDeps exampleRegistry specDeps.MorpheModelFieldToPSQLFieldForeign exampleStudent.Related = Except.ok (cpre ++ cpost) ∧
          getForeignKeysForModelRelations specDeps "public" "students" exampleRegistry exampleStudent.Related =
            Except.ok (fpre ++ fpost)) := by
  obtain ⟨before, after, hsplit, hb, ha, hjunction, hcolumns⟩ :=
    for_many_relation_makes_one_junction_table_and_no_column specDeps "public" "students"
      exampleRegistry specDeps.MorpheModelFieldToPSQLFieldForeign exampleStudent "ID" "Course"
      { Type_ := "ForMany" } exampleCourse "ID"
      (by decide) (by decide) (by decide) (by decide) (by decide) (by decide) (by decide)
      (by decide)
  exact ⟨before, after, hsplit, hb, ha, hjunction (by decide), hcolumns (by decide)⟩

/-- C3, as stated, fails: the hypotheses speak of the field `f` alone, but
`getColumnsForModelFields` returns an error, and so no column or foreign key at all,
as soon as another field has an unsupported type. In the sample field map
`Nationality` is enum-typed and `Zed` has the type `Blob`, which is neither mapped
nor an enum: the function returns the error for `Zed`. -/
theorem enum_field_emits_nothing_when_another_field_is_unsupported :
    exampleBlobFields.WF ∧
    ("Nationality", { Type_ := "Nationality" }) ∈ exampleBlobFields ∧
    specDeps.MorpheModelFieldToPSQLField.get? "Nationality" = none ∧
    exampleRegistry.GetEnum "Nationality" = Except.ok { Name := "Nationality" } ∧
    getColumnsForModelFields specDeps exampleConfig exampleRegistry
      specDeps.MorpheModelFieldToPSQLField "people" { Fields := ["ID"] } exampleBlobFields =
        Except.error (Err.errorf "morphe model field 'Zed' has unsupported type 'Blob'") := by
  decide

/-- C3, amended: when every other field of the map has a supported type (not
`fieldTypeUnsupported`), `getColumnsForModelFields` returns, for a field `f` whose
declared type is not a key of the type map but names an enum `E` of the registry, the
columns and foreign keys of the fields sorted before `f`, then exactly one column for
`f` (`GetColumnNameFromField f ++ "_id"`, integer, not null) and exactly one foreign
key for `f` (owning that column, referencing column `id` of
`Pluralize (ToSnakeCaseLower E.Name)`, cascading), then those of the fields sorted
after `f`; for a field whose type is a key of the type map it returns one column of
the mapped type and no foreign key in that place. Every field gives one column, so
the column of `f` stands at the position of `f` among the sorted field names. -/
theorem enum_field_emits_one_integer_column_and_one_foreign_key
    (D : Deps) (config : MorpheConfig) (r : Registry) (typeMap : GoMap PSQLType)
    (tableName : String) (primaryID : ModelIdentifier) (modelFields : GoMap ModelField)
    (f : String) (field : ModelField)
    (hwf : modelFields.WF) (hmem : (f, field) ∈ modelFields)
    (hvalid : ∀ name ∈ modelFields.keys, name ≠ f →
      fieldTypeUnsupported r typeMap modelFields name = false) :
    ∃ (before after : List String) (pre post : List Column × List ForeignKey),
      MapKeysSorted modelFields = before ++ f :: after ∧ f ∉ before ∧ f ∉ after ∧
      rangeKeys (fieldStep D config r typeMap tableName primaryID modelFields) before ([], [])
        = Except.ok pre ∧
      rangeKeys (fieldStep D config r typeMap tableName primaryID modelFields) after ([], [])
        = Except.ok post ∧
      pre.1.length = before.length ∧ post.1.length = after.length ∧
      (∀ E : Enum, typeMap.get? field.Type_ = none → r.GetEnum field.Type_ = Except.ok E →
        getColumnsForModelFields D config r typeMap tableName primaryID modelFields =
          Except.ok
            (pre.1 ++
              [{ Name := D.GetColumnNameFromField f ++ "_id", Type_ := PSQLTypeInteger,
                 NotNull := true, PrimaryKey := decide (f ∈ primaryID.Fields),
                 Default := "" }] ++ post.1,
             pre.2 ++
              [{ Schema := config.MorpheModelsConfig.Schema
                 Name := D.GetForeignKeyConstraintName tableName
                   (D.GetColumnNameFromField f ++ "_id")
                 TableName := tableName
                 ColumnNames := [D.GetColumnNameFromField f ++ "_id"]
                 RefTableName := D.Pluralize (D.ToSnakeCaseLower E.Name)
                 RefColumnNames := ["id"]
                 OnDelete := "CASCADE"
                 OnUpdate := "" }] ++ post.2)) ∧
      (∀ columnType : PSQLType, typeMap.get? field.Type_ = some columnType →
        getColumnsForModelFields D config r typeMap tableName primaryID modelFields =
          Except.ok
            (pre.1 ++
              [{ Name := D.GetColumnNameFromField f, Type_ := columnType,
                 NotNull := false, PrimaryKey := decide (f ∈ primaryID.Fields),
                 Default := "" }] ++ post.1,
             pre.2 ++ post.2)) := by
  obtain ⟨before, after, hsplit, hb, ha⟩ := MapKeysSorted_split modelFields hwf f field hmem
  obtain ⟨hbm, ham⟩ := MapKeysSorted_split_mem modelFields before after f hsplit hb ha
  have hidx : modelFields.index f { Type_ := "" } = field :=
    GoMap.index_of_mem modelFields f field _ hwf hmem
  obtain ⟨pre, hpre⟩ := fieldLoop_ok D config r typeMap tableName primaryID modelFields before
    (fun k hk => hvalid k (hbm k hk).1 (hbm k hk).2)
  obtain ⟨post, hpost⟩ := fieldLoop_ok D config r typeMap tableName primaryID modelFields after
    (fun k hk => hvalid k (ham k hk).1 (ham k hk).2)
  refine ⟨before, after, pre, post, hsplit, hb, ha, hpre, hpost, ?_, ?_, ?_, ?_⟩
  · obtain ⟨d, hd, hall⟩ := fieldLoop_columns D config r typeMap tableName primaryID
      modelFields before ([], []) pre hpre
    rw [hd]
    simp [hall.length_eq]
  · obtain ⟨d, hd, hall⟩ := fieldLoop_columns D config r typeMap tableName primaryID
      modelFields after ([], []) post hpost
    rw [hd]
    simp [hall.length_eq]
  · intro E hnot henum
    unfold getColumnsForModelFields
    rw [hsplit]
    exact rangeKeys_split_pair_ok _
      (fieldStep_acc D config r typeMap tableName primaryID modelFields) before after f pre
      ([{ Name := D.GetColumnNameFromField f ++ "_id", Type_ := PSQLTypeInteger,
          NotNull := true, PrimaryKey := decide (f ∈ primaryID.Fields), Default := "" }],
       [{ Schema := config.MorpheModelsConfig.Schema
          Name := D.GetForeignKeyConstraintName tableName (D.GetColumnNameFromField f ++ "_id")
          TableName := tableName
          ColumnNames := [D.GetColumnNameFromField f ++ "_id"]
          RefTableName := D.Pluralize (D.ToSnakeCaseLower E.Name)
          RefColumnNames := ["id"]
          OnDelete := "CASCADE"
          OnUpdate := "" }]) post hpre
      (by simp [fieldStep, hidx, hnot, henum, slicesIndex_ne_iff]) hpost
  · intro columnType htype
    unfold getColumnsForModelFields
    rw [hsplit]
    have := rangeKeys_split_pair_ok _
      (fieldStep_acc D config r typeMap tableName primaryID modelFields) before after f pre
      ([{ Name := D.GetColumnNameFromField f, Type_ := columnType,
          NotNull := false, PrimaryKey := decide (f ∈ primaryID.Fields), Default := "" }], [])
      post hpre (by simp [fieldStep, hidx, htype, slicesIndex_ne_iff]) hpost
    simpa using this

/-- C3 at the sample `Person`: the field `Nationality` is enum-typed, the other
three fields have mapped types. -/
theorem enum_field_emits_one_integer_column_and_one_foreign_key_witness :
    (∀ name ∈ examplePerson.Fields.keys, name ≠ "Nationality" →
      fieldTypeUnsupported exampleRegistry specDeps.MorpheModelFieldToPSQLField
        examplePerson.Fields name = false) ∧
    ∃ (before after : List String) (pre post : List Column × List ForeignKey),
      MapKeysSorted examplePerson.Fields = before ++ "Nationality" :: after ∧ "Nationality" ∉ before ∧ "Nationality" ∉ after ∧
      rangeKeys (fieldStep specDeps exampleConfig exampleRegistry specDeps.MorpheModelFieldToPSQLField "people" ({ Fields := ["ID"] } : ModelIdentifier) examplePerson.Fields) before ([], [])
        = Except.ok pre ∧
      rangeKeys (fieldStep specDeps exampleConfig exampleRegistry specDeps.MorpheModelFieldToPSQLField "people" ({ Fields := ["ID"] } : ModelIdentifier) examplePerson.Fields) after ([], [])
        = Except.ok post ∧
      pre.1.length = before.length ∧ post.1.length = after.length ∧
      getColumnsForModelFields specDeps exampleConfig exampleRegistry specDeps.MorpheModelFieldToPSQLField "people" ({ Fields := ["ID"] } : ModelIdentifier) examplePerson.Fields =
          Except.ok
            (pre.1 ++
              [{ Name := specDeps.GetColumnNameFromField "Nationality" ++ "_id", Type_ := PSQLTypeInteger,
                 NotNull := true, PrimaryKey := decide ("Nationality" ∈ ({ Fields := ["ID"] } : ModelIdentifier).Fields),
                 Default := "" }] ++ post.1,
             pre.2 ++
              [{ Schema := exampleConfig.MorpheModelsConfig.Schema
                 Name := specDeps.GetForeignKeyConstraintName "people"
                   (specDeps.GetColumnNameFromField "Nationality" ++ "_id")
                 TableName := "people"
                 ColumnNames := [specDeps.GetColumnNameFromField "Nationality" ++ "_id"]
                 RefTableName := specDeps.Pluralize (specDeps.ToSnakeCaseLower ({ Name := "Nationality" } : Enum).Name)
                 RefColumnNames := ["id"]
                 OnDelete := "CASCADE"
                 OnUpdate := "" }] ++ post.2) := by
  refine ⟨by decide, ?_⟩
  obtain ⟨before, after, pre, post, hsplit, hb, ha, hpre, hpost, hl1, hl2, henum, _⟩ :=
    enum_field_emits_one_integer_column_and_one_foreign_key specDeps exampleConfig
      exampleRegistry specDeps.MorpheModelFieldToPSQLField "people" { Fields := ["ID"] }
      examplePerson.Fields "Nationality" { Type_ := "Nationality" }
      (by decide) (by decide) (by decide)
  exact ⟨before, after, pre, post, hsplit, hb, ha, hpre, hpost, hl1, hl2,
    henum { Name := "Nationality" } (by decide) (by decide)⟩

end Morphe
